import Mathlib

/-!
# accel-ppp PPPoE discovery server: a shallow embedding of `pppoe.c`

The definitions below follow `accel-pppd/ctrl/pppoe/pppoe.c` function by function.

Conventions of the embedding
* a byte is a natural number below 256, a byte array is a `List Nat`;
* 16-bit fields of a received frame are read in network order (`be16`), which is
  what `ntohs` yields on the stored field;
* C `int`, `long` and `time_t` values are `Int` (they stay far from the ends of their
  range); the statistics counters that are only ever incremented are unbounded
  naturals, their wrap-around is not modelled; `stat_active` and `total_padi_cnt`,
  which are also decremented, are `unsigned int` and are reduced modulo `2 ^ 32`;
* a pointer that may be `NULL` is an `Option`;
* effects on the outside world (a frame written to the socket, a call into the PPP
  engine or the timer runtime) are returned as a list of `action`s, in program order;
* a loop that the C code does not obviously leave is given a fuel argument and
  returns `none` when the fuel is used up before the loop is left;
* the send routines are modelled twice: as the `action` a handler emits, carrying
  the arguments of the call, and as the bytes the routine writes (`setup_header`,
  `add_tag`, `add_tag2`, `pppoe_send` on a buffer of `ETHER_MAX_LEN` bytes); a
  store beyond the end of the buffer, undefined in C, lengthens the list, and the
  results on frames assume that the frame fits the buffer.
-/

namespace Pppoe

/-! ## Constants of the headers -/

/-- Length of an Ethernet address, `ETH_ALEN`. -/
def ETH_ALEN : Nat := 6

/-- Length of the Ethernet header, `ETH_HLEN`. -/
def ETH_HLEN : Nat := 14

/-- Size of `struct pppoe_hdr`. -/
def PPPOE_HLEN : Nat := 6

/-- Size of the fixed part of `struct pppoe_tag` (type and length fields). -/
def TAG_HLEN : Nat := 4

/-- Length of the per-server secret, `SECRET_LENGTH`. -/
def SECRET_LENGTH : Nat := 16

/-- Length of an AC-Cookie, `COOKIE_LENGTH`. -/
def COOKIE_LENGTH : Nat := 24

def CODE_PADI : Nat := 0x09
def CODE_PADO : Nat := 0x07
def CODE_PADR : Nat := 0x19
def CODE_PADS : Nat := 0x65
def CODE_PADT : Nat := 0xa7

def TAG_END_OF_LIST : Nat := 0x0000
def TAG_SERVICE_NAME : Nat := 0x0101
def TAG_AC_NAME : Nat := 0x0102
def TAG_HOST_UNIQ : Nat := 0x0103
def TAG_AC_COOKIE : Nat := 0x0104
def TAG_VENDOR_SPECIFIC : Nat := 0x0105
def TAG_RELAY_SESSION_ID : Nat := 0x0110
def TAG_SERVICE_NAME_ERROR : Nat := 0x0201
def TAG_AC_SYSTEM_ERROR : Nat := 0x0202
def TAG_GENERIC_ERROR : Nat := 0x0203

/-- Termination causes handed to `ppp_terminate` (`ppp.h`); only the two that
`pppoe.c` uses. -/
inductive term_cause where
  | TERM_USER_REQUEST
  | TERM_ADMIN_RESET
deriving DecidableEq, Repr

/-! ## Data model -/

/-- The C `struct timespec`. -/
structure timespec where
  tv_sec : Int
  tv_nsec : Int
deriving DecidableEq, Repr

/-- The C `struct padi_t`: one entry of the PADI window. -/
structure padi_t where
  ts : timespec
  addr : List Nat
deriving DecidableEq, Repr

/-- An owned copy of a `struct pppoe_tag`: type and length in host order, then
`tag_len` bytes of data. -/
structure pppoe_tag where
  tag_type : Nat
  tag_len : Nat
  tag_data : List Nat
deriving DecidableEq, Repr

/-- The C `struct delayed_pado_t` (the timer itself lives in the runtime). -/
structure delayed_pado_t where
  addr : List Nat
  host_uniq : Option pppoe_tag
  relay_sid : Option pppoe_tag
  service_name : Option pppoe_tag
  period : Int
deriving DecidableEq, Repr

/-- The C `struct pppoe_conn_t`. `serv` is the back pointer, held as the address of the
server structure; `username` is `ppp.username`. -/
structure pppoe_conn_t where
  serv : Nat
  sid : Nat
  addr : List Nat
  ppp_started : Bool
  relay_sid : Option pppoe_tag
  host_uniq : Option pppoe_tag
  service_name : pppoe_tag
  tr101 : Option pppoe_tag
  cookie : List Nat
  calling_station_id : String
  called_station_id : String
  username : Option String
deriving DecidableEq, Repr

/-- The C `struct pppoe_serv_t` (`pppoe.h`). `ptr` is the address of the structure, the
value a session keeps in its `serv` field; `conn` is the array `conn[MAX_SID]`
indexed by session id; the three lists are the intrusive lists of the C code in
list order. -/
structure pppoe_serv_t where
  ptr : Nat
  hwaddr : List Nat
  ifname : String
  service_names : List (Option (List Nat))
  require_service_name : Int
  secret : List Nat
  des_ks : List Nat
  conn : Nat → Option pppoe_conn_t
  sid : Nat
  conn_cnt : Int
  conn_list : List pppoe_conn_t
  pado_list : List delayed_pado_t
  padi_list : List padi_t
  padi_cnt : Int
  padi_limit : Int
  last_padi_limit_warn : Int
  stopping : Bool

/-- The global variables of `pppoe.c`, together with `ppp_shutdown` (`ppp.h`) and
`pado_delay` (`dpado.c`) which the handlers read. -/
structure globals where
  conf_verbose : Int
  conf_ac_name : List Nat
  conf_ifname_in_sid : Int
  conf_tr101 : Int
  conf_padi_limit : Int
  conf_reply_exact_service : Int
  conf_service_names : List (Option (List Nat))
  stat_active : Nat
  stat_delayed_pado : Nat
  stat_PADI_recv : Nat
  stat_PADI_drop : Nat
  stat_PADO_sent : Nat
  stat_PADR_recv : Nat
  stat_PADR_dup_recv : Nat
  stat_PADS_sent : Nat
  total_padi_cnt : Nat
  ppp_shutdown : Int
  pado_delay : Int
deriving DecidableEq, Repr

/-- What a handler does to the outside world. -/
inductive action where
  /-- The frame written by `pppoe_send_PADO` for these arguments. -/
  | sent_PADO (dst : List Nat) (host_uniq relay_sid service_name : Option pppoe_tag)
  /-- The frame written by `pppoe_send_PADT` for this session. -/
  | sent_PADT (conn : pppoe_conn_t)
  /-- A call `ppp_terminate(&conn->ppp, cause, hard)`. -/
  | ppp_terminate (conn : pppoe_conn_t) (cause : term_cause) (hard : Int)
  /-- A call `dpado_check_prev(v)`. -/
  | dpado_check_prev (v : Nat)
  /-- A call of `triton_timer_add` for a new delayed PADO. -/
  | timer_add (pado : delayed_pado_t)
  /-- A call `pppoe_server_free(serv)`. -/
  | server_free (serv : Nat)
  /-- The frame written by `pppoe_send_err` for these arguments. -/
  | sent_err (dst : List Nat) (host_uniq relay_sid : Option pppoe_tag) (code : Nat)
      (tag_type : Nat)
  /-- The frame written by `pppoe_send_PADS` for this session. -/
  | sent_PADS (conn : pppoe_conn_t)
  /-- A call `triton_context_call(&conn->ctx, connect_channel, conn)`. -/
  | call_connect_channel (conn : pppoe_conn_t)
  /-- A call `triton_context_call(&conn->ctx, disconnect, conn)`. -/
  | call_disconnect (conn : pppoe_conn_t)
  /-- A call `triton_md_disable_handler(&serv->hnd, MD_MODE_READ | MD_MODE_WRITE)`. -/
  | md_disable_handler (serv : Nat)
  /-- A call `triton_context_call(&conn->ctx, _conn_stop, conn)`. -/
  | call_conn_stop (conn : pppoe_conn_t)
  /-- A call `triton_timer_del(&pado->timer)`. -/
  | timer_del (pado : delayed_pado_t)
  /-- A call `dpado_check_next(v)`. -/
  | dpado_check_next (v : Nat)
deriving DecidableEq, Repr

/-! ## Byte helpers -/

/-- The byte at index `i` of a buffer. -/
def byte (buf : List Nat) (i : Nat) : Nat := buf.getD i 0

/-- Value `ntohs` gives for the 16-bit field stored at offset `i`. -/
def be16 (buf : List Nat) (i : Nat) : Nat := byte buf i * 256 + byte buf (i + 1)

/-- Copy `memcpy(buf + off, src, src.length)` inside a buffer. -/
def memcpy_at (buf : List Nat) (off : Nat) (src : List Nat) : List Nat :=
  buf.take off ++ src ++ buf.drop (off + src.length)

/-- Result of `memcmp(a, b, n)`: zero when the first `n` bytes agree, otherwise the
difference of the first pair of bytes that differ. -/
def memcmp : List Nat → List Nat → Nat → Int
  | _, _, 0 => 0
  | [], [], _ + 1 => 0
  | [], _ :: _, _ + 1 => -1
  | _ :: _, [], _ + 1 => 1
  | a :: as, b :: bs, n + 1 => if a = b then memcmp as bs n else (a : Int) - (b : Int)

/-! ## Cookie engine -/

/-- The DES and MD5 primitives that `pppoe.c` calls through `crypto.h`. They belong
to the crypto library, not to this source file, and are taken as parameters:
a key schedule is an uninterpreted byte string, `DES_ecb_encrypt input ks enc` is one
ECB block operation (`enc = true` for `DES_ENCRYPT`), `DES_set_key_checked`
returns its status together with the schedule it wrote, and `MD5 m` is the
digest of the concatenation of the `MD5_Update` arguments. The two length
fields record the C types (`DES_cblock` is 8 bytes, a digest is 16). -/
structure crypto where
  DES_set_key : List Nat → List Nat
  DES_set_key_checked : List Nat → Int × List Nat
  DES_ecb_encrypt : List Nat → List Nat → Bool → List Nat
  MD5 : List Nat → List Nat
  DES_cblock_length : ∀ b ks e, (DES_ecb_encrypt b ks e).length = 8
  MD5_length : ∀ m, (MD5 m).length = 16

/-- Member `b[i]` of the union of `DES_cblock b[3]` and `uint8_t raw[24]`. -/
def blk (raw : List Nat) (i : Nat) : List Nat := (raw.drop (8 * i)).take 8

/-- Store of one `DES_cblock` into member `b[i]` of the union. -/
def set_blk (raw : List Nat) (i : Nat) (b : List Nat) : List Nat := memcpy_at raw (8 * i) b

/-- Function `generate_cookie`; `key` is the block that `DES_random_key` returned. The two
unions start with indeterminate contents, written as zeroes; every byte is
stored before it is read. -/
def generate_cookie (c : crypto) (serv : pppoe_serv_t) (src : List Nat) (key : List Nat) :
    List Nat :=
  let ks := c.DES_set_key key
  let u1 := List.replicate 24 0
  let u2 := List.replicate 24 0
  let u1 := memcpy_at u1 0 (c.MD5 (serv.secret ++ serv.hwaddr ++ src ++ key))
  let u2 := [0, 1].foldl (fun u i => set_blk u i (c.DES_ecb_encrypt (blk u1 i) ks true)) u2
  let u2 := set_blk u2 2 key
  let u1 := [0, 1, 2].foldl
    (fun u i => set_blk u i (c.DES_ecb_encrypt (blk u2 i) serv.des_ks true)) u1
  u1

/-- Function `check_cookie`: `0` when the cookie is accepted. -/
def check_cookie (c : crypto) (serv : pppoe_serv_t) (src : List Nat) (cookie : List Nat) :
    Int :=
  let u1 := cookie.take 24
  let u2 := List.replicate 24 0
  let u2 := [0, 1, 2].foldl
    (fun u i => set_blk u i (c.DES_ecb_encrypt (blk u1 i) serv.des_ks false)) u2
  let r := c.DES_set_key_checked (blk u2 2)
  if r.1 ≠ 0 then -1
  else
    let ks := r.2
    let u1 := [0, 1].foldl (fun u i => set_blk u i (c.DES_ecb_encrypt (blk u2 i) ks false)) u1
    let u2 := memcpy_at u2 0 (c.MD5 (serv.secret ++ serv.hwaddr ++ src ++ blk u2 2))
    memcmp u1 u2 16

/-- The digest that both cookie routines compute: MD5 over the secret, the address of
the server, the address of the peer and the key. -/
def cookie_digest (c : crypto) (serv : pppoe_serv_t) (src key : List Nat) : List Nat :=
  c.MD5 (serv.secret ++ serv.hwaddr ++ src ++ key)

/-! ## Session table -/

/-- One hexadecimal digit, lower case. -/
def hex_digit (n : Nat) : Char :=
  if n < 10 then Char.ofNat (48 + n) else Char.ofNat (87 + n)

/-- What the conversion `%02x` prints for one byte. -/
def hex02 (b : Nat) : String := String.mk [hex_digit (b / 16), hex_digit (b % 16)]

/-- What the format `%02x:%02x:%02x:%02x:%02x:%02x` prints for `a[0]`..`a[5]`. -/
def mac_str (a : List Nat) : String :=
  ":".intercalate ((List.range 6).map (fun i => hex02 (byte a i)))

/-- The `for` loop of `allocate_channel`, entered at the test `sid != serv->sid`
with loop variable `sid`. The result is `none` when the loop is still running
after `fuel` tests, `some none` when the loop is left through its condition (no
slot was taken), and `some (some s)` when the body took slot `s` and left
through `break`. -/
def sid_scan (MAX_SID : Nat) (conn : Nat → Option pppoe_conn_t) (cursor : Nat) :
    Nat → Nat → Option (Option Nat)
  | 0, _ => none
  | fuel + 1, sid =>
    if sid = cursor then some none
    else
      let sid1 := if sid = MAX_SID then 1 else sid
      if (conn sid1).isNone then some (some sid1)
      else sid_scan MAX_SID conn cursor fuel (sid1 + 1)

/-- Function `allocate_channel`. `MAX_SID` is the constant of `pppoe.h`, `alloc_ok`
tells whether `mempool_alloc` returned a block, `fuel` bounds the number of loop
tests. The result is `none` when the loop has not been left within the fuel;
otherwise the server afterwards and the returned session (`none` for `NULL`).
`service_name` is dereferenced without a test and is therefore a tag, not an
optional one. Registration with the runtime and `dup` of the socket are not
part of the model. -/
def allocate_channel (MAX_SID : Nat) (g : globals) (fuel : Nat) (alloc_ok : Bool)
    (serv : pppoe_serv_t) (addr : List Nat) (host_uniq relay_sid : Option pppoe_tag)
    (service_name : pppoe_tag) (tr101 : Option pppoe_tag) (cookie : List Nat) :
    Option (pppoe_serv_t × Option pppoe_conn_t) :=
  if !alloc_ok then some (serv, none)
  else
    match sid_scan MAX_SID serv.conn serv.sid fuel (serv.sid + 1) with
    | none => none
    | some none => some (serv, none)
    | some (some sid) =>
      let conn : pppoe_conn_t :=
        { serv := serv.ptr
          sid := sid % 65536
          addr := addr.take ETH_ALEN
          ppp_started := false
          relay_sid := relay_sid
          host_uniq := host_uniq
          service_name := service_name
          tr101 := tr101
          cookie := cookie.take COOKIE_LENGTH
          calling_station_id :=
            if g.conf_ifname_in_sid = 1 ∨ g.conf_ifname_in_sid = 3 then
              serv.ifname ++ ":" ++ mac_str addr
            else mac_str addr
          called_station_id :=
            if g.conf_ifname_in_sid = 2 ∨ g.conf_ifname_in_sid = 3 then
              serv.ifname ++ ":" ++ mac_str serv.hwaddr
            else mac_str serv.hwaddr
          username := none }
      let serv1 : pppoe_serv_t :=
        { serv with
          sid := sid % 65536
          conn := Function.update serv.conn sid (some conn)
          conn_list := serv.conn_list ++ [conn]
          conn_cnt := serv.conn_cnt + 1 }
      if conn.sid = 0 then some (serv1, none) else some (serv1, some conn)

/-- Function `disconnect`, run on a session `conn` of the server `serv` that
`conn->serv` points to. Closing the socket, the runtime event and the release of
the session memory are not part of the model. -/
def disconnect (g : globals) (conn : pppoe_conn_t) (serv : pppoe_serv_t) :
    globals × pppoe_serv_t × List action :=
  let g1 : globals :=
    if conn.ppp_started then { g with stat_active := (g.stat_active + 2 ^ 32 - 1) % 2 ^ 32 }
    else g
  let conn1 : pppoe_conn_t :=
    if conn.ppp_started then { conn with ppp_started := false } else conn
  let acts1 : List action :=
    if conn.ppp_started then
      [action.dpado_check_prev g.stat_active,
       action.ppp_terminate conn1 term_cause.TERM_USER_REQUEST 1]
    else []
  let serv1 : pppoe_serv_t :=
    { serv with
      conn := Function.update serv.conn conn.sid none
      conn_list := serv.conn_list.erase conn
      conn_cnt := serv.conn_cnt - 1 }
  let acts2 : List action :=
    if serv1.stopping ∧ serv1.conn_cnt = 0 then [action.server_free serv.ptr] else []
  (g1, serv1, acts1 ++ [action.sent_PADT conn1] ++ acts2)

/-- The number of occupied slots of `conn[0 .. MAX_SID-1]`. -/
def occupied (MAX_SID : Nat) (conn : Nat → Option pppoe_conn_t) : Nat :=
  ((List.range MAX_SID).filter (fun i => (conn i).isSome)).length

/-- A server as `pppoe_server_start` leaves its session table: the structure was
cleared by `memset`, so the table is empty, the cursor is 0 and the list is empty. -/
def fresh_table (serv : pppoe_serv_t) : Prop :=
  (∀ i, serv.conn i = none) ∧ serv.sid = 0 ∧ serv.conn_cnt = 0 ∧ serv.conn_list = []

/-- The states of a server that `allocate_channel` and `disconnect` (of a session
that is in the table) lead to from `s0`. -/
inductive table_reachable (MAX_SID : Nat) (s0 : pppoe_serv_t) : pppoe_serv_t → Prop
  | start : table_reachable MAX_SID s0 s0
  | alloc (s s1 : pppoe_serv_t) (g : globals) (fuel : Nat) (alloc_ok : Bool)
      (addr : List Nat) (host_uniq relay_sid : Option pppoe_tag) (service_name : pppoe_tag)
      (tr101 : Option pppoe_tag) (cookie : List Nat) (r : Option pppoe_conn_t) :
      table_reachable MAX_SID s0 s →
      allocate_channel MAX_SID g fuel alloc_ok s addr host_uniq relay_sid service_name tr101
        cookie = some (s1, r) →
      table_reachable MAX_SID s0 s1
  | disc (s : pppoe_serv_t) (g : globals) (i : Nat) (c : pppoe_conn_t) :
      table_reachable MAX_SID s0 s →
      s.conn i = some c →
      table_reachable MAX_SID s0 (disconnect g c s).2.1

/-! ## Received frames -/

/-- Field `h_dest` of the Ethernet header. -/
def h_dest (pack : List Nat) : List Nat := pack.take ETH_ALEN

/-- Field `h_source` of the Ethernet header. -/
def h_source (pack : List Nat) : List Nat := (pack.drop ETH_ALEN).take ETH_ALEN

/-- Field `code` of the PPPoE header. -/
def hdr_code (pack : List Nat) : Nat := byte pack (ETH_HLEN + 1)

/-- Field `sid` of the PPPoE header, as `ntohs` gives it. -/
def hdr_sid (pack : List Nat) : Nat := be16 pack (ETH_HLEN + 2)

/-- Field `length` of the PPPoE header, as `ntohs` gives it. -/
def hdr_length (pack : List Nat) : Nat := be16 pack (ETH_HLEN + 4)

/-- The tag that a pointer `tag` into the frame designates, as the copies made by
`memcpy(dst, tag, sizeof(*tag) + ntohs(tag->tag_len))` and by `add_tag2` see it:
the data are the `tag_len` bytes that follow the tag header in the buffer,
whatever the declared length of the payload. The model stops at the end of the
buffer, beyond which the C read is undefined. -/
def read_tag (pack : List Nat) (tag : Nat) : pppoe_tag :=
  { tag_type := be16 pack tag
    tag_len := be16 pack (tag + 2)
    tag_data := (pack.drop (tag + TAG_HLEN)).take (be16 pack (tag + 2)) }

/-- The list a handler matches service names against: the names of the interface
when it has any, otherwise the global ones, otherwise `NULL`. -/
def effective_service_names (g : globals) (serv : pppoe_serv_t) :
    Option (List (Option (List Nat))) :=
  if (serv.service_names.headD none).isSome then some serv.service_names
  else if (g.conf_service_names.headD none).isSome then some g.conf_service_names
  else none

/-- The loop `for (i = 0; i < MAX_SERVICE_NAMES && service_names[i]; i++)` that
looks for a configured name equal to the tag data: same length, same bytes. -/
def service_name_listed (tag_len : Nat) (tag_data : List Nat) : List (Option (List Nat)) → Bool
  | [] => false
  | none :: _ => false
  | some name :: rest =>
    if tag_len ≠ name.length then service_name_listed tag_len tag_data rest
    else if memcmp tag_data name tag_len ≠ 0 then service_name_listed tag_len tag_data rest
    else true

/-! ## PADI admission -/

/-- The eviction test of `check_padi_limit` on one window entry; the division is
the truncating division of C. -/
def padi_expired (now : timespec) (p : padi_t) : Bool :=
  decide ((now.tv_sec - p.ts.tv_sec) * 1000 +
    Int.tdiv (now.tv_nsec - p.ts.tv_nsec) 1000000 > 1000)

/-- The `while` loop of `check_padi_limit` on the window, `padi_cnt` and
`total_padi_cnt`: entries are dropped from the head as long as the head is expired. -/
def padi_evict (now : timespec) : List padi_t → Int → Nat → List padi_t × Int × Nat
  | [], cnt, total => ([], cnt, total)
  | p :: ps, cnt, total =>
    if padi_expired now p then padi_evict now ps (cnt - 1) ((total + 2 ^ 32 - 1) % 2 ^ 32)
    else (p :: ps, cnt, total)

/-- The server and the globals after the eviction loop. -/
def after_evict (now : timespec) (g : globals) (serv : pppoe_serv_t) :
    globals × pppoe_serv_t :=
  let r := padi_evict now serv.padi_list serv.padi_cnt g.total_padi_cnt
  ({ g with total_padi_cnt := r.2.2 }, { serv with padi_list := r.1, padi_cnt := r.2.1 })

/-- Function `check_padi_limit`. `now` is the value read from the monotonic clock,
`alloc_ok` tells whether `mempool_alloc` returned a block, and `connlimit` is the
truth value of `triton_module_loaded("connlimit") && connlimit_check(...)`. -/
def check_padi_limit (g : globals) (serv : pppoe_serv_t) (addr : List Nat) (now : timespec)
    (alloc_ok : Bool) (connlimit : Bool) : Int × globals × pppoe_serv_t :=
  if serv.padi_limit = 0 then
    (if connlimit then -1 else 0, g, serv)
  else
    let g1 := (after_evict now g serv).1
    let serv1 := (after_evict now g serv).2
    if serv1.padi_cnt = serv1.padi_limit then (-1, g1, serv1)
    else if g1.conf_padi_limit ≠ 0 ∧
        g1.total_padi_cnt ≥ (g1.conf_padi_limit % 2 ^ 32).toNat then (-1, g1, serv1)
    else if serv1.padi_list.any (fun p => memcmp p.addr addr ETH_ALEN = 0) then (-1, g1, serv1)
    else if !alloc_ok then (-1, g1, serv1)
    else
      let serv2 : pppoe_serv_t :=
        { serv1 with
          padi_list := serv1.padi_list ++ [{ ts := now, addr := addr.take ETH_ALEN }]
          padi_cnt := serv1.padi_cnt + 1 }
      let g2 : globals := { g1 with total_padi_cnt := (g1.total_padi_cnt + 1) % 2 ^ 32 }
      (if connlimit then -1 else 0, g2, serv2)

/-! ## PADI handler -/

/-- The local variables of `pppoe_recv_PADI` that the tag loop sets; a tag pointer
is the offset of the tag in the frame buffer. -/
structure padi_locals where
  host_uniq_tag : Option Nat
  relay_sid_tag : Option Nat
  service_name_tag : Option Nat
  service_match : Bool
deriving DecidableEq, Repr

/-- The body of the tag loop of `pppoe_recv_PADI` (the `switch`) for the tag at
offset `tag` of the buffer. -/
def padi_tag_case (g : globals) (serv : pppoe_serv_t) (pack : List Nat)
    (service_names : Option (List (Option (List Nat)))) (st : padi_locals) (tag : Nat) :
    padi_locals :=
  let tag_type := be16 pack tag
  let tag_len := be16 pack (tag + 2)
  if tag_type = TAG_END_OF_LIST then st
  else if tag_type = TAG_SERVICE_NAME then
    match service_names with
    | some names =>
      if tag_len ≠ 0 then
        if service_name_listed tag_len (pack.drop (tag + TAG_HLEN)) names then
          { st with
            service_name_tag :=
              if g.conf_reply_exact_service ≠ 0 then some tag else st.service_name_tag
            service_match := true }
        else st
      else if serv.require_service_name = 0 then
        { st with service_name_tag := some tag, service_match := true }
      else st
    | none =>
      if serv.require_service_name = 0 then
        { st with service_name_tag := some tag, service_match := true }
      else st
  else if tag_type = TAG_HOST_UNIQ then { st with host_uniq_tag := some tag }
  else if tag_type = TAG_RELAY_SESSION_ID then { st with relay_sid_tag := some tag }
  else st

/-- The tag loop of `pppoe_recv_PADI`, entered at the test `n < ntohs(hdr->length)`.
Every turn advances `n` by at least the four bytes of a tag header, so
`hdr_length pack` turns of fuel are never used up. -/
def padi_tag_loop (g : globals) (serv : pppoe_serv_t) (pack : List Nat)
    (service_names : Option (List (Option (List Nat)))) : Nat → Nat → padi_locals → padi_locals
  | 0, _, st => st
  | fuel + 1, n, st =>
    if n < hdr_length pack then
      let tag := ETH_HLEN + PPPOE_HLEN + n
      padi_tag_loop g serv pack service_names fuel (n + TAG_HLEN + be16 pack (tag + 2))
        (padi_tag_case g serv pack service_names st tag)
    else st

/-- Function `pppoe_send_PADO`, as far as the handlers see it: the counter is
incremented and one frame is written, built from these arguments. -/
def pppoe_send_PADO (g : globals) (addr : List Nat)
    (host_uniq relay_sid service_name : Option pppoe_tag) : globals × List action :=
  ({ g with stat_PADO_sent := g.stat_PADO_sent + 1 },
   [action.sent_PADO addr host_uniq relay_sid service_name])

/-- Function `pppoe_recv_PADI` on the frame in `pack`. `now` is the clock value read
inside `check_padi_limit`, `now_warn` the one read for the rate limited warning,
`alloc_ok` and `connlimit` are as for `check_padi_limit`. The allocation of a
delayed PADO, whose result the C code does not test, is taken to succeed. -/
def pppoe_recv_PADI (g : globals) (serv : pppoe_serv_t) (pack : List Nat) (now now_warn : timespec)
    (alloc_ok : Bool) (connlimit : Bool) : globals × pppoe_serv_t × List action :=
  let g0 : globals := { g with stat_PADI_recv := g.stat_PADI_recv + 1 }
  if g0.ppp_shutdown ≠ 0 ∨ g0.pado_delay = -1 then (g0, serv, [])
  else
    let r := check_padi_limit g0 serv (h_source pack) now alloc_ok connlimit
    let g1 := r.2.1
    let serv1 := r.2.2
    if r.1 ≠ 0 then
      let g2 : globals := { g1 with stat_PADI_drop := g1.stat_PADI_drop + 1 }
      let serv2 : pppoe_serv_t :=
        if g2.conf_verbose ≠ 0 ∧ now_warn.tv_sec - 60 ≥ serv1.last_padi_limit_warn then
          { serv1 with last_padi_limit_warn := now_warn.tv_sec }
        else serv1
      (g2, serv2, [])
    else if hdr_sid pack ≠ 0 then (g1, serv1, [])
    else
      let st := padi_tag_loop g1 serv1 pack (effective_service_names g1 serv1) (hdr_length pack) 0
        { host_uniq_tag := none, relay_sid_tag := none, service_name_tag := none,
          service_match := false }
      if !st.service_match then (g1, serv1, [])
      else if g1.pado_delay ≠ 0 then
        if serv1.pado_list.any (fun p => memcmp p.addr (h_source pack) ETH_ALEN = 0) then
          (g1, serv1, [])
        else
          let pado : delayed_pado_t :=
            { addr := h_source pack
              host_uniq := st.host_uniq_tag.map (read_tag pack)
              relay_sid := st.relay_sid_tag.map (read_tag pack)
              service_name := st.service_name_tag.map (read_tag pack)
              period := g1.pado_delay }
          ({ g1 with stat_delayed_pado := g1.stat_delayed_pado + 1 },
           { serv1 with pado_list := serv1.pado_list ++ [pado] },
           [action.timer_add pado])
      else
        let r2 := pppoe_send_PADO g1 (h_source pack) (st.host_uniq_tag.map (read_tag pack))
          (st.relay_sid_tag.map (read_tag pack)) (st.service_name_tag.map (read_tag pack))
        (r2.1, serv1, r2.2)

/-- The invariant of the session table that the two operations keep. -/
structure table_inv (M : Nat) (ptr : Nat) (s : pppoe_serv_t) : Prop where
  slot : ∀ i c, s.conn i = some c →
    c.sid = i ∧ c.serv = ptr ∧ 1 ≤ i ∧ i < M ∧ c ∈ s.conn_list
  cursor : s.sid < M
  count : s.conn_cnt = (occupied M s.conn : Int)
  length : s.conn_cnt = (s.conn_list.length : Int)
  owner : s.ptr = ptr

/-! ## Concrete values used to instantiate the theorems -/

/-- Pads or cuts a byte string to `n` bytes. -/
def pad_to (n : Nat) (l : List Nat) : List Nat := (l ++ List.replicate n 0).take n

/-- A stand-in for the crypto library that meets its interface: the block
operation rotates the eight bytes of a block (to the left to encrypt, back to
decrypt), every key is accepted with itself as schedule, and the digest is
sixteen copies of the byte sum of the message. -/
def demo_crypto : crypto where
  DES_set_key := fun k => k
  DES_set_key_checked := fun k => (0, k)
  DES_ecb_encrypt := fun b _ e => if e then (pad_to 8 b).rotate 1 else (pad_to 8 b).rotate 7
  MD5 := fun m => List.replicate 16 (m.sum % 256)
  DES_cblock_length := by
    intro b ks e
    have : (pad_to 8 b).length = 8 := by simp [pad_to]
    cases e <;> simp [this]
  MD5_length := by intro m; simp

/-- An empty SERVICE_NAME tag. -/
def demo_tag : pppoe_tag := { tag_type := TAG_SERVICE_NAME, tag_len := 0, tag_data := [] }

/-- A session of the demo server with session id `sid`. -/
def demo_conn (sid : Nat) : pppoe_conn_t :=
  { serv := 7, sid := sid, addr := [2, 0, 0, 0, 0, 1], ppp_started := false, relay_sid := none,
    host_uniq := none, service_name := demo_tag, tr101 := none, cookie := List.replicate 24 sid,
    calling_station_id := "", called_station_id := "", username := none }

/-- A server on `eth0` with address 02:00:00:00:00:fe, no service names, an empty
window and an empty table, as `pppoe_server_start` leaves it. -/
def demo_serv : pppoe_serv_t :=
  { ptr := 7, hwaddr := [2, 0, 0, 0, 0, 0xfe], ifname := "eth0", service_names := [],
    require_service_name := 0, secret := List.range 16, des_ks := [9, 8, 7, 6, 5, 4, 3, 2],
    conn := fun _ => none, sid := 0, conn_cnt := 0, conn_list := [], pado_list := [],
    padi_list := [], padi_cnt := 0, padi_limit := 0, last_padi_limit_warn := 0,
    stopping := false }

/-- The demo server with cursor `cursor` and every slot taken except those in `free`. -/
def demo_table (cursor : Nat) (free : List Nat) : pppoe_serv_t :=
  { demo_serv with
    sid := cursor
    conn := fun i => if i ∈ free then none else some (demo_conn i) }

/-- Default configuration: no verbosity, the default AC name, no limits, no names,
immediate PADO. -/
def demo_globals : globals :=
  { conf_verbose := 0, conf_ac_name := "accel-ppp".toList.map Char.toNat, conf_ifname_in_sid := 0,
    conf_tr101 := 1, conf_padi_limit := 0, conf_reply_exact_service := 0,
    conf_service_names := [], stat_active := 0, stat_delayed_pado := 0, stat_PADI_recv := 0,
    stat_PADI_drop := 0, stat_PADO_sent := 0, stat_PADR_recv := 0, stat_PADR_dup_recv := 0,
    stat_PADS_sent := 0, total_padi_cnt := 0, ppp_shutdown := 0, pado_delay := 0 }

/-- The server that a call of `allocate_channel` left (the server as it was when the
call did not return). -/
def server_after (serv : pppoe_serv_t) (r : Option (pppoe_serv_t × Option pppoe_conn_t)) :
    pppoe_serv_t :=
  match r with
  | some (s, _) => s
  | none => serv

/-- The demo server after a first PADR from 02:00:00:00:00:01 was given a session. -/
def demo_serv_1 : pppoe_serv_t :=
  server_after demo_serv (allocate_channel 8 demo_globals 8 true demo_serv [2, 0, 0, 0, 0, 1]
    none none demo_tag none (List.replicate 24 1))

/-- The demo server after a second session, for 02:00:00:00:00:02. -/
def demo_serv_2 : pppoe_serv_t :=
  server_after demo_serv_1 (allocate_channel 8 demo_globals 8 true demo_serv_1
    [2, 0, 0, 0, 0, 2] none none demo_tag none (List.replicate 24 2))

/-- The demo server after the first of its two sessions was disconnected. -/
def demo_serv_3 : pppoe_serv_t :=
  (disconnect demo_globals ((demo_serv_2.conn 1).getD (demo_conn 0)) demo_serv_2).2.1

/-- The exact age of a timestamp `ts` at time `now`, in nanoseconds. -/
def age_ns (now ts : timespec) : Int :=
  (now.tv_sec - ts.tv_sec) * 1000000000 + (now.tv_nsec - ts.tv_nsec)

/-- A PADI frame from `src` to the broadcast address with session id 0 and the
given payload (the tag list). -/
def padi_frame (src : List Nat) (payload : List Nat) : List Nat :=
  [0xff, 0xff, 0xff, 0xff, 0xff, 0xff] ++ src ++ [0x88, 0x63] ++
    [0x11, CODE_PADI, 0, 0, payload.length / 256, payload.length % 256] ++ payload

/-- The demo server with `padi-limit=3`. -/
def demo_serv_limit : pppoe_serv_t := { demo_serv with padi_limit := 3 }

/-- The states of a server that calls of `check_padi_limit` lead to from `s0`, for
whatever source address, clock reading, allocation result, limiter answer and
state of the global variables at each call. -/
inductive window_reachable (s0 : pppoe_serv_t) : pppoe_serv_t → Prop
  | start : window_reachable s0 s0
  | step (s : pppoe_serv_t) (g : globals) (addr : List Nat) (now : timespec)
      (alloc_ok connlimit : Bool) :
      window_reachable s0 s →
      window_reachable s0 (check_padi_limit g s addr now alloc_ok connlimit).2.2

/-- A PADI whose last tag, a HOST_UNIQ, declares eight bytes of data while the
declared payload length (10) ends after the first two of them; the six bytes
that follow in the receive buffer are left over from an earlier frame. -/
def overlong_tag_pack : List Nat :=
  padi_frame [2, 0, 0, 0, 0, 1] [0x01, 0x01, 0, 0, 0x01, 0x03, 0, 8, 0xaa, 0xbb] ++
    [1, 2, 3, 4, 5, 6]

/-- A PADI whose declared payload length (6) ends in the middle of the header of its
second tag; the length field of that tag lies in the bytes left over in the
receive buffer. -/
def cut_header_pack : List Nat :=
  padi_frame [2, 0, 0, 0, 0, 1] [0x01, 0x01, 0, 0, 0x01, 0x03] ++ [0, 3, 7, 8, 9]

/-- A clock reading for the examples. -/
def demo_now : timespec := { tv_sec := 100, tv_nsec := 0 }

/-- The server after `n` calls of `allocate_channel` in a row (PADRs from
02:00:00:00:00:01 with an empty SERVICE_NAME), each allowed one loop test. -/
def fill_table (M : Nat) (g : globals) : Nat → pppoe_serv_t → pppoe_serv_t
  | 0, s => s
  | n + 1, s =>
    server_after (fill_table M g n s)
      (allocate_channel M g 1 true (fill_table M g n s) [2, 0, 0, 0, 0, 1] none none demo_tag
        none (List.replicate 24 0))

/-! ## Frame encoder -/

/-- Size of the buffer a frame is built in, `ETHER_MAX_LEN`. -/
def ETHER_MAX_LEN : Nat := 1518

/-- Ethertype of PPPoE discovery, `ETH_P_PPP_DISC`. -/
def ETH_P_PPP_DISC : Nat := 0x8863

/-- The two bytes that `htons` stores for a value, which is first cut to 16 bits. -/
def u16_bytes (v : Nat) : List Nat := [(v / 256) % 256, v % 256]

/-- The buffer `uint8_t pack[ETHER_MAX_LEN]` of the send routines before anything is
written to it; its contents are indeterminate and written as zeroes. -/
def empty_pack : List Nat := List.replicate ETHER_MAX_LEN 0

/-- Function `setup_header`: addresses, ethertype, `ver = 1`, `type = 1` (one byte,
`ver` in the high half), code, session id in network order and length 0. -/
def setup_header (pack : List Nat) (src dst : List Nat) (code : Nat) (sid : Nat) : List Nat :=
  let pack := memcpy_at pack ETH_ALEN (src.take ETH_ALEN)
  let pack := memcpy_at pack 0 (dst.take ETH_ALEN)
  let pack := memcpy_at pack (2 * ETH_ALEN) (u16_bytes ETH_P_PPP_DISC)
  let pack := memcpy_at pack ETH_HLEN [1 * 16 + 1]
  let pack := memcpy_at pack (ETH_HLEN + 1) [code % 256]
  let pack := memcpy_at pack (ETH_HLEN + 2) (u16_bytes sid)
  memcpy_at pack (ETH_HLEN + 4) (u16_bytes 0)

/-- Function `add_tag`: a tag header and `len` bytes of data are stored behind the
payload written so far, and the length field of the header grows by `4 + len`
(cut to 16 bits by `htons`). -/
def add_tag (pack : List Nat) (type : Nat) (data : List Nat) (len : Nat) : List Nat :=
  let length := hdr_length pack
  let tag := ETH_HLEN + PPPOE_HLEN + length
  let pack := memcpy_at pack tag (u16_bytes type)
  let pack := memcpy_at pack (tag + 2) (u16_bytes len)
  let pack := memcpy_at pack (tag + TAG_HLEN) (data.take len)
  memcpy_at pack (ETH_HLEN + 4) (u16_bytes (length + TAG_HLEN + len))

/-- The bytes of a tag in memory: type and length in network order, then the data. -/
def tag_bytes (t : pppoe_tag) : List Nat :=
  u16_bytes t.tag_type ++ u16_bytes t.tag_len ++ t.tag_data.take t.tag_len

/-- Function `add_tag2`: the whole tag `t` (header and `tag_len` bytes of data) is
copied behind the payload written so far. -/
def add_tag2 (pack : List Nat) (t : pppoe_tag) : List Nat :=
  let length := hdr_length pack
  let tag := ETH_HLEN + PPPOE_HLEN + length
  let pack := memcpy_at pack tag (tag_bytes t)
  memcpy_at pack (ETH_HLEN + 4) (u16_bytes (length + TAG_HLEN + t.tag_len))

/-- The bytes that `pppoe_send` hands to `write`: header and declared payload. -/
def pppoe_send (pack : List Nat) : List Nat :=
  pack.take (ETH_HLEN + PPPOE_HLEN + hdr_length pack)

/-- The entries of a service name array up to the first `NULL`, which is where the
loops `for (i = 0; i < MAX_SERVICE_NAMES && service_names[i]; i++)` stop. -/
def names_until_null : List (Option (List Nat)) → List (List Nat)
  | some name :: rest => name :: names_until_null rest
  | _ => []

/-- The frame that `pppoe_send_PADO` builds and writes; `key` is the block that
`DES_random_key` returns inside `generate_cookie`. -/
def pppoe_send_PADO_pack (c : crypto) (key : List Nat) (g : globals) (serv : pppoe_serv_t)
    (addr : List Nat) (host_uniq relay_sid service_name : Option pppoe_tag) : List Nat :=
  let pack := setup_header empty_pack serv.hwaddr addr CODE_PADO 0
  let pack := add_tag pack TAG_AC_NAME g.conf_ac_name g.conf_ac_name.length
  let pack := match service_name with
    | some t => add_tag2 pack t
    | none => pack
  let pack :=
    if service_name.isNone ∨ g.conf_reply_exact_service = 0 then
      match effective_service_names g serv with
      | some names =>
        (names_until_null names).foldl
          (fun pk name => add_tag pk TAG_SERVICE_NAME name name.length) pack
      | none => pack
    else pack
  let cookie := generate_cookie c serv addr key
  let pack := add_tag pack TAG_AC_COOKIE cookie COOKIE_LENGTH
  let pack := match host_uniq with
    | some t => add_tag2 pack t
    | none => pack
  let pack := match relay_sid with
    | some t => add_tag2 pack t
    | none => pack
  pppoe_send pack

/-- The frame that `pppoe_send_err` builds and writes. -/
def pppoe_send_err_pack (g : globals) (serv : pppoe_serv_t) (addr : List Nat)
    (host_uniq relay_sid : Option pppoe_tag) (code : Nat) (tag_type : Nat) : List Nat :=
  let pack := setup_header empty_pack serv.hwaddr addr code 0
  let pack := add_tag pack TAG_AC_NAME g.conf_ac_name g.conf_ac_name.length
  let pack := add_tag pack tag_type [] 0
  let pack := match host_uniq with
    | some t => add_tag2 pack t
    | none => pack
  let pack := match relay_sid with
    | some t => add_tag2 pack t
    | none => pack
  pppoe_send pack

/-- The frame that `pppoe_send_PADS` builds and writes for a session of `serv`. -/
def pppoe_send_PADS_pack (g : globals) (serv : pppoe_serv_t) (conn : pppoe_conn_t) : List Nat :=
  let pack := setup_header empty_pack serv.hwaddr conn.addr CODE_PADS conn.sid
  let pack := add_tag pack TAG_AC_NAME g.conf_ac_name g.conf_ac_name.length
  let pack := add_tag2 pack conn.service_name
  let pack := match conn.host_uniq with
    | some t => add_tag2 pack t
    | none => pack
  let pack := match conn.relay_sid with
    | some t => add_tag2 pack t
    | none => pack
  pppoe_send pack

/-- The offsets in the buffer of the tags that the loop
`for (n = 0; n < ntohs(hdr->length); n += sizeof(*tag) + ntohs(tag->tag_len))`
visits, entered at its test with loop variable `n`. -/
def tag_offsets (pack : List Nat) : Nat → Nat → List Nat
  | 0, _ => []
  | fuel + 1, n =>
    if n < hdr_length pack then
      let tag := ETH_HLEN + PPPOE_HLEN + n
      tag :: tag_offsets pack fuel (n + TAG_HLEN + be16 pack (tag + 2))
    else []

/-- The tags of a frame as the tag loops of the receive side see them. -/
def frame_tags (pack : List Nat) : List pppoe_tag :=
  (tag_offsets pack (hdr_length pack) 0).map (read_tag pack)

/-! ## PADR and PADT handlers, read loop -/

/-- The broadcast address `bc_addr`. -/
def bc_addr : List Nat := [0xff, 0xff, 0xff, 0xff, 0xff, 0xff]

/-- Modelled from the spec: the constant `VENDOR_ADSL_FORUM` of `pppoe.h`, which is not
among the sources; the spec only says that the vendor id is the one of the ADSL
Forum, whose enterprise number is 3561. No result below depends on the value. -/
def VENDOR_ADSL_FORUM : Nat := 0xde9

/-- Value `ntohl` gives for the 32-bit field stored at offset `i`. -/
def be32 (buf : List Nat) (i : Nat) : Nat :=
  ((byte buf i * 256 + byte buf (i + 1)) * 256 + byte buf (i + 2)) * 256 + byte buf (i + 3)

/-- Field `ver` of the PPPoE header: the high half of the first byte. -/
def hdr_ver (pack : List Nat) : Nat := byte pack ETH_HLEN / 16

/-- Field `type` of the PPPoE header: the low half of the first byte. -/
def hdr_type (pack : List Nat) : Nat := byte pack ETH_HLEN % 16

/-- The local variables of `pppoe_recv_PADR` that the tag loop sets; a tag pointer
is the offset of the tag in the frame buffer. -/
structure padr_locals where
  host_uniq_tag : Option Nat
  relay_sid_tag : Option Nat
  ac_cookie_tag : Option Nat
  service_name_tag : Option Nat
  tr101_tag : Option Nat
  service_match : Bool
deriving DecidableEq, Repr

/-- The local variables of `pppoe_recv_PADR` before the tag loop. -/
def padr_locals_init : padr_locals :=
  { host_uniq_tag := none, relay_sid_tag := none, ac_cookie_tag := none,
    service_name_tag := none, tr101_tag := none, service_match := false }

/-- The body of the tag loop of `pppoe_recv_PADR` (the `switch`) for the tag at
offset `tag` of the buffer. -/
def padr_tag_case (g : globals) (pack : List Nat)
    (service_names : Option (List (Option (List Nat)))) (st : padr_locals) (tag : Nat) :
    padr_locals :=
  let tag_type := be16 pack tag
  let tag_len := be16 pack (tag + 2)
  if tag_type = TAG_END_OF_LIST then st
  else if tag_type = TAG_SERVICE_NAME then
    let st1 : padr_locals := { st with service_name_tag := some tag }
    if tag_len = 0 then { st1 with service_match := true }
    else
      match service_names with
      | some names =>
        if service_name_listed tag_len (pack.drop (tag + TAG_HLEN)) names then
          { st1 with service_match := true }
        else st1
      | none => { st1 with service_match := true }
  else if tag_type = TAG_HOST_UNIQ then { st with host_uniq_tag := some tag }
  else if tag_type = TAG_AC_COOKIE then { st with ac_cookie_tag := some tag }
  else if tag_type = TAG_RELAY_SESSION_ID then { st with relay_sid_tag := some tag }
  else if tag_type = TAG_VENDOR_SPECIFIC then
    if tag_len < 4 then st
    else if be32 pack (tag + TAG_HLEN) = VENDOR_ADSL_FORUM then
      if g.conf_tr101 ≠ 0 then { st with tr101_tag := some tag } else st
    else st
  else st

/-- The tag loop of `pppoe_recv_PADR`, entered at the test `n < ntohs(hdr->length)`;
`hdr_length pack` turns of fuel are never used up. -/
def padr_tag_loop (g : globals) (pack : List Nat)
    (service_names : Option (List (Option (List Nat)))) : Nat → Nat → padr_locals → padr_locals
  | 0, _, st => st
  | fuel + 1, n, st =>
    if n < hdr_length pack then
      let tag := ETH_HLEN + PPPOE_HLEN + n
      padr_tag_loop g pack service_names fuel (n + TAG_HLEN + be16 pack (tag + 2))
        (padr_tag_case g pack service_names st tag)
    else st

/-- Function `find_channel`: the first session of `conn_list` whose stored cookie
equals the 24 bytes at `cookie`. -/
def find_channel (serv : pppoe_serv_t) (cookie : List Nat) : Option pppoe_conn_t :=
  serv.conn_list.find? (fun conn => memcmp conn.cookie cookie COOKIE_LENGTH = 0)

/-- Function `pppoe_send_PADS`, as far as the handlers see it: the counter is
incremented and one frame is written, built from the session. -/
def pppoe_send_PADS (g : globals) (conn : pppoe_conn_t) : globals × List action :=
  ({ g with stat_PADS_sent := g.stat_PADS_sent + 1 }, [action.sent_PADS conn])

/-- Function `pppoe_send_err`, as far as the handlers see it: one frame is written. -/
def pppoe_send_err (addr : List Nat) (host_uniq relay_sid : Option pppoe_tag) (code : Nat)
    (tag_type : Nat) : List action :=
  [action.sent_err addr host_uniq relay_sid code tag_type]

/-- The end of `pppoe_recv_PADR`, after the cookie and service checks: the lookup of
a session with the same cookie, and the allocation of a new one. `cookie` is
the data of the AC-Cookie tag. The result is `none` when the handler does not
return: the loop of `allocate_channel` is not left within the fuel, or
`allocate_channel` is reached with no SERVICE_NAME tag recorded, which it
dereferences. -/
def padr_accept (MAX_SID : Nat) (g : globals) (serv : pppoe_serv_t) (pack : List Nat)
    (st : padr_locals) (cookie : List Nat) (fuel : Nat) (alloc_ok : Bool) :
    Option (globals × pppoe_serv_t × List action) :=
  match find_channel serv cookie with
  | some conn =>
    if conn.username.isNone then
      let r := pppoe_send_PADS { g with stat_PADR_dup_recv := g.stat_PADR_dup_recv + 1 } conn
      some (r.1, serv, r.2)
    else some (g, serv, [])
  | none =>
    match st.service_name_tag with
    | none => none
    | some sn =>
      match allocate_channel MAX_SID g fuel alloc_ok serv (h_source pack)
          (st.host_uniq_tag.map (read_tag pack)) (st.relay_sid_tag.map (read_tag pack))
          (read_tag pack sn) (st.tr101_tag.map (read_tag pack)) cookie with
      | none => none
      | some (serv1, none) =>
        some (g, serv1,
          pppoe_send_err (h_source pack) (st.host_uniq_tag.map (read_tag pack))
            (st.relay_sid_tag.map (read_tag pack)) CODE_PADS TAG_AC_SYSTEM_ERROR)
      | some (serv1, some conn) =>
        let r := pppoe_send_PADS g conn
        some (r.1, serv1, r.2 ++ [action.call_connect_channel conn])

/-- Function `pppoe_recv_PADR` on the frame in `pack`. `MAX_SID`, `fuel` and
`alloc_ok` are handed to `allocate_channel`. The result is `none` when the
handler does not return (see `padr_accept`). -/
def pppoe_recv_PADR (c : crypto) (MAX_SID : Nat) (g : globals) (serv : pppoe_serv_t)
    (pack : List Nat) (fuel : Nat) (alloc_ok : Bool) :
    Option (globals × pppoe_serv_t × List action) :=
  let g0 : globals := { g with stat_PADR_recv := g.stat_PADR_recv + 1 }
  if g0.ppp_shutdown ≠ 0 then some (g0, serv, [])
  else if memcmp (h_dest pack) bc_addr ETH_ALEN = 0 then some (g0, serv, [])
  else if hdr_sid pack ≠ 0 then some (g0, serv, [])
  else
    let st := padr_tag_loop g0 pack (effective_service_names g0 serv) (hdr_length pack) 0
      padr_locals_init
    match st.ac_cookie_tag with
    | none => some (g0, serv, [])
    | some ac =>
      if be16 pack (ac + 2) ≠ COOKIE_LENGTH then some (g0, serv, [])
      else if check_cookie c serv (h_source pack) (pack.drop (ac + TAG_HLEN)) ≠ 0 then
        some (g0, serv, [])
      else if !st.service_match then
        some (g0, serv,
          pppoe_send_err (h_source pack) (st.host_uniq_tag.map (read_tag pack))
            (st.relay_sid_tag.map (read_tag pack)) CODE_PADS TAG_SERVICE_NAME_ERROR)
      else padr_accept MAX_SID g0 serv pack st (pack.drop (ac + TAG_HLEN)) fuel alloc_ok

/-- Function `pppoe_recv_PADT` on the frame in `pack`. The table `conn[MAX_SID]` is
indexed with the session id of the frame without a test; the result is `none`
when that index lies outside the table, where the C read is undefined. -/
def pppoe_recv_PADT (MAX_SID : Nat) (g : globals) (serv : pppoe_serv_t) (pack : List Nat) :
    Option (globals × pppoe_serv_t × List action) :=
  if memcmp (h_dest pack) bc_addr ETH_ALEN = 0 then some (g, serv, [])
  else if MAX_SID ≤ hdr_sid pack then none
  else
    match serv.conn (hdr_sid pack) with
    | some conn =>
      if memcmp conn.addr (h_source pack) ETH_ALEN = 0 then
        some (g, serv, [action.call_disconnect conn])
      else some (g, serv, [])
    | none => some (g, serv, [])

/-- The tests of the read loop `pppoe_serv_read` on one received frame of `n` bytes
in the buffer `pack`: `none` when the frame is skipped by a `continue`, otherwise
the code that the `switch` dispatches on. `mac_filter` is the truth value of
`mac_filter_check(ethhdr->h_source)`. The test of the `type` field only logs a
warning and lets the frame through. -/
def frame_dispatch (serv : pppoe_serv_t) (n : Nat) (pack : List Nat) (mac_filter : Bool) :
    Option Nat :=
  if n < ETH_HLEN + PPPOE_HLEN then none
  else if mac_filter then none
  else if memcmp (h_dest pack) bc_addr ETH_ALEN ≠ 0 ∧
      memcmp (h_dest pack) serv.hwaddr ETH_ALEN ≠ 0 then none
  else if memcmp (h_source pack) bc_addr ETH_ALEN = 0 then none
  else if byte (h_source pack) 0 % 2 ≠ 0 then none
  else if n < ETH_HLEN + PPPOE_HLEN + hdr_length pack then none
  else if hdr_ver pack ≠ 1 then none
  else some (hdr_code pack)

/-- What the environment answers while one frame is handled: the clock readings and
allocation results of the PADI path, the limiter, and the fuel and allocation
result of `allocate_channel`. -/
structure read_env where
  now : timespec
  now_warn : timespec
  padi_alloc_ok : Bool
  connlimit : Bool
  fuel : Nat
  conn_alloc_ok : Bool
deriving DecidableEq, Repr

/-- One turn of the loop of `pppoe_serv_read` for a frame of `n ≥ 0` bytes read into
`pack`: the tests, then the `switch` on the code. -/
def pppoe_serv_read_frame (c : crypto) (MAX_SID : Nat) (g : globals) (serv : pppoe_serv_t)
    (n : Nat) (pack : List Nat) (mac_filter : Bool) (env : read_env) :
    Option (globals × pppoe_serv_t × List action) :=
  match frame_dispatch serv n pack mac_filter with
  | none => some (g, serv, [])
  | some code =>
    if code = CODE_PADI then
      some (pppoe_recv_PADI g serv pack env.now env.now_warn env.padi_alloc_ok env.connlimit)
    else if code = CODE_PADR then
      pppoe_recv_PADR c MAX_SID g serv pack env.fuel env.conn_alloc_ok
    else if code = CODE_PADT then pppoe_recv_PADT MAX_SID g serv pack
    else some (g, serv, [])

/-- A discovery frame: addresses, ethertype, the `ver`/`type` byte, code, session id,
the declared length of the payload, and the payload. -/
def frame_of (dst src : List Nat) (ver_type code sid : Nat) (payload : List Nat) : List Nat :=
  dst ++ src ++ [0x88, 0x63] ++
    [ver_type, code, sid / 256, sid % 256, payload.length / 256, payload.length % 256] ++ payload

/-- The environment of the examples: successful allocations, no refusal of the
limiter, ten loop tests for `allocate_channel`. -/
def demo_env : read_env :=
  { now := demo_now, now_warn := demo_now, padi_alloc_ok := true, connlimit := false,
    fuel := 10, conn_alloc_ok := true }

/-- A PADI whose tag list is END_OF_LIST, an empty SERVICE_NAME, and a HOST_UNIQ. -/
def padi_eol_first : List Nat :=
  padi_frame [2, 0, 0, 0, 0, 1] [0, 0, 0, 0, 0x01, 0x01, 0, 0, 0x01, 0x03, 0, 2, 0xde, 0xad]

/-- The frame `padi_eol_first` with the tag list cut behind the END_OF_LIST tag. -/
def padi_eol_first_cut : List Nat := padi_frame [2, 0, 0, 0, 0, 1] [0, 0, 0, 0]

/-- A PADI whose tag list is an empty SERVICE_NAME, END_OF_LIST, and a HOST_UNIQ. -/
def padi_eol_mid : List Nat :=
  padi_frame [2, 0, 0, 0, 0, 1] [0x01, 0x01, 0, 0, 0, 0, 0, 0, 0x01, 0x03, 0, 2, 0xde, 0xad]

/-- The frame `padi_eol_mid` with the tag list cut behind the END_OF_LIST tag. -/
def padi_eol_mid_cut : List Nat :=
  padi_frame [2, 0, 0, 0, 0, 1] [0x01, 0x01, 0, 0, 0, 0, 0, 0]

/-- The cookie that the demo server issues to 02:00:00:00:00:01 with the demo crypto
library and the key 01 02 03 04 05 06 07 08. -/
def demo_cookie : List Nat :=
  generate_cookie demo_crypto demo_serv [2, 0, 0, 0, 0, 1] [1, 2, 3, 4, 5, 6, 7, 8]

/-- A PADR to the demo server whose tag list is an empty SERVICE_NAME, END_OF_LIST,
and the AC-Cookie. -/
def padr_eol_mid : List Nat :=
  frame_of demo_serv.hwaddr [2, 0, 0, 0, 0, 1] 0x11 CODE_PADR 0
    ([0x01, 0x01, 0, 0, 0, 0, 0, 0, 0x01, 0x04, 0, 24] ++ demo_cookie)

/-- The frame `padr_eol_mid` with the tag list cut behind the END_OF_LIST tag. -/
def padr_eol_mid_cut : List Nat :=
  frame_of demo_serv.hwaddr [2, 0, 0, 0, 0, 1] 0x11 CODE_PADR 0 [0x01, 0x01, 0, 0, 0, 0, 0, 0]

/-- A PADI with an empty SERVICE_NAME, padded with zeroes to the 60 bytes of a
minimal Ethernet frame: the declared payload has 4 bytes, 36 bytes follow it. -/
def padi_padded : List Nat :=
  padi_frame [2, 0, 0, 0, 0, 1] [0x01, 0x01, 0, 0] ++ List.replicate 36 0

/-- A PADI with an empty SERVICE_NAME whose header has `ver = 1` and `type = 2`. -/
def padi_type_two : List Nat :=
  frame_of bc_addr [2, 0, 0, 0, 0, 1] 0x12 CODE_PADI 0 [0x01, 0x01, 0, 0]

/-- The last tag of type `ty` that the tag loop of a handler meets in a frame, which
is the one a handler keeps in its local variable for that type. -/
def last_tag (pack : List Nat) (ty : Nat) : Option Nat :=
  ((tag_offsets pack (hdr_length pack) 0).filter (fun t => be16 pack t = ty)).getLast?

/-- A PADR to the demo server with an empty SERVICE_NAME and 24 arbitrary bytes as
AC-Cookie. -/
def padr_bad_cookie : List Nat :=
  frame_of demo_serv.hwaddr [2, 0, 0, 0, 0, 1] 0x11 CODE_PADR 0
    ([0x01, 0x01, 0, 0, 0x01, 0x04, 0, 24] ++ List.replicate 24 0x55)

/-- The condition under which the service check of a PADR passes, in the words of the
specification: the frame carries a SERVICE_NAME tag that is empty, or that is
not empty and equal, in length and bytes, to one of the names of the effective
list (the names of the interface if it has any, otherwise the global ones), or
that is not empty while the effective list is empty. -/
def padr_service_accepted (g : globals) (serv : pppoe_serv_t) (pack : List Nat) : Prop :=
  ∃ tag ∈ tag_offsets pack (hdr_length pack) 0, be16 pack tag = TAG_SERVICE_NAME ∧
    (be16 pack (tag + 2) = 0 ∨
     (be16 pack (tag + 2) ≠ 0 ∧ ∃ names, effective_service_names g serv = some names ∧
        ∃ name ∈ names_until_null names,
          be16 pack (tag + 2) = name.length ∧ (read_tag pack tag).tag_data = name) ∨
     (be16 pack (tag + 2) ≠ 0 ∧ effective_service_names g serv = none))

/-- The bytes of a name written in ASCII. -/
def ascii (s : String) : List Nat := s.toList.map Char.toNat

/-- The demo configuration with the single global service name `isp-a`. -/
def demo_globals_isp : globals :=
  { demo_globals with conf_service_names := [some (ascii "isp-a"), none, none] }

/-- A PADR to the demo server from 02:00:00:00:00:01 with the given service name, the
cookie issued to that address, and the HOST_UNIQ `de ad be ef`. -/
def padr_with_name (name : List Nat) : List Nat :=
  frame_of demo_serv.hwaddr [2, 0, 0, 0, 0, 1] 0x11 CODE_PADR 0
    ([0x01, 0x01, name.length / 256, name.length % 256] ++ name ++
     [0x01, 0x04, 0, 24] ++ demo_cookie ++ [0x01, 0x03, 0, 4, 0xde, 0xad, 0xbe, 0xef])

/-- The demo server with `require-service-name` set. -/
def demo_serv_require : pppoe_serv_t := { demo_serv with require_service_name := 1 }

/-- A PADI from 02:00:00:00:00:01 whose only tag is an empty SERVICE_NAME. -/
def padi_empty_name : List Nat := padi_frame [2, 0, 0, 0, 0, 1] [0x01, 0x01, 0, 0]

/-- A send buffer in which the 18 bytes `hdr` (addresses, ethertype, `ver`/`type`,
code, session id) are followed by a length field that counts the bytes of
`payload`, and by `payload` itself; what follows in the buffer is not
constrained. -/
def built (pack hdr payload : List Nat) : Prop :=
  hdr.length = 18 ∧ payload.length < 65536 ∧
    ∃ rest, pack = hdr ++ u16_bytes payload.length ++ payload ++ rest

/-- A tag whose fields fit their 16 bits and whose data have the declared length. -/
def tag_wf (t : pppoe_tag) : Prop :=
  t.tag_type < 65536 ∧ t.tag_len < 65536 ∧ t.tag_data.length = t.tag_len

/-- The bytes of a list of tags, one after the other. -/
def tags_bytes : List pppoe_tag → List Nat
  | [] => []
  | t :: ts => tag_bytes t ++ tags_bytes ts

/-- The tag that `add_tag(pack, type, data, strlen(data))` stores. -/
def tag_of (type : Nat) (data : List Nat) : pppoe_tag :=
  { tag_type := type, tag_len := data.length, tag_data := data }

/-- The tag list expected in a frame of `pppoe_send_err`: the AC name, an empty tag
of the error type, the HOST_UNIQ and the RELAY_SESSION_ID when given. -/
def err_tags (g : globals) (host_uniq relay_sid : Option pppoe_tag) (tag_type : Nat) :
    List pppoe_tag :=
  [tag_of TAG_AC_NAME g.conf_ac_name, tag_of tag_type []] ++ host_uniq.toList ++ relay_sid.toList

/-- The tag list expected in a frame of `pppoe_send_PADS`: the AC name, the service
name of the session, its HOST_UNIQ and its RELAY_SESSION_ID when it has them. -/
def pads_tags (g : globals) (conn : pppoe_conn_t) : List pppoe_tag :=
  [tag_of TAG_AC_NAME g.conf_ac_name, conn.service_name] ++ conn.host_uniq.toList ++
    conn.relay_sid.toList

/-- The statement `if (t) add_tag2(pack, t);` of the send routines. -/
def add_tag2_opt (pack : List Nat) (o : Option pppoe_tag) : List Nat :=
  match o with
  | some t => add_tag2 pack t
  | none => pack

/-- No two sessions of the list hold the same 24 cookie bytes. -/
def cookies_distinct (serv : pppoe_serv_t) : Prop :=
  ∀ a ∈ serv.conn_list, ∀ b ∈ serv.conn_list,
    memcmp a.cookie b.cookie COOKIE_LENGTH = 0 → a = b

/-- The state after the demo server handled a first PADR from 02:00:00:00:00:01 with
an empty service name: globals, server, actions. -/
def demo_after_padr : globals × pppoe_serv_t × List action :=
  (pppoe_recv_PADR demo_crypto 65534 demo_globals demo_serv (padr_with_name []) 10 true).getD
    (demo_globals, demo_serv, [])

/-- The session that the first PADR of `demo_after_padr` created. -/
def demo_session : pppoe_conn_t := (demo_after_padr.2.1.conn 1).getD (demo_conn 0)

/-- Function `_server_stop`: nothing on a server that is already stopping; otherwise
the flag is set, the handler disabled, and either the server is freed at once
(no session) or every session of the list is asked to stop. -/
def _server_stop (serv : pppoe_serv_t) : pppoe_serv_t × List action :=
  if serv.stopping then (serv, [])
  else
    let serv1 : pppoe_serv_t := { serv with stopping := true }
    if serv1.conn_cnt = 0 then
      (serv1, [action.md_disable_handler serv.ptr, action.server_free serv.ptr])
    else
      (serv1, [action.md_disable_handler serv.ptr] ++ serv1.conn_list.map action.call_conn_stop)

/-- The states of a server, with the actions done so far, that are reached from the
call `_server_stop s0` by calls of `disconnect` for sessions of the table. -/
inductive stop_reachable (s0 : pppoe_serv_t) : pppoe_serv_t → List action → Prop
  | stop : stop_reachable s0 (_server_stop s0).1 (_server_stop s0).2
  | disc (s : pppoe_serv_t) (acts : List action) (g : globals) (i : Nat) (c : pppoe_conn_t) :
      stop_reachable s0 s acts →
      s.conn i = some c →
      stop_reachable s0 (disconnect g c s).2.1 (acts ++ (disconnect g c s).2.2)

/-! ## Configuration -/

/-- Function `isspace` of the C library in the C locale. -/
def c_isspace (c : Char) : Bool := c.toNat = 32 || (9 ≤ c.toNat && c.toNat ≤ 13)

/-- Function `isdigit` of the C library. -/
def c_isdigit (c : Char) : Bool := 48 ≤ c.toNat && c.toNat ≤ 57

/-- Function `isalpha` of the C library in the C locale. -/
def c_isalpha (c : Char) : Bool :=
  (65 ≤ c.toNat && c.toNat ≤ 90) || (97 ≤ c.toNat && c.toNat ≤ 122)

/-- The digits that `atoi` and `atol` convert, up to the first character that is not
a digit. -/
def atoi_digits : List Char → Int → Int
  | [], acc => acc
  | c :: cs, acc => if c_isdigit c then atoi_digits cs (acc * 10 + ((c.toNat : Int) - 48)) else acc

/-- Function `atol` of the C library: white space is skipped, then an optional sign
and the decimal digits are converted; a value outside the range of the result
type is not modelled. -/
def atol (s : List Char) : Int :=
  match s.dropWhile c_isspace with
  | '-' :: r => - atoi_digits r 0
  | '+' :: r => atoi_digits r 0
  | r => atoi_digits r 0

/-- Function `atoi` of the C library, see `atol`. -/
def atoi (s : List Char) : Int := atol s

/-- The part of `load_config` that reads the option `ifname-in-sid`; `opt` is what
`conf_get_opt("pppoe", "ifname-in-sid")` returned. -/
def load_config_ifname_in_sid (g : globals) (opt : Option String) : globals :=
  match opt with
  | none => g
  | some o =>
    if o = "called-sid" then { g with conf_ifname_in_sid := 1 }
    else if o = "calling-sid" then { g with conf_ifname_in_sid := 2 }
    else if o = "both" then { g with conf_ifname_in_sid := 3 }
    else if atoi o.toList ≥ 0 then { g with conf_ifname_in_sid := atoi o.toList }
    else g

/-- The two station ids of the session that `allocate_channel` makes on the demo
server for the peer 02:00:00:00:00:01 when `ifname-in-sid` is configured as
`opt`: the calling station id, then the called station id. -/
def demo_station_ids (opt : String) : Option (String × String) :=
  match allocate_channel 65534 (load_config_ifname_in_sid demo_globals (some opt)) 10 true demo_serv
      [2, 0, 0, 0, 0, 1] none none demo_tag none demo_cookie with
  | some (_, some conn) => some (conn.calling_station_id, conn.called_station_id)
  | _ => none

/-! ## Interface options -/

/-- Function `pppoe_add_service_name` on an array `list[MAX_SERVICE_NAMES]`, given as
the list of its entries: the item is stored in the first entry that is `NULL`
and 0 is returned, or -1 when there is none. -/
def pppoe_add_service_name (list : List (Option (List Nat))) (item : List Nat) :
    Int × List (Option (List Nat)) :=
  match list with
  | [] => (-1, [])
  | none :: rest => (0, some item :: rest)
  | some x :: rest =>
    ((pppoe_add_service_name rest item).1, some x :: (pppoe_add_service_name rest item).2)

/-- The bytes of a C string. -/
def str_bytes (s : List Char) : List Nat := s.map Char.toNat

/-- Function `parse_interface_set_option`: the value it returns (0 after an error, -1
otherwise), the server afterwards, and whether a message was written to
`errbuf`. -/
def parse_interface_set_option (serv : pppoe_serv_t) (property value : List Char) :
    Int × pppoe_serv_t × Bool :=
  if property = "padi-limit".toList then
    let serv1 : pppoe_serv_t := { serv with padi_limit := atol value }
    if serv1.padi_limit < 0 then (0, serv1, true) else (-1, serv1, false)
  else if property = "require-service-name".toList ∨ property = "require-sn".toList then
    (-1, { serv with require_service_name := if atoi value ≠ 0 then 1 else 0 }, false)
  else if property = "service-name".toList then
    let r := pppoe_add_service_name serv.service_names (str_bytes value)
    if r.1 ≠ 0 then (0, { serv with service_names := r.2 }, true)
    else (-1, { serv with service_names := r.2 }, false)
  else (0, serv, true)

/-- The C `enum parse_ifopt_state`. -/
inductive parse_ifopt_state where
  | PIS_Property
  | PIS_AnyValue
  | PIS_QuotedValue
  | PIS_UnquotedValue
  | PIS_ExpectComma
deriving DecidableEq, Repr

/-- The local variables of `parse_interface_options`: the copy `str` of the option
string with its terminating zero (which the parser overwrites in places), the
pointers `cur`, `start` and `property` as offsets into it, the flag `running`,
whether `error` holds a message, and the server being configured. -/
structure ifopt_locals where
  state : parse_ifopt_state
  str : List Char
  cur : Nat
  start : Nat
  property : Option Nat
  running : Int
  error : Bool
  serv : pppoe_serv_t

/-- The C string that starts at offset `off` of the buffer. -/
def cstr (buf : List Char) (off : Nat) : List Char :=
  (buf.drop off).takeWhile (fun c => c.toNat ≠ 0)

/-- The store `*cur = 0`. -/
def put_nul (buf : List Char) (cur : Nat) : List Char := buf.set cur (Char.ofNat 0)

/-- The call `parse_interface_set_option(serv, property, value, error)` made from the
parser; `keep` tells whether the returned value is assigned to `running`. -/
def ifopt_set (l : ifopt_locals) (property value : List Char) (keep : Bool) : ifopt_locals :=
  let r := parse_interface_set_option l.serv property value
  { l with
    serv := r.2.1
    error := l.error || r.2.2
    running := if keep then r.1 else l.running }

/-- One turn of the loop of `parse_interface_options`: the `switch` on the state,
then `if (running) cur++`. -/
def ifopt_step (l : ifopt_locals) : ifopt_locals :=
  let c := l.str.getD l.cur (Char.ofNat 0)
  let l1 : ifopt_locals :=
    match l.state with
    | parse_ifopt_state.PIS_Property =>
      if c.toNat = 0 then
        let l := if l.property.isNone ∧ l.cur ≠ l.start then { l with property := some l.start }
          else l
        let l := match l.property with
          | some p => if (cstr l.str p).length > 0 then ifopt_set l (cstr l.str p) "1".toList false
            else l
          | none => l
        { l with running := 0 }
      else if c = '=' then
        { l with property := some l.start, str := put_nul l.str l.cur,
                 state := parse_ifopt_state.PIS_AnyValue }
      else if c = ',' then
        let l := { l with property := some l.start, str := put_nul l.str l.cur }
        let l := if (cstr l.str l.start).length > 0 then
            ifopt_set l (cstr l.str l.start) "1".toList true
          else l
        { l with start := l.cur + 1 }
      else if ¬ (c_isalpha c ∨ c_isdigit c ∨ c = '-') then
        { l with error := true, running := 0 }
      else l
    | parse_ifopt_state.PIS_AnyValue =>
      if c.toNat = 0 ∨ c = ',' then
        let l := match l.property with
          | some p => ifopt_set l (cstr l.str p) [] true
          | none => l
        if c.toNat = 0 then { l with running := 0 } else l
      else if c = '"' then
        { l with start := l.cur + 1, state := parse_ifopt_state.PIS_QuotedValue }
      else
        { l with start := l.cur, state := parse_ifopt_state.PIS_UnquotedValue }
    | parse_ifopt_state.PIS_QuotedValue =>
      if c.toNat = 0 then { l with error := true, running := 0 }
      else if c = '"' then
        let l := { l with str := put_nul l.str l.cur }
        let l := match l.property with
          | some p => ifopt_set l (cstr l.str p) (cstr l.str l.start) true
          | none => l
        { l with state := parse_ifopt_state.PIS_ExpectComma }
      else l
    | parse_ifopt_state.PIS_UnquotedValue =>
      if c.toNat = 0 ∨ c = ',' then
        let l := { l with str := put_nul l.str l.cur }
        let l := match l.property with
          | some p => ifopt_set l (cstr l.str p) (cstr l.str l.start) true
          | none => l
        let l := if c.toNat = 0 then { l with running := 0 } else l
        { l with start := l.cur + 1, state := parse_ifopt_state.PIS_Property }
      else l
    | parse_ifopt_state.PIS_ExpectComma =>
      if c.toNat = 0 ∨ c = ',' then
        let l := { l with start := l.cur + 1, state := parse_ifopt_state.PIS_Property }
        if c.toNat = 0 then { l with running := 0 } else l
      else { l with error := true, running := 0 }
  if l1.running ≠ 0 then { l1 with cur := l1.cur + 1 } else l1

/-- The loop `while (running)` of `parse_interface_options`; `none` when it is still
running after `fuel` turns. -/
def ifopt_loop : Nat → ifopt_locals → Option ifopt_locals
  | 0, _ => none
  | fuel + 1, l => if l.running ≠ 0 then ifopt_loop fuel (ifopt_step l) else some l

/-- Function `parse_interface_options` on the option string `ifopt`: the value
returned (-1 when a message was written, 0 otherwise) and the server afterwards.
The fuel is one turn per character, one for the terminating zero and one for the
last test of the loop. -/
def parse_interface_options (ifopt : String) (serv : pppoe_serv_t) : Option (Int × pppoe_serv_t) :=
  (ifopt_loop (ifopt.length + 2)
    { state := parse_ifopt_state.PIS_Property, str := ifopt.toList ++ [Char.ofNat 0], cur := 0,
      start := 0, property := none, running := -1, error := false, serv := serv }).map
    (fun l => (if l.error then -1 else 0, l.serv))

/-- The fields `padi_limit` and `require_service_name` of the demo server after
`parse_interface_options` read `ifopt`, and the value returned. -/
def demo_ifopt (ifopt : String) : Option (Int × Int × Int) :=
  (parse_interface_options ifopt demo_serv).map
    (fun r => (r.1, r.2.padi_limit, r.2.require_service_name))

/-- A PADI of 1518 bytes from 02:00:00:00:00:01: an empty SERVICE_NAME and a
HOST_UNIQ of 1490 bytes. -/
def padi_big : List Nat :=
  padi_frame [2, 0, 0, 0, 0, 1]
    ([0x01, 0x01, 0, 0, 0x01, 0x03, 1490 / 256, 1490 % 256] ++ List.replicate 1490 0xab)

/-- The instant of a `timespec`, in nanoseconds. -/
def ts_ns (t : timespec) : Int := t.tv_sec * 1000000000 + t.tv_nsec

/-- A window entry for 02:00:00:00:00:01 stamped at `sec` seconds and `nsec`
nanoseconds. -/
def demo_padi (sec nsec : Int) : padi_t :=
  { ts := { tv_sec := sec, tv_nsec := nsec }, addr := [2, 0, 0, 0, 0, 1] }

/-- One call of the encoder after `setup_header`: `add_tag(pack, type, data, len)` or
`add_tag2(pack, t)`. -/
inductive enc_op where
  | add (type : Nat) (data : List Nat) (len : Nat)
  | add2 (t : pppoe_tag)
deriving DecidableEq, Repr

/-- The calls of the encoder, made one after the other on a buffer. -/
def enc_apply (pack : List Nat) : List enc_op → List Nat
  | [] => pack
  | enc_op.add type data len :: ops => enc_apply (add_tag pack type data len) ops
  | enc_op.add2 t :: ops => enc_apply (add_tag2 pack t) ops

/-- The (type, length, data) triple that a call of the encoder appends. -/
def enc_tag : enc_op → pppoe_tag
  | enc_op.add type data len => { tag_type := type, tag_len := len, tag_data := data.take len }
  | enc_op.add2 t => t

/-- What a call of the encoder needs from its arguments: a type of 16 bits and `len`
readable bytes at `data` for `add_tag`, a well-formed tag for `add_tag2`. -/
def enc_op_wf : enc_op → Prop
  | enc_op.add type data len => type < 65536 ∧ len ≤ data.length
  | enc_op.add2 t => tag_wf t

/-- The sum over the appended tags of `4 + tag_len`. -/
def enc_size (ops : List enc_op) : Nat := (ops.map (fun op => TAG_HLEN + (enc_tag op).tag_len)).sum

/-! ## Delayed PADO -/

/-- Function `free_delayed_pado`: the timer is removed, the counter decremented and
the entry taken out of the queue. -/
def free_delayed_pado (g : globals) (serv : pppoe_serv_t) (pado : delayed_pado_t) :
    globals × pppoe_serv_t × List action :=
  ({ g with stat_delayed_pado := (g.stat_delayed_pado + 2 ^ 32 - 1) % 2 ^ 32 },
   { serv with pado_list := serv.pado_list.erase pado },
   [action.timer_del pado])

/-- Function `pado_timer`, the expiry of the timer of a queued entry: the PADO is sent
unless the daemon shuts down, then the entry is freed. -/
def pado_timer (g : globals) (serv : pppoe_serv_t) (pado : delayed_pado_t) :
    globals × pppoe_serv_t × List action :=
  let r1 : globals × List action :=
    if g.ppp_shutdown = 0 then
      pppoe_send_PADO g pado.addr pado.host_uniq pado.relay_sid pado.service_name
    else (g, [])
  let r2 := free_delayed_pado r1.1 serv pado
  (r2.1, r2.2.1, r1.2 ++ r2.2.2)

/-- The states of a server, with the actions taken so far, that PADI frames and
timer expiries of queued entries lead to from `s0`, when the globals at each event
satisfy `P`. -/
inductive pado_reachable (P : globals → Prop) (s0 : pppoe_serv_t) :
    pppoe_serv_t → List action → Prop
  | start : pado_reachable P s0 s0 []
  | padi (s : pppoe_serv_t) (acts : List action) (g : globals) (pack : List Nat)
      (now now_warn : timespec) (alloc_ok connlimit : Bool) :
      P g → pado_reachable P s0 s acts →
      pado_reachable P s0 (pppoe_recv_PADI g s pack now now_warn alloc_ok connlimit).2.1
        (acts ++ (pppoe_recv_PADI g s pack now now_warn alloc_ok connlimit).2.2)
  | timer (s : pppoe_serv_t) (acts : List action) (g : globals) (pado : delayed_pado_t) :
      P g → pado_reachable P s0 s acts → pado ∈ s.pado_list →
      pado_reachable P s0 (pado_timer g s pado).2.1 (acts ++ (pado_timer g s pado).2.2)

/-- The queue of delayed PADOs holds at most one entry for each source address. -/
def pado_unique (serv : pppoe_serv_t) : Prop :=
  serv.pado_list.Pairwise (fun a b => memcmp a.addr b.addr ETH_ALEN ≠ 0)

/-- The demo configuration with a PADO delay of 100 ms. -/
def demo_globals_delay : globals := { demo_globals with pado_delay := 100 }

/-! ## Teardown triggers -/

/-- Function `ppp_finished`, the callback of the PPP engine for the session `conn` of
the server `serv`: when `ppp_started` is set the active counter is decremented, the
flag cleared and `disconnect` posted to the context of the session; otherwise nothing
is done. The table and the list of `serv` hold the session by pointer in C, so the
changed record replaces the old one there. -/
def ppp_finished (g : globals) (conn : pppoe_conn_t) (serv : pppoe_serv_t) :
    globals × pppoe_serv_t × List action :=
  if conn.ppp_started then
    let conn1 : pppoe_conn_t := { conn with ppp_started := false }
    ({ g with stat_active := (g.stat_active + 2 ^ 32 - 1) % 2 ^ 32 },
     { serv with
       conn := fun i => if serv.conn i = some conn then some conn1 else serv.conn i
       conn_list := serv.conn_list.map (fun c => if c = conn then conn1 else c) },
     [action.dpado_check_prev g.stat_active, action.call_disconnect conn1])
  else (g, serv, [])

/-- The loop of `pppoe_del_service_name` from index `i` on, with `k` rounds left and
the value of `found` so far. -/
def pppoe_del_service_name_loop (item : List Nat) (list : List (Option (List Nat))) :
    Nat → Nat → Int → Int × List (Option (List Nat))
  | 0, _, _ => (-1, list)
  | k + 1, i, found =>
    let found1 : Int := if list.getD i none = some item then (i : Int) else found
    if found1 ≥ 0 ∧ (list.getD i none = none ∨ i = list.length - 1) then
      let list1 := if found1 ≠ (i : Int) then list.set found1.toNat (list.getD i none) else list
      (0, list1.set i none)
    else pppoe_del_service_name_loop item list k (i + 1) found1

/-- Function `pppoe_del_service_name` on an array `list[MAX_SERVICE_NAMES]`, given as
the list of its entries: the value returned and the array afterwards. -/
def pppoe_del_service_name (list : List (Option (List Nat))) (item : List Nat) :
    Int × List (Option (List Nat)) :=
  pppoe_del_service_name_loop item list list.length 0 (-1)

/-- An array of eight entries that holds the names `a`, `b` and `c`, as three calls
of `pppoe_add_service_name` on the cleared array leave it. -/
def demo_names : List (Option (List Nat)) :=
  (pppoe_add_service_name (pppoe_add_service_name (pppoe_add_service_name
    (List.replicate 8 none) [97]).2 [98]).2 [99]).2

/-- A PADR to the demo server from 02:00:00:00:00:01 whose only tag is the cookie
issued to that address: no SERVICE_NAME tag. -/
def padr_no_name : List Nat :=
  frame_of demo_serv.hwaddr [2, 0, 0, 0, 0, 1] 0x11 CODE_PADR 0 ([0x01, 0x04, 0, 24] ++ demo_cookie)

/-! ## The counter of active sessions -/

/-- The server after a field of the session `conn` was written, `conn1` being the
record afterwards: the table and the list hold the session by pointer in C, so the
changed record replaces the old one there. -/
def store_conn (serv : pppoe_serv_t) (conn conn1 : pppoe_conn_t) : pppoe_serv_t :=
  { serv with
    conn := fun i => if serv.conn i = some conn then some conn1 else serv.conn i
    conn_list := serv.conn_list.map (fun c => if c = conn then conn1 else c) }

/-- Function `connect_channel` for the session `conn` of the server `serv`. `ok` tells
whether `socket`, `connect` and `establish_ppp` all succeeded: then `ppp_started` is
set and the active counter incremented (`dpado_check_next` gets the new value);
otherwise the function ends in `disconnect`. The socket itself is not part of the
model. -/
def connect_channel (g : globals) (conn : pppoe_conn_t) (serv : pppoe_serv_t) (ok : Bool) :
    globals × pppoe_serv_t × List action :=
  if ok then
    ({ g with stat_active := (g.stat_active + 1) % 2 ^ 32 },
     store_conn serv conn { conn with ppp_started := true },
     [action.dpado_check_next ((g.stat_active + 1) % 2 ^ 32)])
  else disconnect g conn serv

/-- Function `pppoe_conn_close`, the `close` callback of the context of a session: a
session with PPP running is asked to terminate, another one is disconnected. -/
def pppoe_conn_close (g : globals) (conn : pppoe_conn_t) (serv : pppoe_serv_t) :
    globals × pppoe_serv_t × List action :=
  if conn.ppp_started then
    (g, serv, [action.ppp_terminate conn term_cause.TERM_ADMIN_RESET 0])
  else disconnect g conn serv

/-- The number of sessions of a server whose `ppp_started` is set. -/
def started_count (serv : pppoe_serv_t) : Nat :=
  serv.conn_list.countP (fun c => c.ppp_started)

/-- The number of sessions of all servers whose `ppp_started` is set. -/
def total_started (servs : List pppoe_serv_t) : Nat :=
  (servs.map started_count).sum

/-- The invariant of the sessions of one server: the invariant of the table, every
session of the list is in the table at its session id, and no session is in the list
twice. -/
structure session_inv (M : Nat) (s : pppoe_serv_t) : Prop where
  table : table_inv M s.ptr s
  listed : ∀ c ∈ s.conn_list, s.conn c.sid = some c
  nodup : s.conn_list.Nodup

/-- The states of the daemon, the globals and the servers of its interfaces, that are
reached from `g0` and `servs0` by calls of `allocate_channel` that return, and by
calls of `connect_channel`, `ppp_finished`, `pppoe_conn_close` and `disconnect` for a
session that is in the list of its server. `connect_channel` is called once for a
session, as the first call on its context, so `ppp_started` is still clear then. -/
inductive active_reachable (MAX_SID : Nat) (g0 : globals) (servs0 : List pppoe_serv_t) :
    globals → List pppoe_serv_t → Prop
  | start : active_reachable MAX_SID g0 servs0 g0 servs0
  | alloc (g : globals) (pre post : List pppoe_serv_t) (s s1 : pppoe_serv_t) (fuel : Nat)
      (alloc_ok : Bool) (addr : List Nat) (host_uniq relay_sid : Option pppoe_tag)
      (service_name : pppoe_tag) (tr101 : Option pppoe_tag) (cookie : List Nat)
      (r : Option pppoe_conn_t) :
      active_reachable MAX_SID g0 servs0 g (pre ++ s :: post) →
      allocate_channel MAX_SID g fuel alloc_ok s addr host_uniq relay_sid service_name tr101
        cookie = some (s1, r) →
      active_reachable MAX_SID g0 servs0 g (pre ++ s1 :: post)
  | connect (g : globals) (pre post : List pppoe_serv_t) (s : pppoe_serv_t)
      (conn : pppoe_conn_t) (ok : Bool) :
      active_reachable MAX_SID g0 servs0 g (pre ++ s :: post) →
      conn ∈ s.conn_list → conn.ppp_started = false →
      active_reachable MAX_SID g0 servs0 (connect_channel g conn s ok).1
        (pre ++ (connect_channel g conn s ok).2.1 :: post)
  | finished (g : globals) (pre post : List pppoe_serv_t) (s : pppoe_serv_t)
      (conn : pppoe_conn_t) :
      active_reachable MAX_SID g0 servs0 g (pre ++ s :: post) →
      conn ∈ s.conn_list →
      active_reachable MAX_SID g0 servs0 (ppp_finished g conn s).1
        (pre ++ (ppp_finished g conn s).2.1 :: post)
  | close (g : globals) (pre post : List pppoe_serv_t) (s : pppoe_serv_t)
      (conn : pppoe_conn_t) :
      active_reachable MAX_SID g0 servs0 g (pre ++ s :: post) →
      conn ∈ s.conn_list →
      active_reachable MAX_SID g0 servs0 (pppoe_conn_close g conn s).1
        (pre ++ (pppoe_conn_close g conn s).2.1 :: post)
  | disc (g : globals) (pre post : List pppoe_serv_t) (s : pppoe_serv_t)
      (conn : pppoe_conn_t) :
      active_reachable MAX_SID g0 servs0 g (pre ++ s :: post) →
      conn ∈ s.conn_list →
      active_reachable MAX_SID g0 servs0 (disconnect g conn s).1
        (pre ++ (disconnect g conn s).2.1 :: post)

/-- The session of `demo_serv_1`, as `allocate_channel` made it. -/
def demo_session_1 : pppoe_conn_t := (demo_serv_1.conn 1).getD (demo_conn 0)

/-- The entry that the demo server queues for a PADI from 02:00:00:00:00:01 with an
empty SERVICE_NAME under a delay of 100 ms. -/
def demo_pado : delayed_pado_t :=
  { addr := [2, 0, 0, 0, 0, 1], host_uniq := none, relay_sid := none,
    service_name := some demo_tag, period := 100 }

/-! ## Lemmas on the byte helpers -/

theorem memcmp_eq_zero_iff (n : Nat) (a b : List Nat) :
    memcmp a b n = 0 ↔ a.take n = b.take n := by
  induction n generalizing a b with
  | zero => simp [memcmp]
  | succ n ih =>
    cases a with
    | nil => cases b <;> simp [memcmp]
    | cons x xs =>
      cases b with
      | nil => simp [memcmp]
      | cons y ys =>
        by_cases hxy : x = y
        · simp [memcmp, hxy, ih]
        · have : (x : Int) - (y : Int) ≠ 0 := by omega
          simp [memcmp, hxy, this]

theorem blk_zero (x y z : List Nat) (hx : x.length = 8) : blk (x ++ (y ++ z)) 0 = x := by
  simp [blk, hx]

theorem blk_one (x y z : List Nat) (hx : x.length = 8) (hy : y.length = 8) :
    blk (x ++ (y ++ z)) 1 = y := by
  simp [blk, hx, hy, List.drop_append_eq_append_drop]

theorem blk_two (x y z : List Nat) (hx : x.length = 8) (hy : y.length = 8)
    (hz : z.length = 8) : blk (x ++ (y ++ z)) 2 = z := by
  have h16 : (x ++ y).length = 8 * 2 := by simp [hx, hy]
  rw [blk, ← List.append_assoc, List.drop_left' h16]
  simp [hz]

theorem set_blk_zero (x y z b : List Nat) (hx : x.length = 8) (hb : b.length = 8) :
    set_blk (x ++ (y ++ z)) 0 b = b ++ (y ++ z) := by
  simp [set_blk, memcpy_at, hx, hb, List.drop_append_eq_append_drop]

theorem set_blk_one (x y z b : List Nat) (hx : x.length = 8) (hy : y.length = 8)
    (hb : b.length = 8) : set_blk (x ++ (y ++ z)) 1 b = x ++ (b ++ z) := by
  simp [set_blk, memcpy_at, hx, hy, hb, List.drop_append_eq_append_drop,
    List.take_append_eq_append_take]

theorem set_blk_two (x y z b : List Nat) (hx : x.length = 8) (hy : y.length = 8)
    (hz : z.length = 8) (hb : b.length = 8) :
    set_blk (x ++ (y ++ z)) 2 b = x ++ (y ++ b) := by
  have h16 : (x ++ y).length = 8 * 2 := by simp [hx, hy]
  have h24 : (x ++ y ++ z).length = 8 * 2 + b.length := by simp [hx, hy, hz, hb]
  rw [set_blk, memcpy_at, ← List.append_assoc, List.take_left' h16,
    List.drop_eq_nil_of_le (le_of_eq h24)]
  simp

/-! ## Cookie engine: closed forms -/

theorem digest_split (c : crypto) (m : List Nat) :
    ((c.MD5 m).take 8).length = 8 ∧ ((c.MD5 m).drop 8).length = 8 ∧
      (c.MD5 m).take 8 ++ (c.MD5 m).drop 8 = c.MD5 m := by
  have h := c.MD5_length m
  refine ⟨?_, ?_, List.take_append_drop 8 _⟩
  · simp [h]
  · simp [h]

theorem generate_cookie_eq (c : crypto) (serv : pppoe_serv_t) (src key : List Nat)
    (hkey : key.length = 8) :
    generate_cookie c serv src key =
      c.DES_ecb_encrypt (c.DES_ecb_encrypt ((cookie_digest c serv src key).take 8)
          (c.DES_set_key key) true) serv.des_ks true ++
      (c.DES_ecb_encrypt (c.DES_ecb_encrypt ((cookie_digest c serv src key).drop 8)
          (c.DES_set_key key) true) serv.des_ks true ++
       c.DES_ecb_encrypt key serv.des_ks true) := by
  obtain ⟨h0, h1, h01⟩ := digest_split c (serv.secret ++ serv.hwaddr ++ src ++ key)
  have hz : (List.replicate 8 0 : List Nat).length = 8 := by simp
  have hu1 : memcpy_at (List.replicate 24 0) 0
      (c.MD5 (serv.secret ++ serv.hwaddr ++ src ++ key)) =
      (c.MD5 (serv.secret ++ serv.hwaddr ++ src ++ key)).take 8 ++
        ((c.MD5 (serv.secret ++ serv.hwaddr ++ src ++ key)).drop 8 ++ List.replicate 8 0) := by
    rw [← List.append_assoc, h01]
    simp [memcpy_at, c.MD5_length]
  have hu2 : (List.replicate 24 0 : List Nat) =
      List.replicate 8 0 ++ (List.replicate 8 0 ++ List.replicate 8 0) := by decide
  unfold generate_cookie cookie_digest
  simp only [List.foldl, hu1]
  rw [hu2]
  simp only [blk_zero, blk_one, blk_two, set_blk_zero, set_blk_one, set_blk_two, h0, h1, hz,
    hkey, c.DES_cblock_length]

theorem check_cookie_eq (c : crypto) (serv : pppoe_serv_t) (src x y z : List Nat)
    (hx : x.length = 8) (hy : y.length = 8) (hz : z.length = 8) :
    check_cookie c serv src (x ++ (y ++ z)) =
      if (c.DES_set_key_checked (c.DES_ecb_encrypt z serv.des_ks false)).1 ≠ 0 then -1
      else memcmp
        (c.DES_ecb_encrypt (c.DES_ecb_encrypt x serv.des_ks false)
            (c.DES_set_key_checked (c.DES_ecb_encrypt z serv.des_ks false)).2 false ++
          (c.DES_ecb_encrypt (c.DES_ecb_encrypt y serv.des_ks false)
            (c.DES_set_key_checked (c.DES_ecb_encrypt z serv.des_ks false)).2 false ++ z))
        (cookie_digest c serv src (c.DES_ecb_encrypt z serv.des_ks false) ++
          c.DES_ecb_encrypt z serv.des_ks false) 16 := by
  have hz0 : (List.replicate 8 0 : List Nat).length = 8 := by simp
  have hu2 : (List.replicate 24 0 : List Nat) =
      List.replicate 8 0 ++ (List.replicate 8 0 ++ List.replicate 8 0) := by decide
  have htake : (x ++ (y ++ z)).take 24 = x ++ (y ++ z) := by
    apply List.take_of_length_le
    simp [hx, hy, hz]
  have hcpy : ∀ a b k d : List Nat, a.length = 8 → b.length = 8 → d.length = 16 →
      memcpy_at (a ++ (b ++ k)) 0 d = d ++ k := by
    intro a b k d ha hb hd
    have h16 : (a ++ b).length = 0 + d.length := by simp [ha, hb, hd]
    rw [memcpy_at, ← List.append_assoc a b k, List.drop_left' h16]
    simp
  unfold check_cookie cookie_digest
  simp only [List.foldl, htake]
  rw [hu2]
  simp only [blk_zero, blk_one, blk_two, set_blk_zero, set_blk_one, set_blk_two, hx, hy, hz,
    hz0, c.DES_cblock_length, hcpy, c.MD5_length]

/-- Shared core of the two cookie theorems: a cookie made for `mac` with an accepted
key is accepted for `mac2` exactly when the two digests agree. -/
theorem check_generate_iff (c : crypto) (serv : pppoe_serv_t) (mac mac2 key : List Nat)
    (hinv : ∀ b ks, b.length = 8 →
      c.DES_ecb_encrypt (c.DES_ecb_encrypt b ks true) ks false = b)
    (hkey : key.length = 8)
    (hchk : c.DES_set_key_checked key = (0, c.DES_set_key key)) :
    check_cookie c serv mac2 (generate_cookie c serv mac key) = 0 ↔
      cookie_digest c serv mac2 key = cookie_digest c serv mac key := by
  obtain ⟨h0, h1, h01⟩ := digest_split c (serv.secret ++ serv.hwaddr ++ mac ++ key)
  have hlen : (cookie_digest c serv mac key).length = 16 := c.MD5_length _
  have hlen2 : (cookie_digest c serv mac2 key).length = 16 := c.MD5_length _
  rw [generate_cookie_eq c serv mac key hkey,
    check_cookie_eq c serv mac2 _ _ _ (c.DES_cblock_length _ _ _) (c.DES_cblock_length _ _ _)
      (c.DES_cblock_length _ _ _)]
  simp only [hinv key _ hkey, hchk, cookie_digest]
  rw [hinv _ _ (c.DES_cblock_length _ _ _), hinv _ _ (c.DES_cblock_length _ _ _),
    hinv _ _ h0, hinv _ _ h1]
  simp only [ne_eq, not_true_eq_false, ↓reduceIte]
  rw [memcmp_eq_zero_iff, ← List.append_assoc, h01, List.take_left' (c.MD5_length _),
    List.take_left' (c.MD5_length _)]
  exact eq_comm

theorem occupied_congr (M : Nat) (f g : Nat → Option pppoe_conn_t)
    (h : ∀ j, j < M → f j = g j) : occupied M f = occupied M g := by
  unfold occupied
  congr 1
  apply List.filter_congr
  intro j hj
  rw [h j (List.mem_range.mp hj)]

theorem occupied_succ (M : Nat) (f : Nat → Option pppoe_conn_t) :
    occupied (M + 1) f = occupied M f + (if (f M).isSome then 1 else 0) := by
  unfold occupied
  rw [List.range_succ, List.filter_append, List.length_append]
  by_cases h : (f M).isSome <;> simp [h]

theorem occupied_update_some (M : Nat) (conn : Nat → Option pppoe_conn_t) (i : Nat)
    (c : pppoe_conn_t) (hi : i < M) (hnone : conn i = none) :
    occupied M (Function.update conn i (some c)) = occupied M conn + 1 := by
  induction M with
  | zero => omega
  | succ M ih =>
    rw [occupied_succ, occupied_succ]
    by_cases hiM : i = M
    · subst hiM
      have h1 : occupied i (Function.update conn i (some c)) = occupied i conn := by
        apply occupied_congr
        intro j hj
        rw [Function.update_noteq (by omega)]
      simp [h1, hnone]
    · rw [ih (by omega), Function.update_noteq (Ne.symm hiM)]
      omega

theorem occupied_update_none (M : Nat) (conn : Nat → Option pppoe_conn_t) (i : Nat)
    (c : pppoe_conn_t) (hi : i < M) (hsome : conn i = some c) :
    occupied M (Function.update conn i none) + 1 = occupied M conn := by
  induction M with
  | zero => omega
  | succ M ih =>
    rw [occupied_succ, occupied_succ]
    by_cases hiM : i = M
    · subst hiM
      have h1 : occupied i (Function.update conn i none) = occupied i conn := by
        apply occupied_congr
        intro j hj
        rw [Function.update_noteq (by omega)]
      simp [h1, hsome]
    · rw [Function.update_noteq (Ne.symm hiM), ← ih (by omega)]
      omega

/-- What a successful scan returns: an empty slot in `1 .. MAX_SID-1`, the first one met
going up from the start and, after the wrap at `MAX_SID`, up from 1. -/
theorem sid_scan_found (M : Nat) (conn : Nat → Option pppoe_conn_t) (cursor : Nat)
    (hM : 2 ≤ M) (fuel : Nat) :
    ∀ sid s, 1 ≤ sid → sid ≤ M → sid_scan M conn cursor fuel sid = some (some s) →
      conn s = none ∧ 1 ≤ s ∧ s < M ∧
      ((sid ≤ s ∧ ∀ i, sid ≤ i → i < s → (conn i).isSome) ∨
       (s < sid ∧ (∀ i, sid ≤ i → i < M → (conn i).isSome) ∧
          ∀ i, 1 ≤ i → i < s → (conn i).isSome)) := by
  induction fuel with
  | zero => intro sid s _ _ h; simp [sid_scan] at h
  | succ fuel ih =>
    intro sid s h1 h2 h
    rw [sid_scan] at h
    by_cases hc : sid = cursor
    · simp [hc] at h
    · simp only [hc, ↓reduceIte] at h
      by_cases hw : sid = M
      · simp only [hw, ↓reduceIte] at h
        by_cases he : (conn 1).isNone
        · simp only [he, ↓reduceIte, Option.some.injEq] at h
          subst h
          refine ⟨by simpa using he, le_refl _, by omega, Or.inr ⟨by omega, ?_, ?_⟩⟩
          · intro i hi1 hi2; omega
          · intro i hi1 hi2; omega
        · simp only [he] at h
          have h' := ih 2 s (by omega) hM h
          obtain ⟨hs, hs1, hsM, hor⟩ := h'
          have h1some : (conn 1).isSome := by
            cases hx : conn 1 <;> simp [hx] at he ⊢
          refine ⟨hs, hs1, hsM, Or.inr ⟨by omega, ?_, ?_⟩⟩
          · intro i hi1 hi2; omega
          · intro i hi1 hi2
            rcases hor with ⟨h2s, hall⟩ | ⟨hlt, _, _⟩
            · by_cases hi : i = 1
              · rw [hi]; exact h1some
              · exact hall i (by omega) hi2
            · have : s = 1 := by omega
              rw [this] at hs
              simp [hs] at h1some
      · simp only [hw, ↓reduceIte] at h
        by_cases he : (conn sid).isNone
        · simp only [he, ↓reduceIte, Option.some.injEq] at h
          subst h
          refine ⟨by simpa using he, h1, by omega, Or.inl ⟨le_refl _, ?_⟩⟩
          intro i hi1 hi2; omega
        · simp only [he] at h
          have h' := ih (sid + 1) s (by omega) (by omega) h
          obtain ⟨hs, hs1, hsM, hor⟩ := h'
          have hsome : (conn sid).isSome := by
            cases hx : conn sid <;> simp [hx] at he ⊢
          have hne : s ≠ sid := by
            intro heq; rw [heq] at hs; simp [hs] at hsome
          refine ⟨hs, hs1, hsM, ?_⟩
          rcases hor with ⟨h2s, hall⟩ | ⟨hlt, hall1, hall2⟩
          · left
            refine ⟨by omega, ?_⟩
            intro i hi1 hi2
            by_cases hi : i = sid
            · rw [hi]; exact hsome
            · exact hall i (by omega) hi2
          · right
            refine ⟨by omega, ?_, hall2⟩
            intro i hi1 hi2
            by_cases hi : i = sid
            · rw [hi]; exact hsome
            · exact hall1 i (by omega) hi2

/-- Enough fuel never changes the result of a scan that is left. -/
theorem sid_scan_mono (M : Nat) (conn : Nat → Option pppoe_conn_t) (cursor : Nat)
    (fuel : Nat) : ∀ sid r, sid_scan M conn cursor fuel sid = some r →
      sid_scan M conn cursor (fuel + 1) sid = some r := by
  induction fuel with
  | zero => intro sid r h; simp [sid_scan] at h
  | succ fuel ih =>
    intro sid r h
    rw [sid_scan] at h
    rw [sid_scan]
    by_cases hc : sid = cursor
    · simpa [hc] using h
    · simp only [hc, ↓reduceIte] at h ⊢
      by_cases he : (conn (if sid = M then 1 else sid)).isNone
      · simpa [he] using h
      · simp only [he] at h ⊢
        exact ih _ _ h

/-- Second leg of a scan over a table whose only free slot may be the cursor: from
`sid` up to the cursor nothing is free and the loop is left at the cursor. -/
theorem sid_scan_up_to_cursor (M : Nat) (conn : Nat → Option pppoe_conn_t) (cursor : Nat)
    (hcM : cursor < M) (k : Nat) :
    ∀ sid fuel, sid + k = cursor → k < fuel →
      (∀ i, sid ≤ i → i < cursor → (conn i).isSome) →
      sid_scan M conn cursor fuel sid = some none := by
  induction k with
  | zero =>
    intro sid fuel hs hf _
    obtain ⟨f, rfl⟩ : ∃ f, fuel = f + 1 := ⟨fuel - 1, by omega⟩
    simp [sid_scan, show sid = cursor by omega]
  | succ k ih =>
    intro sid fuel hs hf hall
    obtain ⟨f, rfl⟩ : ∃ f, fuel = f + 1 := ⟨fuel - 1, by omega⟩
    have h1 : sid ≠ cursor := by omega
    have h2 : sid ≠ M := by omega
    have h3 : (conn sid).isSome := hall sid (le_refl _) (by omega)
    have h4 : ¬ (conn sid).isNone := by
      cases hx : conn sid <;> simp [hx] at h3 ⊢
    rw [sid_scan]
    simp only [h1, h2, ↓reduceIte, h4]
    exact ih (sid + 1) f (by omega) (by omega) (fun i hi1 hi2 => hall i (by omega) hi2)

/-- A scan that starts above a cursor `c ≥ 2` over a table in which every slot but
the one of the cursor is taken is left without a slot. -/
theorem sid_scan_misses_cursor (M : Nat) (conn : Nat → Option pppoe_conn_t) (cursor : Nat)
    (hc2 : 2 ≤ cursor) (hcM : cursor < M)
    (hfull : ∀ i, 1 ≤ i → i < M → i ≠ cursor → (conn i).isSome) (k : Nat) :
    ∀ sid fuel, sid + k = M → cursor < sid → k + cursor ≤ fuel →
      sid_scan M conn cursor fuel sid = some none := by
  induction k with
  | zero =>
    intro sid fuel hs hlt hf
    obtain ⟨f, rfl⟩ : ∃ f, fuel = f + 1 := ⟨fuel - 1, by omega⟩
    have h1 : sid ≠ cursor := by omega
    have h2 : sid = M := by omega
    have h3 : (conn 1).isSome := hfull 1 (le_refl _) (by omega) (by omega)
    have h4 : ¬ (conn 1).isNone := by
      cases hx : conn 1 <;> simp [hx] at h3 ⊢
    have h5 := sid_scan_up_to_cursor M conn cursor hcM (cursor - 2) 2 f (by omega) (by omega)
      (fun i hi1 hi2 => hfull i (by omega) (by omega) (by omega))
    subst h2
    rw [sid_scan]
    simp only [h1, ↓reduceIte, h4]
    exact h5
  | succ k ih =>
    intro sid fuel hs hlt hf
    obtain ⟨f, rfl⟩ : ∃ f, fuel = f + 1 := ⟨fuel - 1, by omega⟩
    have h1 : sid ≠ cursor := by omega
    have h2 : sid ≠ M := by omega
    have h3 : (conn sid).isSome := hfull sid (by omega) (by omega) (by omega)
    have h4 : ¬ (conn sid).isNone := by
      cases hx : conn sid <;> simp [hx] at h3 ⊢
    rw [sid_scan]
    simp only [h1, h2, ↓reduceIte, h4]
    exact ih (sid + 1) f (by omega) (by omega) (by omega)

/-- With the cursor at 0 or 1 and every slot taken the loop is never left. -/
theorem sid_scan_never_left (M : Nat) (conn : Nat → Option pppoe_conn_t) (cursor : Nat)
    (hM : 2 ≤ M) (hc : cursor ≤ 1)
    (hfull : ∀ i, 1 ≤ i → i < M → (conn i).isSome) (fuel : Nat) :
    ∀ sid, cursor < sid → sid ≤ M → sid_scan M conn cursor fuel sid = none := by
  induction fuel with
  | zero => intro sid _ _; rfl
  | succ fuel ih =>
    intro sid h2 hM2
    have h1 : sid ≠ cursor := by omega
    rw [sid_scan]
    simp only [h1, ↓reduceIte]
    by_cases hw : sid = M
    · have h3 : (conn 1).isSome := hfull 1 (le_refl _) (by omega)
      have h4 : ¬ (conn 1).isNone := by
        cases hx : conn 1 <;> simp [hx] at h3 ⊢
      simp only [hw, ↓reduceIte, h4]
      exact ih 2 (by omega) hM
    · have h3 : (conn sid).isSome := hfull sid (by omega) (by omega)
      have h4 : ¬ (conn sid).isNone := by
        cases hx : conn sid <;> simp [hx] at h3 ⊢
      simp only [hw, ↓reduceIte, h4]
      exact ih (sid + 1) (by omega) (by omega)

theorem pad_to_of_length (n : Nat) (l : List Nat) (h : l.length = n) : pad_to n l = l := by
  unfold pad_to
  exact List.take_left' h

theorem demo_crypto_inverse (b ks : List Nat) (hb : b.length = 8) :
    demo_crypto.DES_ecb_encrypt (demo_crypto.DES_ecb_encrypt b ks true) ks false = b := by
  have h1 : (b.rotate 1).length = 8 := by simp [hb]
  simp only [demo_crypto, ↓reduceIte, Bool.false_eq_true, pad_to_of_length 8 b hb,
    pad_to_of_length 8 _ h1, List.rotate_rotate]
  have : 1 + 7 = b.length := by omega
  rw [this, List.rotate_length]

/-- C1. Cookie round trip: for every server, every peer address `mac` and every key
`key` that `DES_random_key` can return (eight bytes which `DES_set_key_checked`
accepts, giving the schedule of `DES_set_key`), `check_cookie` returns 0 on the
cookie that `generate_cookie` writes for the same address, provided only that an
ECB decryption undoes the encryption under the same key schedule. -/
theorem cookie_round_trip (c : crypto) (serv : pppoe_serv_t) (mac key : List Nat)
    (hinv : ∀ b ks, b.length = 8 →
      c.DES_ecb_encrypt (c.DES_ecb_encrypt b ks true) ks false = b)
    (hkey : key.length = 8)
    (hchk : c.DES_set_key_checked key = (0, c.DES_set_key key)) :
    check_cookie c serv mac (generate_cookie c serv mac key) = 0 :=
  (check_generate_iff c serv mac mac key hinv hkey hchk).mpr rfl

theorem cookie_round_trip_witness :
    (∀ b ks : List Nat, b.length = 8 →
      demo_crypto.DES_ecb_encrypt (demo_crypto.DES_ecb_encrypt b ks true) ks false = b) ∧
    check_cookie demo_crypto demo_serv [2, 0, 0, 0, 0, 1]
      (generate_cookie demo_crypto demo_serv [2, 0, 0, 0, 0, 1] [1, 2, 3, 4, 5, 6, 7, 8]) = 0 :=
  ⟨demo_crypto_inverse,
   cookie_round_trip demo_crypto demo_serv [2, 0, 0, 0, 0, 1] [1, 2, 3, 4, 5, 6, 7, 8]
     demo_crypto_inverse rfl rfl⟩

/-- C2. Cookie MAC binding: for two different peer addresses `mac` and `mac2` and a
cookie made by `generate_cookie` for `mac` with an accepted key, `check_cookie`
for `mac2` returns 0 if and only if the 16-byte digest of (secret, hwaddr, mac2,
key) equals the digest of (secret, hwaddr, mac, key); so the cookie is rejected
whenever the two digests differ. -/
theorem cookie_mac_binding (c : crypto) (serv : pppoe_serv_t) (mac mac2 key : List Nat)
    (_hne : mac2 ≠ mac)
    (hinv : ∀ b ks, b.length = 8 →
      c.DES_ecb_encrypt (c.DES_ecb_encrypt b ks true) ks false = b)
    (hkey : key.length = 8)
    (hchk : c.DES_set_key_checked key = (0, c.DES_set_key key)) :
    (check_cookie c serv mac2 (generate_cookie c serv mac key) = 0 ↔
      c.MD5 (serv.secret ++ serv.hwaddr ++ mac2 ++ key) =
        c.MD5 (serv.secret ++ serv.hwaddr ++ mac ++ key)) ∧
    (c.MD5 (serv.secret ++ serv.hwaddr ++ mac2 ++ key) ≠
        c.MD5 (serv.secret ++ serv.hwaddr ++ mac ++ key) →
      check_cookie c serv mac2 (generate_cookie c serv mac key) ≠ 0) := by
  have h := check_generate_iff c serv mac mac2 key hinv hkey hchk
  simp only [cookie_digest] at h
  exact ⟨h, fun hne hz => hne (h.mp hz)⟩

theorem cookie_mac_binding_witness :
    ([2, 0, 0, 0, 0, 2] : List Nat) ≠ [2, 0, 0, 0, 0, 1] ∧
    (∀ b ks : List Nat, b.length = 8 →
      demo_crypto.DES_ecb_encrypt (demo_crypto.DES_ecb_encrypt b ks true) ks false = b) ∧
    check_cookie demo_crypto demo_serv [2, 0, 0, 0, 0, 2]
      (generate_cookie demo_crypto demo_serv [2, 0, 0, 0, 0, 1] [1, 2, 3, 4, 5, 6, 7, 8]) ≠ 0 :=
  ⟨by decide, demo_crypto_inverse,
   (cookie_mac_binding demo_crypto demo_serv [2, 0, 0, 0, 0, 1] [2, 0, 0, 0, 0, 2]
     [1, 2, 3, 4, 5, 6, 7, 8] (by decide) demo_crypto_inverse rfl rfl).2 (by decide)⟩

/-- What a call of `allocate_channel` that returns a session has done. -/
theorem allocate_channel_some (M : Nat) (g : globals) (fuel : Nat) (alloc_ok : Bool)
    (serv : pppoe_serv_t) (addr : List Nat) (host_uniq relay_sid : Option pppoe_tag)
    (service_name : pppoe_tag) (tr101 : Option pppoe_tag) (cookie : List Nat)
    (serv1 : pppoe_serv_t) (conn : pppoe_conn_t)
    (hM : 2 ≤ M) (hM2 : M ≤ 65536) (hc : serv.sid < M)
    (h : allocate_channel M g fuel alloc_ok serv addr host_uniq relay_sid service_name tr101
      cookie = some (serv1, some conn)) :
    sid_scan M serv.conn serv.sid fuel (serv.sid + 1) = some (some conn.sid) ∧
    conn.serv = serv.ptr ∧
    serv1 = { serv with
      sid := conn.sid
      conn := Function.update serv.conn conn.sid (some conn)
      conn_list := serv.conn_list ++ [conn]
      conn_cnt := serv.conn_cnt + 1 } := by
  unfold allocate_channel at h
  cases alloc_ok with
  | false => simp at h
  | true =>
    simp only [Bool.not_true, Bool.false_eq_true, ↓reduceIte] at h
    cases hs : sid_scan M serv.conn serv.sid fuel (serv.sid + 1) with
    | none => simp [hs] at h
    | some r =>
      cases r with
      | none => simp [hs] at h
      | some sid =>
        obtain ⟨_, _, hsM, _⟩ := sid_scan_found M serv.conn serv.sid hM fuel (serv.sid + 1) sid
          (by omega) (by omega) hs
        have hmod : sid % 65536 = sid := Nat.mod_eq_of_lt (by omega)
        simp only [hs, hmod] at h
        split at h
        · simp at h
        · simp only [Option.some.injEq, Prod.mk.injEq] at h
          obtain ⟨h1, h2⟩ := h
          subst h2
          exact ⟨rfl, rfl, h1.symm⟩

/-- C3. SID allocation result: whenever `allocate_channel` returns a session on a
server with cursor `c = serv.sid` (below `MAX_SID`), the session id `s` it assigned
is not zero, lies in `1 .. MAX_SID-1`, was an empty slot, and is the first empty
slot in the circular order `c+1, c+2, .., MAX_SID-1, 1, 2, ..`: either `s` is above
the cursor and every slot strictly between them is taken, or the scan wrapped and
every slot above the cursor and every slot from 1 up to `s` is taken. Afterwards
`conn[s]` is the new session, whose `sid` field is `s`, the cursor is `s`,
`conn_cnt` has grown by exactly one and no other slot has changed. On a fresh
server (cursor 0, empty table) the call returns a session and its id is 1. -/
theorem allocate_channel_sid (M : Nat) (g : globals) (fuel : Nat) (alloc_ok : Bool)
    (serv : pppoe_serv_t) (addr : List Nat) (host_uniq relay_sid : Option pppoe_tag)
    (service_name : pppoe_tag) (tr101 : Option pppoe_tag) (cookie : List Nat)
    (hM : 2 ≤ M) (hM2 : M ≤ 65536) (hc : serv.sid < M) :
    (∀ serv1 conn,
      allocate_channel M g fuel alloc_ok serv addr host_uniq relay_sid service_name tr101
        cookie = some (serv1, some conn) →
      conn.sid ≠ 0 ∧ 1 ≤ conn.sid ∧ conn.sid < M ∧
      serv.conn conn.sid = none ∧
      ((serv.sid < conn.sid ∧ ∀ i, serv.sid < i → i < conn.sid → (serv.conn i).isSome) ∨
       (conn.sid ≤ serv.sid ∧ (∀ i, serv.sid < i → i < M → (serv.conn i).isSome) ∧
          ∀ i, 1 ≤ i → i < conn.sid → (serv.conn i).isSome)) ∧
      serv1.conn conn.sid = some conn ∧ serv1.sid = conn.sid ∧
      serv1.conn_cnt = serv.conn_cnt + 1 ∧
      (∀ i, i ≠ conn.sid → serv1.conn i = serv.conn i)) ∧
    (serv.sid = 0 → (∀ i, serv.conn i = none) →
      ∃ serv1 conn,
        allocate_channel M g (fuel + 1) true serv addr host_uniq relay_sid service_name tr101
          cookie = some (serv1, some conn) ∧ conn.sid = 1) := by
  constructor
  · intro serv1 conn h
    obtain ⟨hscan, _, hserv1⟩ := allocate_channel_some M g fuel alloc_ok serv addr host_uniq
      relay_sid service_name tr101 cookie serv1 conn hM hM2 hc h
    obtain ⟨hnone, h1, hlt, hor⟩ := sid_scan_found M serv.conn serv.sid hM fuel (serv.sid + 1)
      conn.sid (by omega) (by omega) hscan
    refine ⟨by omega, h1, hlt, hnone, ?_, ?_, ?_, ?_, ?_⟩
    · rcases hor with ⟨ha, hb⟩ | ⟨ha, hb, hc2⟩
      · exact Or.inl ⟨by omega, fun i hi1 hi2 => hb i (by omega) hi2⟩
      · exact Or.inr ⟨by omega, fun i hi1 hi2 => hb i (by omega) hi2, hc2⟩
    · rw [hserv1]; simp
    · rw [hserv1]
    · rw [hserv1]
    · intro i hi
      rw [hserv1]
      exact Function.update_noteq hi _ _
  · intro h0 hempty
    have h1M : (1 : Nat) ≠ M := by omega
    simp only [allocate_channel, sid_scan, h0, hempty, h1M, Bool.not_true, Bool.false_eq_true,
      ↓reduceIte, zero_add, Nat.one_ne_zero, Option.isNone_none, Nat.one_mod]
    exact ⟨_, _, rfl, rfl⟩



theorem allocate_channel_sid_witness :
    (2 ≤ 8 ∧ 8 ≤ 65536 ∧ (demo_table 7 [3, 5]).sid < 8) ∧
    ∃ serv1 conn,
      allocate_channel 8 demo_globals 20 true (demo_table 7 [3, 5]) [2, 0, 0, 0, 0, 1] none none
        demo_tag none (List.replicate 24 1) = some (serv1, some conn) ∧
      conn.sid = 3 ∧ serv1.sid = 3 ∧ serv1.conn 3 = some conn ∧
      serv1.conn_cnt = (demo_table 7 [3, 5]).conn_cnt + 1 ∧
      serv1.conn 5 = none ∧ serv1.conn 4 = some (demo_conn 4) := by
  refine ⟨by decide, ?_⟩
  obtain ⟨s1, c, hs, hc⟩ : ∃ s1 c,
      allocate_channel 8 demo_globals 20 true (demo_table 7 [3, 5]) [2, 0, 0, 0, 0, 1] none none
        demo_tag none (List.replicate 24 1) = some (s1, some c) ∧ c.sid = 3 := ⟨_, _, rfl, rfl⟩
  have h := (allocate_channel_sid 8 demo_globals 20 true (demo_table 7 [3, 5])
    [2, 0, 0, 0, 0, 1] none none demo_tag none (List.replicate 24 1)
    (by decide) (by decide) (by decide)).1 s1 c hs
  obtain ⟨_, _, _, _, _, h6, h7, h8, h9⟩ := h
  refine ⟨s1, c, hs, hc, ?_, ?_, h8, ?_, ?_⟩
  · rw [h7, hc]
  · rw [← hc]; exact h6
  · rw [h9 5 (by rw [hc]; decide)]; rfl
  · rw [h9 4 (by rw [hc]; decide)]; rfl

/-- When the cursor is at a slot `c ≥ 2`, that slot is empty and every other slot of
`1 .. MAX_SID-1` is taken, `allocate_channel` leaves its loop without looking at
slot `c` and returns `NULL`, leaving the server as it was. -/
theorem allocate_channel_cursor_slot_only (M : Nat) (g : globals) (fuel : Nat)
    (serv : pppoe_serv_t) (addr : List Nat) (host_uniq relay_sid : Option pppoe_tag)
    (service_name : pppoe_tag) (tr101 : Option pppoe_tag) (cookie : List Nat)
    (hc2 : 2 ≤ serv.sid) (hcM : serv.sid < M)
    (hfull : ∀ i, 1 ≤ i → i < M → i ≠ serv.sid → (serv.conn i).isSome)
    (hfuel : M ≤ fuel) :
    allocate_channel M g fuel true serv addr host_uniq relay_sid service_name tr101 cookie =
      some (serv, none) := by
  have h := sid_scan_misses_cursor M serv.conn serv.sid hc2 hcM hfull (M - (serv.sid + 1))
    (serv.sid + 1) fuel (by omega) (by omega) (by omega)
  simp [allocate_channel, h]

/-- When the cursor is 0 or 1 and every slot of `1 .. MAX_SID-1` is taken, the loop of
`allocate_channel` is never left: whatever the number of loop tests allowed, the
call has not returned. -/
theorem allocate_channel_low_cursor_full (M : Nat) (g : globals) (fuel : Nat)
    (serv : pppoe_serv_t) (addr : List Nat) (host_uniq relay_sid : Option pppoe_tag)
    (service_name : pppoe_tag) (tr101 : Option pppoe_tag) (cookie : List Nat)
    (hM : 2 ≤ M) (hc : serv.sid ≤ 1)
    (hfull : ∀ i, 1 ≤ i → i < M → (serv.conn i).isSome) :
    allocate_channel M g fuel true serv addr host_uniq relay_sid service_name tr101 cookie =
      none := by
  have h := sid_scan_never_left M serv.conn serv.sid hM hc hfull fuel (serv.sid + 1)
    (by omega) (by omega)
  simp [allocate_channel, h]

theorem table_inv_fresh (M : Nat) (s0 : pppoe_serv_t) (hM : 2 ≤ M) (h0 : fresh_table s0) :
    table_inv M s0.ptr s0 := by
  obtain ⟨hempty, hsid, hcnt, hlist⟩ := h0
  refine ⟨?_, by omega, ?_, ?_, rfl⟩
  · intro i c h; rw [hempty] at h; simp at h
  · have : occupied M s0.conn = 0 := by
      unfold occupied
      simp [hempty]
    rw [hcnt, this]; rfl
  · rw [hcnt, hlist]; rfl

theorem table_inv_alloc (M : Nat) (ptr : Nat) (s s1 : pppoe_serv_t) (g : globals) (fuel : Nat)
    (alloc_ok : Bool) (addr : List Nat) (host_uniq relay_sid : Option pppoe_tag)
    (service_name : pppoe_tag) (tr101 : Option pppoe_tag) (cookie : List Nat)
    (r : Option pppoe_conn_t) (hM : 2 ≤ M) (hM2 : M ≤ 65536) (hinv : table_inv M ptr s)
    (h : allocate_channel M g fuel alloc_ok s addr host_uniq relay_sid service_name tr101
      cookie = some (s1, r)) : table_inv M ptr s1 := by
  cases r with
  | none =>
    have hs : s1 = s := by
      unfold allocate_channel at h
      cases alloc_ok with
      | false => simp at h; exact h.symm
      | true =>
        simp only [Bool.not_true, Bool.false_eq_true, ↓reduceIte] at h
        cases hs : sid_scan M s.conn s.sid fuel (s.sid + 1) with
        | none => simp [hs] at h
        | some r =>
          cases r with
          | none => simp [hs] at h; exact h.symm
          | some sid =>
            obtain ⟨_, h1, hsM, _⟩ := sid_scan_found M s.conn s.sid hM fuel (s.sid + 1) sid
              (by omega) (by have := hinv.cursor; omega) hs
            have hmod : sid % 65536 = sid := Nat.mod_eq_of_lt (by omega)
            simp only [hs, hmod] at h
            split at h
            · omega
            · simp at h
    rw [hs]; exact hinv
  | some c =>
    obtain ⟨hscan, hserv, hs1⟩ := allocate_channel_some M g fuel alloc_ok s addr host_uniq
      relay_sid service_name tr101 cookie s1 c hM hM2 hinv.cursor h
    obtain ⟨hnone, h1, hlt, _⟩ := sid_scan_found M s.conn s.sid hM fuel (s.sid + 1) c.sid
      (by omega) (by have := hinv.cursor; omega) hscan
    rw [hs1]
    refine ⟨?_, hlt, ?_, ?_, hinv.owner⟩
    · intro i c2 hi
      by_cases hic : i = c.sid
      · subst hic
        simp only [Function.update_same, Option.some.injEq] at hi
        subst hi
        exact ⟨rfl, hserv.trans hinv.owner, h1, hlt, by simp⟩
      · simp only [Function.update_noteq hic] at hi
        obtain ⟨a, b, d, e, f⟩ := hinv.slot i c2 hi
        exact ⟨a, b, d, e, by simp [f]⟩
    · simp only [occupied_update_some M s.conn c.sid c hlt hnone, hinv.count]
      push_cast; ring
    · simp only [List.length_append, List.length_singleton, hinv.length]
      push_cast; ring

theorem table_inv_disc (M : Nat) (ptr : Nat) (s : pppoe_serv_t) (g : globals) (i : Nat)
    (c : pppoe_conn_t) (hinv : table_inv M ptr s) (h : s.conn i = some c) :
    table_inv M ptr (disconnect g c s).2.1 := by
  obtain ⟨hsid, _, h1, hlt, hmem⟩ := hinv.slot i c h
  have hcount := occupied_update_none M s.conn i c hlt h
  have hlen := List.length_erase_of_mem hmem
  have hpos : 0 < s.conn_list.length := List.length_pos_of_mem hmem
  simp only [disconnect, hsid]
  refine ⟨?_, hinv.cursor, ?_, ?_, hinv.owner⟩
  · intro j c2 hj
    by_cases hji : j = i
    · subst hji; simp at hj
    · simp only [Function.update_noteq hji] at hj
      obtain ⟨a, b, d, e, f⟩ := hinv.slot j c2 hj
      refine ⟨a, b, d, e, ?_⟩
      have hne : c2 ≠ c := by
        intro heq; rw [heq] at a; omega
      exact (List.mem_erase_of_ne hne).mpr f
  · have := hinv.count
    simp only
    omega
  · have := hinv.length
    simp only
    omega

theorem table_inv_reachable (M : Nat) (s0 s : pppoe_serv_t) (hM : 2 ≤ M) (hM2 : M ≤ 65536)
    (h0 : fresh_table s0) (hr : table_reachable M s0 s) : table_inv M s0.ptr s := by
  induction hr with
  | start => exact table_inv_fresh M s0 hM h0
  | alloc s s1 g fuel alloc_ok addr host_uniq relay_sid service_name tr101 cookie r _ h ih =>
    exact table_inv_alloc M s0.ptr s s1 g fuel alloc_ok addr host_uniq relay_sid service_name
      tr101 cookie r hM hM2 ih h
  | disc s g i c _ h ih => exact table_inv_disc M s0.ptr s g i c ih h

/-- C6. Session-table invariant: in every state that a sequence of `allocate_channel`
and `disconnect` calls reaches from a server with an empty table, every occupied
slot `i` holds a session whose `sid` is `i` and whose back pointer is the owning
server, slot 0 is not occupied, and `conn_cnt` equals both the number of occupied
slots and the length of `conn_list`. -/
theorem session_table_invariant (M : Nat) (s0 s : pppoe_serv_t) (hM : 2 ≤ M)
    (hM2 : M ≤ 65536) (h0 : fresh_table s0) (hr : table_reachable M s0 s) :
    (∀ i c, s.conn i = some c → c.sid = i ∧ c.serv = s.ptr) ∧
    s.conn 0 = none ∧
    s.conn_cnt = (occupied M s.conn : Int) ∧
    s.conn_cnt = (s.conn_list.length : Int) := by
  have hinv := table_inv_reachable M s0 s hM hM2 h0 hr
  refine ⟨?_, ?_, hinv.count, hinv.length⟩
  · intro i c h
    obtain ⟨a, b, _⟩ := hinv.slot i c h
    exact ⟨a, b.trans hinv.owner.symm⟩
  · cases h : s.conn 0 with
    | none => rfl
    | some c =>
      obtain ⟨_, _, h1, _⟩ := hinv.slot 0 c h
      omega

theorem session_table_invariant_witness :
    fresh_table demo_serv ∧ table_reachable 8 demo_serv demo_serv_3 ∧
    (∀ i c, demo_serv_3.conn i = some c → c.sid = i ∧ c.serv = demo_serv_3.ptr) ∧
    demo_serv_3.conn 0 = none ∧
    demo_serv_3.conn_cnt = (occupied 8 demo_serv_3.conn : Int) ∧
    demo_serv_3.conn_cnt = (demo_serv_3.conn_list.length : Int) := by
  have h0 : fresh_table demo_serv := ⟨fun _ => rfl, rfl, rfl, rfl⟩
  have h1 : table_reachable 8 demo_serv demo_serv_1 :=
    table_reachable.alloc demo_serv demo_serv_1 demo_globals 8 true [2, 0, 0, 0, 0, 1] none none
      demo_tag none (List.replicate 24 1) _ table_reachable.start rfl
  have h2 : table_reachable 8 demo_serv demo_serv_2 :=
    table_reachable.alloc demo_serv_1 demo_serv_2 demo_globals 8 true [2, 0, 0, 0, 0, 2] none none
      demo_tag none (List.replicate 24 2) _ h1 rfl
  have h3 : table_reachable 8 demo_serv demo_serv_3 :=
    table_reachable.disc demo_serv_2 demo_globals 1 _ h2 rfl
  exact ⟨h0, h3, session_table_invariant 8 demo_serv demo_serv_3 (by decide) (by decide) h0 h3⟩

/-! ## PADI admission: lemmas -/

/-- Eviction does nothing to a window whose head is not expired. -/
theorem padi_evict_head (now : timespec) (q : padi_t) (qs : List padi_t) (cnt : Int)
    (total : Nat) (hq : padi_expired now q = false) :
    padi_evict now (q :: qs) cnt total = (q :: qs, cnt, total) := by
  simp [padi_evict, hq]

/-- The eviction loop keeps `padi_cnt` minus the length of the window. -/
theorem padi_evict_count (now : timespec) (l : List padi_t) :
    ∀ cnt total, (padi_evict now l cnt total).2.1 - ((padi_evict now l cnt total).1.length : Int) =
      cnt - (l.length : Int) := by
  induction l with
  | nil => intro _ _; rfl
  | cons q qs ih =>
    intro cnt total
    unfold padi_evict
    by_cases hq : padi_expired now q
    · simp only [hq, ↓reduceIte, ih, List.length_cons]
      push_cast; ring
    · simp only [hq]
      rfl

/-- The window after eviction is never longer than before. -/
theorem padi_evict_length (now : timespec) (l : List padi_t) :
    ∀ cnt total, (padi_evict now l cnt total).1.length ≤ l.length := by
  induction l with
  | nil => intro _ _; exact le_refl _
  | cons q qs ih =>
    intro cnt total
    unfold padi_evict
    by_cases hq : padi_expired now q
    · simp only [hq, ↓reduceIte, List.length_cons]
      exact Nat.le_succ_of_le (ih _ _)
    · simp only [hq]
      exact le_refl _

/-- The three rejections that precede the append, and the failed allocation, leave
exactly the state after eviction. -/
theorem check_padi_limit_cases (g : globals) (serv : pppoe_serv_t) (addr : List Nat)
    (now : timespec) (alloc_ok connlimit : Bool) (hlimit : serv.padi_limit ≠ 0) :
    (check_padi_limit g serv addr now alloc_ok connlimit =
        (-1, (after_evict now g serv).1, (after_evict now g serv).2)) ∨
    ((after_evict now g serv).2.padi_cnt ≠ serv.padi_limit ∧
      ((after_evict now g serv).2.padi_list.any
        (fun p => memcmp p.addr addr ETH_ALEN = 0)) = false ∧
      alloc_ok = true ∧
      check_padi_limit g serv addr now alloc_ok connlimit =
        (if connlimit then -1 else 0,
         { (after_evict now g serv).1 with
           total_padi_cnt := ((after_evict now g serv).1.total_padi_cnt + 1) % 2 ^ 32 },
         { (after_evict now g serv).2 with
           padi_list := (after_evict now g serv).2.padi_list ++
             [{ ts := now, addr := addr.take ETH_ALEN }]
           padi_cnt := (after_evict now g serv).2.padi_cnt + 1 })) := by
  have hl : (after_evict now g serv).2.padi_limit = serv.padi_limit := rfl
  unfold check_padi_limit
  simp only [hlimit, ↓reduceIte]
  by_cases h1 : (after_evict now g serv).2.padi_cnt = (after_evict now g serv).2.padi_limit
  · left; simp only [h1, ↓reduceIte]
  · simp only [h1, ↓reduceIte]
    by_cases h2 : (after_evict now g serv).1.conf_padi_limit ≠ 0 ∧
        (after_evict now g serv).1.total_padi_cnt ≥
          ((after_evict now g serv).1.conf_padi_limit % 2 ^ 32).toNat
    · left; rw [if_pos h2]
    · rw [if_neg h2]
      by_cases h3 : (after_evict now g serv).2.padi_list.any
          (fun p => memcmp p.addr addr ETH_ALEN = 0) = true
      · left; simp only [h3, ↓reduceIte]
      · simp only [h3]
        cases alloc_ok with
        | false => left; simp
        | true =>
          right
          refine ⟨by rw [← hl]; exact h1, by simp [h3], rfl, ?_⟩
          simp

/-- The fields that `check_padi_limit` never writes. -/
theorem check_padi_limit_frame (g : globals) (serv : pppoe_serv_t) (addr : List Nat)
    (now : timespec) (alloc_ok connlimit : Bool) :
    (check_padi_limit g serv addr now alloc_ok connlimit).2.1.stat_PADI_drop = g.stat_PADI_drop ∧
    (check_padi_limit g serv addr now alloc_ok connlimit).2.1.stat_PADO_sent = g.stat_PADO_sent ∧
    (check_padi_limit g serv addr now alloc_ok connlimit).2.1.stat_delayed_pado =
      g.stat_delayed_pado ∧
    (check_padi_limit g serv addr now alloc_ok connlimit).2.1.ppp_shutdown = g.ppp_shutdown ∧
    (check_padi_limit g serv addr now alloc_ok connlimit).2.1.pado_delay = g.pado_delay ∧
    (check_padi_limit g serv addr now alloc_ok connlimit).2.2.padi_limit = serv.padi_limit ∧
    (check_padi_limit g serv addr now alloc_ok connlimit).2.2.pado_list = serv.pado_list := by
  simp only [check_padi_limit]
  split_ifs <;> exact ⟨rfl, rfl, rfl, rfl, rfl, rfl, rfl⟩

/-- The window invariant: the counter is the length of the window and does not
exceed the limit. -/
theorem window_inv_step (g : globals) (s : pppoe_serv_t) (addr : List Nat) (now : timespec)
    (alloc_ok connlimit : Bool) (hlimit : 0 < s.padi_limit)
    (hlen : s.padi_cnt = (s.padi_list.length : Int)) (hle : s.padi_cnt ≤ s.padi_limit) :
    (check_padi_limit g s addr now alloc_ok connlimit).2.2.padi_cnt =
      ((check_padi_limit g s addr now alloc_ok connlimit).2.2.padi_list.length : Int) ∧
    (check_padi_limit g s addr now alloc_ok connlimit).2.2.padi_cnt ≤ s.padi_limit ∧
    (check_padi_limit g s addr now alloc_ok connlimit).2.2.padi_limit = s.padi_limit := by
  have hcount := padi_evict_count now s.padi_list s.padi_cnt g.total_padi_cnt
  have hlength := padi_evict_length now s.padi_list s.padi_cnt g.total_padi_cnt
  have e1 : (after_evict now g s).2.padi_cnt =
      (padi_evict now s.padi_list s.padi_cnt g.total_padi_cnt).2.1 := rfl
  have e2 : (after_evict now g s).2.padi_list =
      (padi_evict now s.padi_list s.padi_cnt g.total_padi_cnt).1 := rfl
  rcases check_padi_limit_cases g s addr now alloc_ok connlimit (by omega) with h | ⟨hne, _, _, h⟩
  · rw [h]
    simp only [e1, e2]
    exact ⟨by omega, by omega, rfl⟩
  · rw [h]
    rw [e1] at hne
    simp only [e1, e2, List.length_append, List.length_singleton]
    refine ⟨by push_cast; omega, by omega, rfl⟩

/-- C8. PADI window bound: on a server with `padi_limit > 0`, in every state reached
from an empty window by calls of `check_padi_limit`, `padi_cnt` equals the number
of entries of `padi_list` and is at most `padi_limit`; and a PADI that arrives
when `padi_cnt == padi_limit` after eviction is rejected (-1) and leaves exactly
the state after eviction, without a new entry. -/
theorem padi_window_bound (s0 s : pppoe_serv_t) (hlimit : 0 < s0.padi_limit)
    (hlist : s0.padi_list = []) (hcnt : s0.padi_cnt = 0) (hr : window_reachable s0 s) :
    s.padi_cnt = (s.padi_list.length : Int) ∧ s.padi_cnt ≤ s.padi_limit ∧
    (∀ (g : globals) (addr : List Nat) (now : timespec) (alloc_ok connlimit : Bool),
      (after_evict now g s).2.padi_cnt = s.padi_limit →
      check_padi_limit g s addr now alloc_ok connlimit =
        (-1, (after_evict now g s).1, (after_evict now g s).2) ∧
      (check_padi_limit g s addr now alloc_ok connlimit).2.2.padi_list =
        (after_evict now g s).2.padi_list) := by
  have hinv : s.padi_cnt = (s.padi_list.length : Int) ∧ s.padi_cnt ≤ s.padi_limit ∧
      s.padi_limit = s0.padi_limit := by
    induction hr with
    | start => rw [hlist, hcnt]; exact ⟨rfl, by omega, rfl⟩
    | step s g addr now alloc_ok connlimit _ ih =>
      obtain ⟨i1, i2, i3⟩ := ih
      obtain ⟨j1, j2, j3⟩ := window_inv_step g s addr now alloc_ok connlimit (by omega) i1 i2
      exact ⟨j1, by omega, by omega⟩
  obtain ⟨i1, i2, i3⟩ := hinv
  refine ⟨i1, i2, ?_⟩
  intro g addr now alloc_ok connlimit hfull
  have hl : s.padi_limit ≠ 0 := by omega
  have h : check_padi_limit g s addr now alloc_ok connlimit =
      (-1, (after_evict now g s).1, (after_evict now g s).2) := by
    have hl2 : (after_evict now g s).2.padi_limit = s.padi_limit := rfl
    simp only [check_padi_limit, hl, ↓reduceIte, hl2, hfull]
  exact ⟨h, by rw [h]⟩

theorem padi_window_bound_witness :
    (0 < demo_serv_limit.padi_limit ∧ demo_serv_limit.padi_list = [] ∧
      demo_serv_limit.padi_cnt = 0) ∧
    window_reachable demo_serv_limit
      (check_padi_limit demo_globals demo_serv_limit [2, 0, 0, 0, 0, 1] demo_now true false).2.2 ∧
    (check_padi_limit demo_globals demo_serv_limit [2, 0, 0, 0, 0, 1] demo_now true false).2.2.padi_cnt
      = ((check_padi_limit demo_globals demo_serv_limit [2, 0, 0, 0, 0, 1] demo_now true
          false).2.2.padi_list.length : Int) ∧
    (check_padi_limit demo_globals demo_serv_limit [2, 0, 0, 0, 0, 1] demo_now true false).2.2.padi_cnt
      ≤ 3 := by
  have hr : window_reachable demo_serv_limit
      (check_padi_limit demo_globals demo_serv_limit [2, 0, 0, 0, 0, 1] demo_now true false).2.2 :=
    window_reachable.step demo_serv_limit demo_globals [2, 0, 0, 0, 0, 1] demo_now true false
      window_reachable.start
  have h := padi_window_bound demo_serv_limit _ (by decide) rfl rfl hr
  exact ⟨⟨by decide, rfl, rfl⟩, hr, h.1, h.2.1⟩

/-- C9 (as stated, refuted). With `padi_limit == 0` an arriving PADI is not appended to
the window and no counter is incremented: on the demo server, whose limit is 0,
after `check_padi_limit` the window is still empty, not the old window followed
by (source, now), and `padi_cnt` and `total_padi_cnt` are still 0, not one more
than before. -/
theorem padi_limit_zero_no_append :
    demo_serv.padi_limit = 0 ∧
    (check_padi_limit demo_globals demo_serv [2, 0, 0, 0, 0, 1] demo_now true false).2.2.padi_list
      ≠ demo_serv.padi_list ++ [{ ts := demo_now, addr := [2, 0, 0, 0, 0, 1] }] ∧
    (check_padi_limit demo_globals demo_serv [2, 0, 0, 0, 0, 1] demo_now true false).2.2.padi_cnt
      ≠ demo_serv.padi_cnt + 1 ∧
    (check_padi_limit demo_globals demo_serv [2, 0, 0, 0, 0, 1] demo_now true
      false).2.1.total_padi_cnt ≠ demo_globals.total_padi_cnt + 1 := by
  decide

/-- C9 (amended). When `padi_limit` is 0, `check_padi_limit` goes straight to the
connection-limit query: eviction, the window limit, the global cap, the dedup
check and the append are all skipped, so the window, `padi_cnt` and
`total_padi_cnt` (indeed the whole server and all globals) are unchanged, and
the result is -1 when the limiter refuses and 0 otherwise. -/
theorem padi_limit_zero_skips_window (g : globals) (serv : pppoe_serv_t) (addr : List Nat)
    (now : timespec) (alloc_ok connlimit : Bool) (h0 : serv.padi_limit = 0) :
    check_padi_limit g serv addr now alloc_ok connlimit =
      (if connlimit then -1 else 0, g, serv) ∧
    (check_padi_limit g serv addr now alloc_ok connlimit).2.2.padi_list = serv.padi_list ∧
    (check_padi_limit g serv addr now alloc_ok connlimit).2.2.padi_cnt = serv.padi_cnt ∧
    (check_padi_limit g serv addr now alloc_ok connlimit).2.1.total_padi_cnt =
      g.total_padi_cnt := by
  have h : check_padi_limit g serv addr now alloc_ok connlimit =
      (if connlimit then -1 else 0, g, serv) := by
    simp [check_padi_limit, h0]
  exact ⟨h, by rw [h], by rw [h], by rw [h]⟩

theorem padi_limit_zero_skips_window_witness :
    demo_serv.padi_limit = 0 ∧
    (check_padi_limit demo_globals demo_serv [2, 0, 0, 0, 0, 1] demo_now true false).2.2.padi_list
      = demo_serv.padi_list ∧
    (check_padi_limit demo_globals demo_serv [2, 0, 0, 0, 0, 1] demo_now true false).2.1.total_padi_cnt
      = demo_globals.total_padi_cnt :=
  ⟨rfl,
   (padi_limit_zero_skips_window demo_globals demo_serv [2, 0, 0, 0, 0, 1] demo_now true false
      rfl).2.1,
   (padi_limit_zero_skips_window demo_globals demo_serv [2, 0, 0, 0, 0, 1] demo_now true false
      rfl).2.2.2⟩

/-- C10 (the code at the failing input). A PADI whose tag list runs beyond the declared
`hdr.length` is not treated as malformed. First frame: the last tag (HOST_UNIQ)
declares 8 bytes of data of which only 2 lie inside the declared payload of 10
bytes; the handler answers with a PADO that echoes the tag with all 8 bytes, 6 of
them taken from the buffer behind the declared payload. Second frame: the
declared payload of 6 bytes ends inside the header of the second tag; the
handler reads the length field of that tag (3) from behind the declared payload
and again answers with a PADO. -/
theorem padi_overlong_tag_answered :
    hdr_length overlong_tag_pack = 10 ∧
    (pppoe_recv_PADI demo_globals demo_serv overlong_tag_pack demo_now demo_now true false).2.2 =
      [action.sent_PADO [2, 0, 0, 0, 0, 1]
        (some { tag_type := TAG_HOST_UNIQ, tag_len := 8,
                tag_data := [0xaa, 0xbb, 1, 2, 3, 4, 5, 6] })
        none (some { tag_type := TAG_SERVICE_NAME, tag_len := 0, tag_data := [] })] ∧
    hdr_length cut_header_pack = 6 ∧
    (pppoe_recv_PADI demo_globals demo_serv cut_header_pack demo_now demo_now true false).2.2 =
      [action.sent_PADO [2, 0, 0, 0, 0, 1]
        (some { tag_type := TAG_HOST_UNIQ, tag_len := 3, tag_data := [7, 8, 9] })
        none (some { tag_type := TAG_SERVICE_NAME, tag_len := 0, tag_data := [] })] := by
  decide

/-- The fuel given to the tag loop is never used up: with at least
`hdr_length pack - n` turns left, one more turn of fuel changes nothing. -/
theorem padi_tag_loop_fuel (g : globals) (serv : pppoe_serv_t) (pack : List Nat)
    (service_names : Option (List (Option (List Nat)))) (fuel : Nat) :
    ∀ n st, hdr_length pack - n ≤ fuel →
      padi_tag_loop g serv pack service_names fuel n st =
        padi_tag_loop g serv pack service_names (fuel + 1) n st := by
  induction fuel with
  | zero =>
    intro n st h
    have : ¬ n < hdr_length pack := by omega
    simp [padi_tag_loop, this]
  | succ fuel ih =>
    intro n st h
    rw [padi_tag_loop, padi_tag_loop]
    by_cases hn : n < hdr_length pack
    · simp only [hn, ↓reduceIte]
      apply ih
      simp only [TAG_HLEN]
      omega
    · simp only [hn, ↓reduceIte]

/-- When the slot after the cursor is free, one loop test takes it. -/
theorem allocate_channel_next (M : Nat) (g : globals) (fuel : Nat) (s : pppoe_serv_t)
    (addr : List Nat) (host_uniq relay_sid : Option pppoe_tag) (service_name : pppoe_tag)
    (tr101 : Option pppoe_tag) (cookie : List Nat) (hM2 : M ≤ 65536) (hlt : s.sid + 1 < M)
    (hfree : s.conn (s.sid + 1) = none) :
    ∃ c : pppoe_conn_t,
      allocate_channel M g (fuel + 1) true s addr host_uniq relay_sid service_name tr101 cookie =
        some ({ s with
                sid := s.sid + 1
                conn := Function.update s.conn (s.sid + 1) (some c)
                conn_list := s.conn_list ++ [c]
                conn_cnt := s.conn_cnt + 1 }, some c) := by
  have h1 : s.sid + 1 ≠ M := by omega
  have hmod : (s.sid + 1) % 65536 = s.sid + 1 := Nat.mod_eq_of_lt (by omega)
  simp only [allocate_channel, sid_scan, h1, hfree, hmod, Bool.not_true, Bool.false_eq_true,
    ↓reduceIte, Nat.succ_ne_self, Option.isNone_none, Nat.add_one_ne_zero]
  exact ⟨_, rfl⟩

/-- When the cursor is at the last slot and slot 1 is free, the scan wraps and one
loop test takes slot 1. -/
theorem allocate_channel_wrap (M : Nat) (g : globals) (fuel : Nat) (s : pppoe_serv_t)
    (addr : List Nat) (host_uniq relay_sid : Option pppoe_tag) (service_name : pppoe_tag)
    (tr101 : Option pppoe_tag) (cookie : List Nat) (hlast : s.sid + 1 = M)
    (hfree : s.conn 1 = none) :
    ∃ c : pppoe_conn_t,
      allocate_channel M g (fuel + 1) true s addr host_uniq relay_sid service_name tr101 cookie =
        some ({ s with
                sid := 1
                conn := Function.update s.conn 1 (some c)
                conn_list := s.conn_list ++ [c]
                conn_cnt := s.conn_cnt + 1 }, some c) := by
  simp only [allocate_channel, sid_scan, hlast, hfree, Bool.not_true, Bool.false_eq_true,
    ↓reduceIte, Nat.succ_ne_self, Option.isNone_none, Nat.one_mod, Nat.one_ne_zero]
  have h1 : M ≠ s.sid := by omega
  simp only [h1, ↓reduceIte]
  exact ⟨_, rfl⟩

/-- After `n` allocations on a fresh server the slots `1 .. n` are taken, the others
are free and the cursor is `n`. -/
theorem fill_table_spec (M : Nat) (g : globals) (s0 : pppoe_serv_t) (hM2 : M ≤ 65536)
    (h0 : fresh_table s0) (n : Nat) (hn : n < M) :
    table_reachable M s0 (fill_table M g n s0) ∧ (fill_table M g n s0).sid = n ∧
    ∀ i, ((fill_table M g n s0).conn i).isSome ↔ (1 ≤ i ∧ i ≤ n) := by
  induction n with
  | zero =>
    refine ⟨table_reachable.start, h0.2.1, ?_⟩
    intro i
    simp only [fill_table, h0.1 i]
    constructor
    · intro h; simp at h
    · intro h; omega
  | succ n ih =>
    obtain ⟨hr, hsid, hocc⟩ := ih (by omega)
    have hfree : (fill_table M g n s0).conn ((fill_table M g n s0).sid + 1) = none := by
      have := (hocc (n + 1)).not.mpr (by omega)
      rw [hsid]
      cases hx : (fill_table M g n s0).conn (n + 1) with
      | none => rfl
      | some c => rw [hx] at this; simp at this
    obtain ⟨c, hc⟩ := allocate_channel_next M g 0 (fill_table M g n s0) [2, 0, 0, 0, 0, 1] none
      none demo_tag none (List.replicate 24 0) hM2 (by omega) hfree
    have hfill : fill_table M g (n + 1) s0 =
        { fill_table M g n s0 with
          sid := (fill_table M g n s0).sid + 1
          conn := Function.update (fill_table M g n s0).conn ((fill_table M g n s0).sid + 1)
            (some c)
          conn_list := (fill_table M g n s0).conn_list ++ [c]
          conn_cnt := (fill_table M g n s0).conn_cnt + 1 } := by
      conv_lhs => rw [fill_table]
      rw [hc]
      rfl
    have hconn : (fill_table M g (n + 1) s0).conn =
        Function.update (fill_table M g n s0).conn (n + 1) (some c) := by
      rw [hfill, hsid]
    have hsid1 : (fill_table M g (n + 1) s0).sid = n + 1 := by
      rw [hfill, hsid]
    refine ⟨?_, hsid1, ?_⟩
    · rw [hfill]
      exact table_reachable.alloc _ _ g 1 true [2, 0, 0, 0, 0, 1] none none demo_tag none
        (List.replicate 24 0) (some c) hr hc
    · intro i
      rw [hconn]
      by_cases hi : i = n + 1
      · subst hi; simp
      · rw [Function.update_noteq hi, hocc i]
        omega

/-- The table that `disconnect` leaves. -/
theorem disconnect_conn (g : globals) (c : pppoe_conn_t) (s : pppoe_serv_t) :
    (disconnect g c s).2.1.conn = Function.update s.conn c.sid none := rfl

/-- The cursor is not moved by `disconnect`. -/
theorem disconnect_sid (g : globals) (c : pppoe_conn_t) (s : pppoe_serv_t) :
    (disconnect g c s).2.1.sid = s.sid := rfl

/-- A state in which only the slot of the cursor is free can be reached: fill the
table, then disconnect the session that was allocated last. -/
theorem cursor_slot_free_reachable (M : Nat) (g : globals) (s0 : pppoe_serv_t) (hM : 3 ≤ M)
    (hM2 : M ≤ 65536) (h0 : fresh_table s0) :
    ∃ s, table_reachable M s0 s ∧ 2 ≤ s.sid ∧ s.sid < M ∧ s.conn s.sid = none ∧
      ∀ i, 1 ≤ i → i < M → i ≠ s.sid → (s.conn i).isSome := by
  obtain ⟨hr, hsid, hocc⟩ := fill_table_spec M g s0 hM2 h0 (M - 1) (by omega)
  have hlast : ((fill_table M g (M - 1) s0).conn (M - 1)).isSome := (hocc (M - 1)).mpr (by omega)
  obtain ⟨c, hc⟩ := Option.isSome_iff_exists.mp hlast
  have hinv := table_inv_reachable M s0 _ (by omega) hM2 h0 hr
  have hcsid : c.sid = M - 1 := (hinv.slot _ c hc).1
  refine ⟨(disconnect g c (fill_table M g (M - 1) s0)).2.1,
    table_reachable.disc _ g (M - 1) c hr hc, ?_, ?_, ?_, ?_⟩
  · rw [disconnect_sid, hsid]; omega
  · rw [disconnect_sid, hsid]; omega
  · rw [disconnect_sid, disconnect_conn, hsid, hcsid, Function.update_same]
  · intro i hi1 hi2 hi3
    rw [disconnect_sid, hsid] at hi3
    rw [disconnect_conn, hcsid, Function.update_noteq hi3]
    exact (hocc i).mpr (by omega)

/-- A full table with the cursor at 1 can be reached: fill the table, disconnect the
session in slot 1, and allocate once more. -/
theorem cursor_one_full_reachable (M : Nat) (g : globals) (s0 : pppoe_serv_t) (hM : 2 ≤ M)
    (hM2 : M ≤ 65536) (h0 : fresh_table s0) :
    ∃ s, table_reachable M s0 s ∧ s.sid = 1 ∧ ∀ i, 1 ≤ i → i < M → (s.conn i).isSome := by
  obtain ⟨hr, hsid, hocc⟩ := fill_table_spec M g s0 hM2 h0 (M - 1) (by omega)
  have hfirst : ((fill_table M g (M - 1) s0).conn 1).isSome := (hocc 1).mpr (by omega)
  obtain ⟨c, hc⟩ := Option.isSome_iff_exists.mp hfirst
  have hinv := table_inv_reachable M s0 _ hM hM2 h0 hr
  have hcsid : c.sid = 1 := (hinv.slot _ c hc).1
  have hr2 : table_reachable M s0 (disconnect g c (fill_table M g (M - 1) s0)).2.1 :=
    table_reachable.disc _ g 1 c hr hc
  have hsid2 : (disconnect g c (fill_table M g (M - 1) s0)).2.1.sid + 1 = M := by
    rw [disconnect_sid, hsid]; omega
  have hfree : (disconnect g c (fill_table M g (M - 1) s0)).2.1.conn 1 = none := by
    rw [disconnect_conn, hcsid, Function.update_same]
  obtain ⟨c2, hc2⟩ := allocate_channel_wrap M g 0 (disconnect g c (fill_table M g (M - 1) s0)).2.1
    [2, 0, 0, 0, 0, 1] none none demo_tag none (List.replicate 24 0) hsid2 hfree
  refine ⟨_, table_reachable.alloc _ _ g 1 true [2, 0, 0, 0, 0, 1] none none demo_tag none
    (List.replicate 24 0) (some c2) hr2 hc2, rfl, ?_⟩
  intro i hi1 hi2
  by_cases hi : i = 1
  · subst hi; simp
  · simp only [Function.update_noteq hi]
    rw [disconnect_conn, hcsid, Function.update_noteq hi]
    exact (hocc i).mpr (by omega)

/-- C4 (the code in a reachable failing state). `allocate_channel` does not fail only
on a full table: from a fresh server a state is reached (fill the table, then
disconnect the session allocated last, so that the only empty slot is the one
the cursor points at) in which a slot of `1 .. MAX_SID-1` is empty and yet
`allocate_channel` leaves its loop without a slot and returns `NULL` (the branch
that logs that no free sid is available), leaving the server as it was. -/
theorem allocate_channel_skips_cursor_slot (M : Nat) (g : globals) (s0 : pppoe_serv_t)
    (addr : List Nat) (host_uniq relay_sid : Option pppoe_tag) (service_name : pppoe_tag)
    (tr101 : Option pppoe_tag) (cookie : List Nat)
    (hM : 3 ≤ M) (hM2 : M ≤ 65536) (h0 : fresh_table s0) :
    ∃ s, table_reachable M s0 s ∧ (∃ i, 1 ≤ i ∧ i < M ∧ s.conn i = none) ∧
      ∀ fuel, M ≤ fuel →
        allocate_channel M g fuel true s addr host_uniq relay_sid service_name tr101 cookie =
          some (s, none) := by
  obtain ⟨s, hr, h2, hlt, hfree, hfull⟩ := cursor_slot_free_reachable M g s0 hM hM2 h0
  exact ⟨s, hr, ⟨s.sid, by omega, hlt, hfree⟩, fun fuel hfuel =>
    allocate_channel_cursor_slot_only M g fuel s addr host_uniq relay_sid service_name tr101
      cookie h2 hlt hfull hfuel⟩

theorem allocate_channel_skips_cursor_slot_witness :
    fresh_table demo_serv ∧
    ∃ s, table_reachable 65534 demo_serv s ∧ (∃ i, 1 ≤ i ∧ i < 65534 ∧ s.conn i = none) ∧
      ∀ fuel, 65534 ≤ fuel →
        allocate_channel 65534 demo_globals fuel true s [2, 0, 0, 0, 0, 1] none none demo_tag none
          (List.replicate 24 1) = some (s, none) :=
  ⟨⟨fun _ => rfl, rfl, rfl, rfl⟩,
   allocate_channel_skips_cursor_slot 65534 demo_globals demo_serv [2, 0, 0, 0, 0, 1] none none
     demo_tag none (List.replicate 24 1) (by decide) (by decide) ⟨fun _ => rfl, rfl, rfl, rfl⟩⟩

/-- C5 (the code in a reachable failing state). SID exhaustion does not always end in
a failure report: from a fresh server a state is reached (fill the table,
disconnect the session in slot 1, allocate again) in which every slot of
`1 .. MAX_SID-1` is taken and the cursor is 1, and there the loop of
`allocate_channel` is never left: whatever the number of loop tests allowed, the
call has not returned, so no PADS is sent. (The loop variable passes from
`MAX_SID` to 1 inside the body and is incremented to 2 before the next test,
so it never equals a cursor of 1 at the test.) -/
theorem allocate_channel_full_never_returns (M : Nat) (g : globals) (s0 : pppoe_serv_t)
    (addr : List Nat) (host_uniq relay_sid : Option pppoe_tag) (service_name : pppoe_tag)
    (tr101 : Option pppoe_tag) (cookie : List Nat)
    (hM : 2 ≤ M) (hM2 : M ≤ 65536) (h0 : fresh_table s0) :
    ∃ s, table_reachable M s0 s ∧ s.sid = 1 ∧ (∀ i, 1 ≤ i → i < M → (s.conn i).isSome) ∧
      ∀ fuel,
        allocate_channel M g fuel true s addr host_uniq relay_sid service_name tr101 cookie =
          none := by
  obtain ⟨s, hr, hsid, hfull⟩ := cursor_one_full_reachable M g s0 hM hM2 h0
  exact ⟨s, hr, hsid, hfull, fun fuel =>
    allocate_channel_low_cursor_full M g fuel s addr host_uniq relay_sid service_name tr101
      cookie hM (by omega) hfull⟩

theorem allocate_channel_full_never_returns_witness :
    fresh_table demo_serv ∧
    ∃ s, table_reachable 65534 demo_serv s ∧ s.sid = 1 ∧
      (∀ i, 1 ≤ i → i < 65534 → (s.conn i).isSome) ∧
      ∀ fuel,
        allocate_channel 65534 demo_globals fuel true s [2, 0, 0, 0, 0, 1] none none demo_tag none
          (List.replicate 24 1) = none :=
  ⟨⟨fun _ => rfl, rfl, rfl, rfl⟩,
   allocate_channel_full_never_returns 65534 demo_globals demo_serv [2, 0, 0, 0, 0, 1] none none
     demo_tag none (List.replicate 24 1) (by decide) (by decide) ⟨fun _ => rfl, rfl, rfl, rfl⟩⟩

/-- C11 (the code at the failing inputs). END_OF_LIST does not stop the tag walk: the
case of the `switch` only leaves the `switch`, and the tags that follow are
handled. (1) A PADI with END_OF_LIST, an empty SERVICE_NAME, a HOST_UNIQ is
answered with a PADO that echoes the HOST_UNIQ, while the same frame cut behind
END_OF_LIST is discarded for lack of a service name. (2) A PADI with an empty
SERVICE_NAME, END_OF_LIST, a HOST_UNIQ gets a PADO with the HOST_UNIQ echoed, the
cut frame a PADO without it. (3) A PADR with an empty SERVICE_NAME, END_OF_LIST,
the AC-Cookie creates a session and is answered with a PADS, while the cut frame
is dropped for lack of a cookie. -/
theorem end_of_list_does_not_stop_walk :
    (pppoe_recv_PADI demo_globals demo_serv padi_eol_first demo_now demo_now true false).2.2 =
      [action.sent_PADO [2, 0, 0, 0, 0, 1]
        (some { tag_type := TAG_HOST_UNIQ, tag_len := 2, tag_data := [0xde, 0xad] }) none
        (some { tag_type := TAG_SERVICE_NAME, tag_len := 0, tag_data := [] })] ∧
    (pppoe_recv_PADI demo_globals demo_serv padi_eol_first_cut demo_now demo_now true false).2.2 =
      [] ∧
    (pppoe_recv_PADI demo_globals demo_serv padi_eol_mid demo_now demo_now true false).2.2 =
      [action.sent_PADO [2, 0, 0, 0, 0, 1]
        (some { tag_type := TAG_HOST_UNIQ, tag_len := 2, tag_data := [0xde, 0xad] }) none
        (some { tag_type := TAG_SERVICE_NAME, tag_len := 0, tag_data := [] })] ∧
    (pppoe_recv_PADI demo_globals demo_serv padi_eol_mid_cut demo_now demo_now true false).2.2 =
      [action.sent_PADO [2, 0, 0, 0, 0, 1] none none
        (some { tag_type := TAG_SERVICE_NAME, tag_len := 0, tag_data := [] })] ∧
    (pppoe_recv_PADR demo_crypto 65534 demo_globals demo_serv padr_eol_mid 10 true).map
      (fun r => (r.1.stat_PADS_sent, r.2.1.conn_cnt, r.2.2.length)) = some (1, 1, 2) ∧
    (pppoe_recv_PADR demo_crypto 65534 demo_globals demo_serv padr_eol_mid_cut 10 true).map
      (fun r => (r.1.stat_PADS_sent, r.2.1.conn_cnt, r.2.2.length)) = some (0, 0, 0) := by
  decide

/-! ## Read loop: lemmas -/

theorem h_dest_take (pack : List Nat) : (h_dest pack).take ETH_ALEN = h_dest pack := by
  simp [h_dest, List.take_take]

/-- What the tests of the read loop have established when a frame reaches the
`switch`. -/
theorem frame_dispatch_some (serv : pppoe_serv_t) (n : Nat) (pack : List Nat)
    (mac_filter : Bool) (code : Nat) (h : frame_dispatch serv n pack mac_filter = some code) :
    ETH_HLEN + PPPOE_HLEN ≤ n ∧ mac_filter = false ∧
    (h_dest pack = bc_addr ∨ h_dest pack = serv.hwaddr.take ETH_ALEN) ∧
    h_source pack ≠ bc_addr ∧ byte (h_source pack) 0 % 2 = 0 ∧
    ETH_HLEN + PPPOE_HLEN + hdr_length pack ≤ n ∧ hdr_ver pack = 1 ∧
    code = hdr_code pack := by
  unfold frame_dispatch at h
  split_ifs at h with h1 h2 h3 h4 h5 h6 h7
  simp only [Option.some.injEq] at h
  refine ⟨by omega, by simpa using h2, ?_, ?_, by omega, by omega, by omega, h.symm⟩
  · by_cases hb : memcmp (h_dest pack) bc_addr ETH_ALEN = 0
    · left
      have := (memcmp_eq_zero_iff _ _ _).mp hb
      rw [h_dest_take] at this
      exact this
    · right
      have hs : memcmp (h_dest pack) serv.hwaddr ETH_ALEN = 0 := by
        by_contra hne
        exact h3 ⟨hb, hne⟩
      have := (memcmp_eq_zero_iff _ _ _).mp hs
      rw [h_dest_take] at this
      exact this
  · intro heq
    apply h4
    rw [memcmp_eq_zero_iff, heq]

/-- C12 (as stated, refuted). A frame whose received length is larger than 14 + 6 +
hdr.length is not dropped: a PADI padded to 60 bytes, whose declared payload has
4 bytes, passes the tests of the read loop and is answered with a PADO. -/
theorem padded_frame_dispatched :
    padi_padded.length = 60 ∧ hdr_length padi_padded = 4 ∧
    padi_padded.length ≠ ETH_HLEN + PPPOE_HLEN + hdr_length padi_padded ∧
    frame_dispatch demo_serv padi_padded.length padi_padded false = some CODE_PADI ∧
    (pppoe_serv_read_frame demo_crypto 65534 demo_globals demo_serv padi_padded.length
      padi_padded false demo_env).map (fun r => r.2.2) =
      some [action.sent_PADO [2, 0, 0, 0, 0, 1] none none
        (some { tag_type := TAG_SERVICE_NAME, tag_len := 0, tag_data := [] })] := by
  decide

/-- C12 (amended). Frame length check: the read loop dispatches a received frame of
`n` bytes only if `n` is at least 14 + 6 + hdr.length; a frame shorter than that
is skipped without any effect, and this test lets through every frame that is
as long or longer (for instance one with trailing padding). -/
theorem frame_length_check (c : crypto) (MAX_SID : Nat) (g : globals) (serv : pppoe_serv_t)
    (n : Nat) (pack : List Nat) (mac_filter : Bool) (env : read_env) :
    (∀ code, frame_dispatch serv n pack mac_filter = some code →
      ETH_HLEN + PPPOE_HLEN + hdr_length pack ≤ n) ∧
    (n < ETH_HLEN + PPPOE_HLEN + hdr_length pack →
      frame_dispatch serv n pack mac_filter = none ∧
      pppoe_serv_read_frame c MAX_SID g serv n pack mac_filter env = some (g, serv, [])) ∧
    (ETH_HLEN + PPPOE_HLEN + hdr_length pack ≤ n →
      frame_dispatch serv n pack mac_filter =
        frame_dispatch serv (ETH_HLEN + PPPOE_HLEN + hdr_length pack) pack mac_filter) := by
  refine ⟨?_, ?_, ?_⟩
  · intro code h
    exact (frame_dispatch_some serv n pack mac_filter code h).2.2.2.2.2.1
  · intro hlt
    have hnone : frame_dispatch serv n pack mac_filter = none := by
      cases hd : frame_dispatch serv n pack mac_filter with
      | none => rfl
      | some code =>
        have := (frame_dispatch_some serv n pack mac_filter code hd).2.2.2.2.2.1
        omega
    exact ⟨hnone, by simp [pppoe_serv_read_frame, hnone]⟩
  · intro hle
    have h1 : ¬ n < ETH_HLEN + PPPOE_HLEN := by omega
    have h2 : ¬ n < ETH_HLEN + PPPOE_HLEN + hdr_length pack := by omega
    have h3 : ¬ ETH_HLEN + PPPOE_HLEN + hdr_length pack < ETH_HLEN + PPPOE_HLEN := by omega
    simp only [frame_dispatch, h1, h2, h3, lt_self_iff_false, ↓reduceIte]

theorem frame_length_check_witness :
    (padi_padded.length < ETH_HLEN + PPPOE_HLEN + hdr_length padi_padded →
      frame_dispatch demo_serv padi_padded.length padi_padded false = none ∧
      pppoe_serv_read_frame demo_crypto 65534 demo_globals demo_serv padi_padded.length
        padi_padded false demo_env = some (demo_globals, demo_serv, [])) ∧
    ETH_HLEN + PPPOE_HLEN + hdr_length padi_padded ≤ padi_padded.length ∧
    frame_dispatch demo_serv padi_padded.length padi_padded false =
      frame_dispatch demo_serv (ETH_HLEN + PPPOE_HLEN + hdr_length padi_padded) padi_padded
        false :=
  ⟨(frame_length_check demo_crypto 65534 demo_globals demo_serv padi_padded.length padi_padded
      false demo_env).2.1,
   by decide,
   (frame_length_check demo_crypto 65534 demo_globals demo_serv padi_padded.length padi_padded
      false demo_env).2.2 (by decide)⟩

/-- C13 (the code at the failing input). A frame whose `type` field is not 1 is not
dropped: the test of the field only logs that the packet is discarded and has no
`continue`. A PADI with `ver = 1`, `type = 2` and an empty SERVICE_NAME reaches
the `switch`, is handed to `pppoe_recv_PADI` and is answered with a PADO. -/
theorem type_field_not_checked :
    hdr_ver padi_type_two = 1 ∧ hdr_type padi_type_two = 2 ∧
    frame_dispatch demo_serv padi_type_two.length padi_type_two false = some CODE_PADI ∧
    (pppoe_serv_read_frame demo_crypto 65534 demo_globals demo_serv padi_type_two.length
      padi_type_two false demo_env).map (fun r => (r.1.stat_PADI_recv, r.2.2)) =
      some (1, [action.sent_PADO [2, 0, 0, 0, 0, 1] none none
        (some { tag_type := TAG_SERVICE_NAME, tag_len := 0, tag_data := [] })]) := by
  decide

/-- C14. Dispatch preconditions: a frame is handed to a handler only when it reaches
the `switch` (a skipped frame has no effect at all), and every frame that
reaches it has a received length of at least 20, was not refused by the MAC
filter, has a destination address equal to the broadcast address or to the
address of the server, a source address that is not the broadcast address and has
the multicast bit clear, a received length that covers the declared payload, and
`ver == 1`; a frame with a code other than PADI, PADR and PADT causes no reply and
no change of state. -/
theorem dispatch_preconditions (c : crypto) (MAX_SID : Nat) (g : globals) (serv : pppoe_serv_t)
    (n : Nat) (pack : List Nat) (mac_filter : Bool) (env : read_env) :
    (frame_dispatch serv n pack mac_filter = none →
      pppoe_serv_read_frame c MAX_SID g serv n pack mac_filter env = some (g, serv, [])) ∧
    (∀ code, frame_dispatch serv n pack mac_filter = some code →
      20 ≤ n ∧ mac_filter = false ∧
      (h_dest pack = bc_addr ∨ h_dest pack = serv.hwaddr.take ETH_ALEN) ∧
      h_source pack ≠ bc_addr ∧ byte (h_source pack) 0 % 2 = 0 ∧
      hdr_ver pack = 1 ∧ code = hdr_code pack ∧
      (code = CODE_PADI → pppoe_serv_read_frame c MAX_SID g serv n pack mac_filter env =
        some (pppoe_recv_PADI g serv pack env.now env.now_warn env.padi_alloc_ok
          env.connlimit)) ∧
      (code = CODE_PADR → pppoe_serv_read_frame c MAX_SID g serv n pack mac_filter env =
        pppoe_recv_PADR c MAX_SID g serv pack env.fuel env.conn_alloc_ok) ∧
      (code = CODE_PADT → pppoe_serv_read_frame c MAX_SID g serv n pack mac_filter env =
        pppoe_recv_PADT MAX_SID g serv pack) ∧
      (code ≠ CODE_PADI → code ≠ CODE_PADR → code ≠ CODE_PADT →
        pppoe_serv_read_frame c MAX_SID g serv n pack mac_filter env = some (g, serv, []))) := by
  refine ⟨?_, ?_⟩
  · intro h
    simp [pppoe_serv_read_frame, h]
  · intro code h
    obtain ⟨a1, a2, a3, a4, a5, _, a7, a8⟩ := frame_dispatch_some serv n pack mac_filter code h
    refine ⟨a1, a2, a3, a4, a5, a7, a8, ?_, ?_, ?_, ?_⟩
    · intro hc
      simp [pppoe_serv_read_frame, h, hc]
    · intro hc
      have : ¬ CODE_PADR = CODE_PADI := by decide
      simp [pppoe_serv_read_frame, h, hc, this]
    · intro hc
      have h1 : ¬ CODE_PADT = CODE_PADI := by decide
      have h2 : ¬ CODE_PADT = CODE_PADR := by decide
      simp [pppoe_serv_read_frame, h, hc, h1, h2]
    · intro h1 h2 h3
      simp [pppoe_serv_read_frame, h, h1, h2, h3]

theorem dispatch_preconditions_witness :
    frame_dispatch demo_serv padi_padded.length padi_padded false = some CODE_PADI ∧
    20 ≤ padi_padded.length ∧ h_dest padi_padded = bc_addr ∧
    h_source padi_padded ≠ bc_addr ∧ byte (h_source padi_padded) 0 % 2 = 0 ∧
    hdr_ver padi_padded = 1 ∧
    (frame_dispatch demo_serv 19 padi_padded false = none →
      pppoe_serv_read_frame demo_crypto 65534 demo_globals demo_serv 19 padi_padded false
        demo_env = some (demo_globals, demo_serv, [])) := by
  have h := (dispatch_preconditions demo_crypto 65534 demo_globals demo_serv padi_padded.length
    padi_padded false demo_env).2 CODE_PADI (by decide)
  exact ⟨by decide, h.1, by decide, h.2.2.2.1, h.2.2.2.2.1, h.2.2.2.2.2.1,
    (dispatch_preconditions demo_crypto 65534 demo_globals demo_serv 19 padi_padded false
      demo_env).1⟩

/-! ## Tag loops as folds over the visited tags -/

theorem padr_tag_loop_eq_foldl (g : globals) (pack : List Nat)
    (names : Option (List (Option (List Nat)))) (fuel : Nat) :
    ∀ n st, padr_tag_loop g pack names fuel n st =
      (tag_offsets pack fuel n).foldl (padr_tag_case g pack names) st := by
  induction fuel with
  | zero => intro n st; rfl
  | succ fuel ih =>
    intro n st
    rw [padr_tag_loop, tag_offsets]
    by_cases hn : n < hdr_length pack
    · simp only [hn, ↓reduceIte, List.foldl_cons]
      exact ih _ _
    · simp only [hn, ↓reduceIte, List.foldl_nil]

theorem padi_tag_loop_eq_foldl (g : globals) (serv : pppoe_serv_t) (pack : List Nat)
    (names : Option (List (Option (List Nat)))) (fuel : Nat) :
    ∀ n st, padi_tag_loop g serv pack names fuel n st =
      (tag_offsets pack fuel n).foldl (padi_tag_case g serv pack names) st := by
  induction fuel with
  | zero => intro n st; rfl
  | succ fuel ih =>
    intro n st
    rw [padi_tag_loop, tag_offsets]
    by_cases hn : n < hdr_length pack
    · simp only [hn, ↓reduceIte, List.foldl_cons]
      exact ih _ _
    · simp only [hn, ↓reduceIte, List.foldl_nil]

/-- The cookie pointer after one tag. -/
theorem padr_tag_case_cookie (g : globals) (pack : List Nat)
    (names : Option (List (Option (List Nat)))) (st : padr_locals) (tag : Nat) :
    (padr_tag_case g pack names st tag).ac_cookie_tag =
      if be16 pack tag = TAG_AC_COOKIE then some tag else st.ac_cookie_tag := by
  unfold padr_tag_case
  simp only [TAG_END_OF_LIST, TAG_SERVICE_NAME, TAG_HOST_UNIQ, TAG_AC_COOKIE,
    TAG_RELAY_SESSION_ID, TAG_VENDOR_SPECIFIC]
  split_ifs <;> first | rfl | omega | (split <;> first | rfl | (split_ifs <;> rfl))

/-- The cookie pointer after the loop is the last AC-Cookie tag met, or the old value
when there is none. -/
theorem padr_foldl_cookie (g : globals) (pack : List Nat)
    (names : Option (List (Option (List Nat)))) (l : List Nat) :
    ∀ st, (l.foldl (padr_tag_case g pack names) st).ac_cookie_tag =
      match (l.filter (fun t => be16 pack t = TAG_AC_COOKIE)).getLast? with
      | some t => some t
      | none => st.ac_cookie_tag := by
  induction l with
  | nil => intro st; rfl
  | cons x xs ih =>
    intro st
    rw [List.foldl_cons, ih, padr_tag_case_cookie]
    by_cases hx : be16 pack x = TAG_AC_COOKIE
    · simp only [hx, ↓reduceIte, List.filter_cons, decide_True]
      cases hl : (xs.filter (fun t => be16 pack t = TAG_AC_COOKIE)).getLast? with
      | none =>
        have : xs.filter (fun t => be16 pack t = TAG_AC_COOKIE) = [] := by
          simpa using hl
        simp [this]
      | some t =>
        have hne : xs.filter (fun t => be16 pack t = TAG_AC_COOKIE) ≠ [] := by
          intro h0; rw [h0] at hl; simp at hl
        obtain ⟨y, ys, hy⟩ := List.exists_cons_of_ne_nil hne
        rw [hy] at hl ⊢
        rw [List.getLast?_cons_cons, hl]
    · simp only [hx, ↓reduceIte, List.filter_cons, decide_False, Bool.false_eq_true]

/-- The cookie pointer of `pppoe_recv_PADR` after its tag loop. -/
theorem padr_cookie_tag (g : globals) (pack : List Nat)
    (names : Option (List (Option (List Nat)))) :
    (padr_tag_loop g pack names (hdr_length pack) 0 padr_locals_init).ac_cookie_tag =
      last_tag pack TAG_AC_COOKIE := by
  rw [padr_tag_loop_eq_foldl, padr_foldl_cookie, last_tag]
  cases ((tag_offsets pack (hdr_length pack) 0).filter
    (fun t => be16 pack t = TAG_AC_COOKIE)).getLast? <;> rfl

/-- The name list does not depend on the counters. -/
theorem effective_service_names_recv (g : globals) (serv : pppoe_serv_t) :
    effective_service_names { g with stat_PADR_recv := g.stat_PADR_recv + 1 } serv =
      effective_service_names g serv := rfl

/-- C15. PADR silent drop: a PADR is dropped with no frame sent and no change of the
server (table, cursor, `conn_cnt` and everything else), only `stat_PADR_recv`
growing by exactly 1, whenever its destination address is the broadcast address,
or its `sid` field is not zero, or it carries no AC-Cookie tag, or the length of
its (last) AC-Cookie tag is not 24, or `check_cookie` rejects the cookie for the
source address of the frame. Nothing is assumed about the SERVICE_NAME tags. -/
theorem padr_silent_drop (c : crypto) (MAX_SID : Nat) (g : globals) (serv : pppoe_serv_t)
    (pack : List Nat) (fuel : Nat) (alloc_ok : Bool)
    (h : memcmp (h_dest pack) bc_addr ETH_ALEN = 0 ∨ hdr_sid pack ≠ 0 ∨
      last_tag pack TAG_AC_COOKIE = none ∨
      ∃ ac, last_tag pack TAG_AC_COOKIE = some ac ∧
        (be16 pack (ac + 2) ≠ COOKIE_LENGTH ∨
         check_cookie c serv (h_source pack) (pack.drop (ac + TAG_HLEN)) ≠ 0)) :
    pppoe_recv_PADR c MAX_SID g serv pack fuel alloc_ok =
      some ({ g with stat_PADR_recv := g.stat_PADR_recv + 1 }, serv, []) := by
  unfold pppoe_recv_PADR
  simp only [padr_cookie_tag]
  by_cases h1 : g.ppp_shutdown ≠ 0
  · rw [if_pos h1]
  · rw [if_neg h1]
    by_cases h2 : memcmp (h_dest pack) bc_addr ETH_ALEN = 0
    · rw [if_pos h2]
    · rw [if_neg h2]
      by_cases h3 : hdr_sid pack ≠ 0
      · rw [if_pos h3]
      · rw [if_neg h3]
        rcases h with h | h | h | ⟨ac, hac, h⟩
        · exact absurd h h2
        · exact absurd h h3
        · simp only [h]
        · simp only [hac]
          rcases h with h | h
          · rw [if_pos h]
          · by_cases h4 : be16 pack (ac + 2) ≠ COOKIE_LENGTH
            · rw [if_pos h4]
            · rw [if_neg h4, if_pos h]

theorem padr_silent_drop_witness :
    (∃ ac, last_tag padr_bad_cookie TAG_AC_COOKIE = some ac ∧
      (be16 padr_bad_cookie (ac + 2) ≠ COOKIE_LENGTH ∨
       check_cookie demo_crypto demo_serv (h_source padr_bad_cookie)
         (padr_bad_cookie.drop (ac + TAG_HLEN)) ≠ 0)) ∧
    pppoe_recv_PADR demo_crypto 65534 demo_globals demo_serv padr_bad_cookie 10 true =
      some ({ demo_globals with stat_PADR_recv := demo_globals.stat_PADR_recv + 1 },
        demo_serv, []) := by
  have hbad : ∃ ac, last_tag padr_bad_cookie TAG_AC_COOKIE = some ac ∧
      (be16 padr_bad_cookie (ac + 2) ≠ COOKIE_LENGTH ∨
       check_cookie demo_crypto demo_serv (h_source padr_bad_cookie)
         (padr_bad_cookie.drop (ac + TAG_HLEN)) ≠ 0) :=
    ⟨24, by decide, Or.inr (by decide)⟩
  exact ⟨hbad, padr_silent_drop demo_crypto 65534 demo_globals demo_serv padr_bad_cookie 10 true
    (Or.inr (Or.inr (Or.inr hbad)))⟩

/-! ## Service name matching: lemmas -/

/-- The name loop finds a name exactly when one of the names before the first `NULL`
has the length of the tag and the bytes of its data. -/
theorem service_name_listed_iff (len : Nat) (data : List Nat)
    (names : List (Option (List Nat))) :
    service_name_listed len data names = true ↔
      ∃ name ∈ names_until_null names, len = name.length ∧ data.take len = name := by
  induction names with
  | nil => simp [service_name_listed, names_until_null]
  | cons x xs ih =>
    cases x with
    | none => simp [service_name_listed, names_until_null]
    | some name =>
      rw [service_name_listed, names_until_null]
      by_cases h1 : len = name.length
      · have htake : name.take len = name := by rw [h1]; exact List.take_length name
        by_cases h2 : memcmp data name len = 0
        · have h3 := (memcmp_eq_zero_iff _ _ _).mp h2
          rw [htake] at h3
          constructor
          · intro _
            exact ⟨name, List.mem_cons_self _ _, h1, h3⟩
          · intro _
            simp [h1, h1 ▸ h2]
        · have h3 : data.take len ≠ name := by
            intro heq
            apply h2
            rw [memcmp_eq_zero_iff, htake, heq]
          have hL : (if len ≠ name.length then service_name_listed len data xs
              else if memcmp data name len ≠ 0 then service_name_listed len data xs else true) =
              service_name_listed len data xs := by
            simp [h1, h1 ▸ h2]
          rw [hL, ih]
          constructor
          · rintro ⟨n2, hn2, hl, hd⟩
            exact ⟨n2, List.mem_cons_of_mem _ hn2, hl, hd⟩
          · rintro ⟨n2, hn2, hl, hd⟩
            rcases List.mem_cons.mp hn2 with heq | hn3
            · rw [heq] at hd; exact absurd hd h3
            · exact ⟨n2, hn3, hl, hd⟩
      · have hL : (if len ≠ name.length then service_name_listed len data xs
            else if memcmp data name len ≠ 0 then service_name_listed len data xs else true) =
            service_name_listed len data xs := by
          simp [h1]
        rw [hL, ih]
        constructor
        · rintro ⟨n2, hn2, hl, hd⟩
          exact ⟨n2, List.mem_cons_of_mem _ hn2, hl, hd⟩
        · rintro ⟨n2, hn2, hl, hd⟩
          rcases List.mem_cons.mp hn2 with heq | hn3
          · rw [heq] at hl; exact absurd hl h1
          · exact ⟨n2, hn3, hl, hd⟩

/-- The flag `service_match` after one tag of the PADR loop, as a boolean. -/
theorem padr_tag_case_match_bool (g : globals) (pack : List Nat)
    (names : Option (List (Option (List Nat)))) (st : padr_locals) (tag : Nat) :
    (padr_tag_case g pack names st tag).service_match =
      (st.service_match ||
        (decide (be16 pack tag = TAG_SERVICE_NAME) &&
          (decide (be16 pack (tag + 2) = 0) ||
            (match names with
             | none => true
             | some ns =>
               service_name_listed (be16 pack (tag + 2)) (pack.drop (tag + TAG_HLEN)) ns)))) := by
  simp only [padr_tag_case]
  by_cases h1 : be16 pack tag = TAG_SERVICE_NAME
  · have h0 : be16 pack tag ≠ TAG_END_OF_LIST := by rw [h1]; decide
    rw [if_neg h0, if_pos h1]
    by_cases h2 : be16 pack (tag + 2) = 0
    · simp [h1, h2]
    · rw [if_neg h2]
      cases names with
      | none => simp [h1]
      | some ns =>
        by_cases h3 : service_name_listed (be16 pack (tag + 2)) (pack.drop (tag + TAG_HLEN)) ns
            = true
        · simp [h1, h3]
        · simp [h1, h2, h3]
  · simp only [h1, decide_False, Bool.false_and, Bool.or_false, ↓reduceIte]
    split_ifs <;> rfl

/-- The tag test of the PADR loop: the tag is a SERVICE_NAME that is empty, or listed,
or there is no list. -/
theorem padr_tag_case_match (g : globals) (pack : List Nat)
    (names : Option (List (Option (List Nat)))) (st : padr_locals) (tag : Nat) :
    (padr_tag_case g pack names st tag).service_match = true ↔
      st.service_match = true ∨
      (be16 pack tag = TAG_SERVICE_NAME ∧
        (be16 pack (tag + 2) = 0 ∨
         (be16 pack (tag + 2) ≠ 0 ∧ ∃ ns, names = some ns ∧
            service_name_listed (be16 pack (tag + 2)) (pack.drop (tag + TAG_HLEN)) ns = true) ∨
         (be16 pack (tag + 2) ≠ 0 ∧ names = none))) := by
  rw [padr_tag_case_match_bool]
  by_cases h2 : be16 pack (tag + 2) = 0
  · simp [h2]
  · cases names with
    | none => simp [h2]
    | some ns => simp [h2]

theorem padr_foldl_match (g : globals) (pack : List Nat)
    (names : Option (List (Option (List Nat)))) (l : List Nat) :
    ∀ st, (l.foldl (padr_tag_case g pack names) st).service_match = true ↔
      st.service_match = true ∨
      ∃ tag ∈ l, be16 pack tag = TAG_SERVICE_NAME ∧
        (be16 pack (tag + 2) = 0 ∨
         (be16 pack (tag + 2) ≠ 0 ∧ ∃ ns, names = some ns ∧
            service_name_listed (be16 pack (tag + 2)) (pack.drop (tag + TAG_HLEN)) ns = true) ∨
         (be16 pack (tag + 2) ≠ 0 ∧ names = none)) := by
  induction l with
  | nil => intro st; simp
  | cons x xs ih =>
    intro st
    rw [List.foldl_cons, ih, padr_tag_case_match]
    constructor
    · rintro ((h | h) | ⟨t, ht, h⟩)
      · exact Or.inl h
      · exact Or.inr ⟨x, List.mem_cons_self _ _, h⟩
      · exact Or.inr ⟨t, List.mem_cons_of_mem _ ht, h⟩
    · rintro (h | ⟨t, ht, h⟩)
      · exact Or.inl (Or.inl h)
      · rcases List.mem_cons.mp ht with rfl | ht2
        · exact Or.inl (Or.inr h)
        · exact Or.inr ⟨t, ht2, h⟩

/-- The service check of `pppoe_recv_PADR` passes exactly under the condition of the
specification. -/
theorem padr_service_match_iff (g : globals) (serv : pppoe_serv_t) (pack : List Nat) :
    (padr_tag_loop g pack (effective_service_names g serv) (hdr_length pack) 0
      padr_locals_init).service_match = true ↔ padr_service_accepted g serv pack := by
  rw [padr_tag_loop_eq_foldl, padr_foldl_match, padr_service_accepted]
  simp only [padr_locals_init, Bool.false_eq_true, false_or]
  constructor
  · rintro ⟨tag, ht, hty, h⟩
    refine ⟨tag, ht, hty, ?_⟩
    rcases h with h | ⟨hne, ns, hns, hl⟩ | h
    · exact Or.inl h
    · right; left
      obtain ⟨name, hn, hlen, hd⟩ := (service_name_listed_iff _ _ _).mp hl
      exact ⟨hne, ns, hns, name, hn, hlen, by simpa [read_tag] using hd⟩
    · exact Or.inr (Or.inr h)
  · rintro ⟨tag, ht, hty, h⟩
    refine ⟨tag, ht, hty, ?_⟩
    rcases h with h | ⟨hne, ns, hns, name, hn, hlen, hd⟩ | h
    · exact Or.inl h
    · right; left
      refine ⟨hne, ns, hns, (service_name_listed_iff _ _ _).mpr ⟨name, hn, hlen, ?_⟩⟩
      simpa [read_tag] using hd
    · exact Or.inr (Or.inr h)

/-- The handler `pppoe_recv_PADR` on a frame that passes the tests before the service
check: the service name error when the check fails, the rest of the handler when
it passes. -/
theorem pppoe_recv_PADR_valid_cookie (c : crypto) (MAX_SID : Nat) (g : globals)
    (serv : pppoe_serv_t) (pack : List Nat) (fuel : Nat) (alloc_ok : Bool) (ac : Nat)
    (hrun : g.ppp_shutdown = 0) (hdst : memcmp (h_dest pack) bc_addr ETH_ALEN ≠ 0)
    (hsid : hdr_sid pack = 0) (hac : last_tag pack TAG_AC_COOKIE = some ac)
    (hlen : be16 pack (ac + 2) = COOKIE_LENGTH)
    (hck : check_cookie c serv (h_source pack) (pack.drop (ac + TAG_HLEN)) = 0) :
    pppoe_recv_PADR c MAX_SID g serv pack fuel alloc_ok =
      if (padr_tag_loop { g with stat_PADR_recv := g.stat_PADR_recv + 1 } pack
            (effective_service_names g serv) (hdr_length pack) 0
            padr_locals_init).service_match = true then
        padr_accept MAX_SID { g with stat_PADR_recv := g.stat_PADR_recv + 1 } serv pack
          (padr_tag_loop { g with stat_PADR_recv := g.stat_PADR_recv + 1 } pack
            (effective_service_names g serv) (hdr_length pack) 0 padr_locals_init)
          (pack.drop (ac + TAG_HLEN)) fuel alloc_ok
      else
        some ({ g with stat_PADR_recv := g.stat_PADR_recv + 1 }, serv,
          [action.sent_err (h_source pack)
            ((padr_tag_loop { g with stat_PADR_recv := g.stat_PADR_recv + 1 } pack
              (effective_service_names g serv) (hdr_length pack) 0
              padr_locals_init).host_uniq_tag.map (read_tag pack))
            ((padr_tag_loop { g with stat_PADR_recv := g.stat_PADR_recv + 1 } pack
              (effective_service_names g serv) (hdr_length pack) 0
              padr_locals_init).relay_sid_tag.map (read_tag pack))
            CODE_PADS TAG_SERVICE_NAME_ERROR]) := by
  have hrun2 : ¬ ({ g with stat_PADR_recv := g.stat_PADR_recv + 1 } : globals).ppp_shutdown ≠ 0 := by
    simp [hrun]
  have hsid2 : ¬ hdr_sid pack ≠ 0 := by simp [hsid]
  have hlen2 : ¬ be16 pack (ac + 2) ≠ COOKIE_LENGTH := by simp [hlen]
  have hck2 : ¬ check_cookie c serv (h_source pack) (pack.drop (ac + TAG_HLEN)) ≠ 0 := by
    simp [hck]
  unfold pppoe_recv_PADR
  simp only [effective_service_names_recv]
  rw [if_neg hrun2, if_neg hdst, if_neg hsid2]
  simp only [padr_cookie_tag, hac]
  rw [if_neg hlen2, if_neg hck2]
  cases hm : (padr_tag_loop { g with stat_PADR_recv := g.stat_PADR_recv + 1 } pack
      (effective_service_names g serv) (hdr_length pack) 0 padr_locals_init).service_match with
  | true => simp
  | false => simp [pppoe_send_err]

/-- The flag `service_match` after one tag of the PADI loop, as a boolean. -/
theorem padi_tag_case_match_bool (g : globals) (serv : pppoe_serv_t) (pack : List Nat)
    (names : Option (List (Option (List Nat)))) (st : padi_locals) (tag : Nat) :
    (padi_tag_case g serv pack names st tag).service_match =
      (st.service_match ||
        (decide (be16 pack tag = TAG_SERVICE_NAME) &&
          (match names with
           | some ns =>
             if be16 pack (tag + 2) ≠ 0 then
               service_name_listed (be16 pack (tag + 2)) (pack.drop (tag + TAG_HLEN)) ns
             else decide (serv.require_service_name = 0)
           | none => decide (serv.require_service_name = 0)))) := by
  simp only [padi_tag_case]
  by_cases h1 : be16 pack tag = TAG_SERVICE_NAME
  · have h0 : be16 pack tag ≠ TAG_END_OF_LIST := by rw [h1]; decide
    rw [if_neg h0, if_pos h1]
    cases names with
    | none =>
      by_cases h4 : serv.require_service_name = 0
      · simp [h1, h4]
      · simp [h1, h4]
    | some ns =>
      by_cases h2 : be16 pack (tag + 2) ≠ 0
      · by_cases h3 : service_name_listed (be16 pack (tag + 2)) (pack.drop (tag + TAG_HLEN)) ns
            = true
        · simp [h1, h2, h3]
        · simp [h1, h2, h3]
      · by_cases h4 : serv.require_service_name = 0
        · simp [h1, h2, h4]
        · simp [h1, h2, h4]
  · simp only [h1, decide_False, Bool.false_and, Bool.or_false, ↓reduceIte]
    split_ifs <;> rfl

/-- When every SERVICE_NAME tag met is empty, the PADI loop sets `service_match`
exactly when it meets one and the server does not require a name, whatever the
configured names. -/
theorem padi_foldl_match_empty (g : globals) (serv : pppoe_serv_t) (pack : List Nat)
    (names : Option (List (Option (List Nat)))) (l : List Nat)
    (hempty : ∀ tag ∈ l, be16 pack tag = TAG_SERVICE_NAME → be16 pack (tag + 2) = 0) :
    ∀ st, (l.foldl (padi_tag_case g serv pack names) st).service_match =
      (st.service_match ||
        (l.any (fun tag => decide (be16 pack tag = TAG_SERVICE_NAME)) &&
          decide (serv.require_service_name = 0))) := by
  induction l with
  | nil => intro st; simp
  | cons x xs ih =>
    intro st
    rw [List.foldl_cons, ih (fun t ht => hempty t (List.mem_cons_of_mem _ ht)),
      padi_tag_case_match_bool]
    by_cases h1 : be16 pack x = TAG_SERVICE_NAME
    · have h2 := hempty x (List.mem_cons_self _ _) h1
      cases names with
      | none =>
        cases st.service_match <;> cases decide (serv.require_service_name = 0) <;> simp [h1]
      | some ns =>
        cases st.service_match <;> cases decide (serv.require_service_name = 0) <;>
          simp [h1, h2]
    · simp [h1]

/-- The admission check leaves the service-name configuration alone. -/
theorem check_padi_limit_frame_names (g : globals) (serv : pppoe_serv_t) (addr : List Nat)
    (now : timespec) (alloc_ok connlimit : Bool) :
    (check_padi_limit g serv addr now alloc_ok connlimit).2.2.require_service_name =
      serv.require_service_name ∧
    (check_padi_limit g serv addr now alloc_ok connlimit).2.2.service_names =
      serv.service_names ∧
    (check_padi_limit g serv addr now alloc_ok connlimit).2.1.conf_service_names =
      g.conf_service_names ∧
    (check_padi_limit g serv addr now alloc_ok connlimit).2.1.conf_reply_exact_service =
      g.conf_reply_exact_service ∧
    (check_padi_limit g serv addr now alloc_ok connlimit).2.2.hwaddr = serv.hwaddr ∧
    (check_padi_limit g serv addr now alloc_ok connlimit).2.2.secret = serv.secret ∧
    (check_padi_limit g serv addr now alloc_ok connlimit).2.1.conf_ac_name = g.conf_ac_name := by
  simp only [check_padi_limit]
  split_ifs <;> exact ⟨rfl, rfl, rfl, rfl, rfl, rfl, rfl⟩

/-- The four ways an admitted PADI with `sid == 0` ends, by the flag
`service_match` the tag loop leaves and by `pado_delay`. -/
theorem pppoe_recv_PADI_admitted_cases (g : globals) (serv : pppoe_serv_t) (pack : List Nat)
    (now now_warn : timespec) (alloc_ok connlimit : Bool)
    (hrun : g.ppp_shutdown = 0) (hdelay : g.pado_delay ≠ -1)
    (g1 : globals) (serv1 : pppoe_serv_t)
    (hadm : check_padi_limit { g with stat_PADI_recv := g.stat_PADI_recv + 1 } serv
      (h_source pack) now alloc_ok connlimit = (0, g1, serv1))
    (hsid : hdr_sid pack = 0) (st : padi_locals)
    (hst : padi_tag_loop g1 serv1 pack (effective_service_names g1 serv1) (hdr_length pack) 0
      { host_uniq_tag := none, relay_sid_tag := none, service_name_tag := none,
        service_match := false } = st) :
    (st.service_match = false →
      pppoe_recv_PADI g serv pack now now_warn alloc_ok connlimit = (g1, serv1, [])) ∧
    (st.service_match = true → g.pado_delay = 0 →
      pppoe_recv_PADI g serv pack now now_warn alloc_ok connlimit =
        ({ g1 with stat_PADO_sent := g1.stat_PADO_sent + 1 }, serv1,
          [action.sent_PADO (h_source pack) (st.host_uniq_tag.map (read_tag pack))
            (st.relay_sid_tag.map (read_tag pack)) (st.service_name_tag.map (read_tag pack))])) ∧
    (st.service_match = true → g.pado_delay ≠ 0 →
      serv1.pado_list.any (fun p => memcmp p.addr (h_source pack) ETH_ALEN = 0) = true →
      pppoe_recv_PADI g serv pack now now_warn alloc_ok connlimit = (g1, serv1, [])) ∧
    (st.service_match = true → g.pado_delay ≠ 0 →
      serv1.pado_list.any (fun p => memcmp p.addr (h_source pack) ETH_ALEN = 0) = false →
      pppoe_recv_PADI g serv pack now now_warn alloc_ok connlimit =
        ({ g1 with stat_delayed_pado := g1.stat_delayed_pado + 1 },
         { serv1 with pado_list := serv1.pado_list ++
            [{ addr := h_source pack
               host_uniq := st.host_uniq_tag.map (read_tag pack)
               relay_sid := st.relay_sid_tag.map (read_tag pack)
               service_name := st.service_name_tag.map (read_tag pack)
               period := g1.pado_delay }] },
         [action.timer_add
            { addr := h_source pack
              host_uniq := st.host_uniq_tag.map (read_tag pack)
              relay_sid := st.relay_sid_tag.map (read_tag pack)
              service_name := st.service_name_tag.map (read_tag pack)
              period := g1.pado_delay }])) := by
  have hf := check_padi_limit_frame
    { g with stat_PADI_recv := g.stat_PADI_recv + 1 } serv (h_source pack) now alloc_ok connlimit
  rw [hadm] at hf
  obtain ⟨_, _, _, _, f5, _, _⟩ := hf
  simp only at f5
  have hsh : ¬ (({ g with stat_PADI_recv := g.stat_PADI_recv + 1 } : globals).ppp_shutdown ≠ 0 ∨
      ({ g with stat_PADI_recv := g.stat_PADI_recv + 1 } : globals).pado_delay = -1) := by
    intro h
    rcases h with h | h
    · exact h hrun
    · exact hdelay h
  have hz : ¬ ((0 : Int) ≠ 0) := by simp
  have hs : ¬ (hdr_sid pack ≠ 0) := by simp [hsid]
  have key : pppoe_recv_PADI g serv pack now now_warn alloc_ok connlimit =
      (if !st.service_match then (g1, serv1, [])
      else if g1.pado_delay ≠ 0 then
        if serv1.pado_list.any (fun p => memcmp p.addr (h_source pack) ETH_ALEN = 0) then
          (g1, serv1, [])
        else
          ({ g1 with stat_delayed_pado := g1.stat_delayed_pado + 1 },
           { serv1 with pado_list := serv1.pado_list ++
              [{ addr := h_source pack
                 host_uniq := st.host_uniq_tag.map (read_tag pack)
                 relay_sid := st.relay_sid_tag.map (read_tag pack)
                 service_name := st.service_name_tag.map (read_tag pack)
                 period := g1.pado_delay }] },
           [action.timer_add
              { addr := h_source pack
                host_uniq := st.host_uniq_tag.map (read_tag pack)
                relay_sid := st.relay_sid_tag.map (read_tag pack)
                service_name := st.service_name_tag.map (read_tag pack)
                period := g1.pado_delay }])
      else
        ({ g1 with stat_PADO_sent := g1.stat_PADO_sent + 1 }, serv1,
          [action.sent_PADO (h_source pack) (st.host_uniq_tag.map (read_tag pack))
            (st.relay_sid_tag.map (read_tag pack))
            (st.service_name_tag.map (read_tag pack))])) := by
    unfold pppoe_recv_PADI
    simp only []
    rw [if_neg hsh, hadm]
    simp only []
    rw [if_neg hz, if_neg hs, hst]
    rfl
  rw [key]
  refine ⟨?_, ?_, ?_, ?_⟩
  · intro h
    simp [h]
  · intro h hd
    have hd1 : g1.pado_delay = 0 := by rw [f5]; exact hd
    simp [h, hd1]
  · intro h hd ha
    have hd1 : g1.pado_delay ≠ 0 := by rw [f5]; exact hd
    simp only [h, Bool.not_true, Bool.false_eq_true, ↓reduceIte, hd1, ne_eq, not_false_eq_true,
      ha]
  · intro h hd ha
    have hd1 : g1.pado_delay ≠ 0 := by rw [f5]; exact hd
    simp only [h, Bool.not_true, Bool.false_eq_true, ↓reduceIte, hd1, ne_eq, not_false_eq_true,
      ha]

/-- C17. PADI empty service name: for an admitted PADI with `sid == 0` that carries
a SERVICE_NAME tag and whose SERVICE_NAME tags are all empty, the service check
passes if and only if `require_service_name` is zero on the server, whatever
list of names the handler matches against. When it passes, a PADO is sent at
once (`pado_delay == 0`) or a delayed PADO for the source address is in the
queue afterwards (`pado_delay != 0`); when it fails the handler returns with
nothing sent and nothing queued. -/
theorem padi_empty_service_name (g : globals) (serv : pppoe_serv_t) (pack : List Nat)
    (now now_warn : timespec) (alloc_ok connlimit : Bool)
    (hrun : g.ppp_shutdown = 0) (hdelay : g.pado_delay ≠ -1)
    (g1 : globals) (serv1 : pppoe_serv_t)
    (hadm : check_padi_limit { g with stat_PADI_recv := g.stat_PADI_recv + 1 } serv
      (h_source pack) now alloc_ok connlimit = (0, g1, serv1))
    (hsid : hdr_sid pack = 0)
    (hsn : ∃ tag ∈ tag_offsets pack (hdr_length pack) 0, be16 pack tag = TAG_SERVICE_NAME)
    (hempty : ∀ tag ∈ tag_offsets pack (hdr_length pack) 0,
      be16 pack tag = TAG_SERVICE_NAME → be16 pack (tag + 2) = 0) :
    (∀ names, (padi_tag_loop g1 serv1 pack names (hdr_length pack) 0
        { host_uniq_tag := none, relay_sid_tag := none, service_name_tag := none,
          service_match := false }).service_match = true ↔ serv.require_service_name = 0) ∧
    (serv.require_service_name = 0 → g.pado_delay = 0 →
      ∃ host_uniq relay_sid service_name,
        pppoe_recv_PADI g serv pack now now_warn alloc_ok connlimit =
          ({ g1 with stat_PADO_sent := g1.stat_PADO_sent + 1 }, serv1,
            [action.sent_PADO (h_source pack) host_uniq relay_sid service_name])) ∧
    (serv.require_service_name = 0 → g.pado_delay ≠ 0 →
      (∃ p ∈ (pppoe_recv_PADI g serv pack now now_warn alloc_ok connlimit).2.1.pado_list,
        memcmp p.addr (h_source pack) ETH_ALEN = 0) ∧
      ((pppoe_recv_PADI g serv pack now now_warn alloc_ok connlimit).2.2 = [] ∨
       ∃ pado, pado.addr = h_source pack ∧
        (pppoe_recv_PADI g serv pack now now_warn alloc_ok connlimit).2.2 =
          [action.timer_add pado])) ∧
    (serv.require_service_name ≠ 0 →
      pppoe_recv_PADI g serv pack now now_warn alloc_ok connlimit = (g1, serv1, []) ∧
      serv1.pado_list = serv.pado_list ∧ g1.stat_PADO_sent = g.stat_PADO_sent ∧
      g1.stat_delayed_pado = g.stat_delayed_pado) := by
  have hf := check_padi_limit_frame
    { g with stat_PADI_recv := g.stat_PADI_recv + 1 } serv (h_source pack) now alloc_ok connlimit
  have hn := check_padi_limit_frame_names
    { g with stat_PADI_recv := g.stat_PADI_recv + 1 } serv (h_source pack) now alloc_ok connlimit
  rw [hadm] at hf hn
  obtain ⟨_, f2, f3, _, _, _, f7⟩ := hf
  obtain ⟨n1, _, _, _, _, _, _⟩ := hn
  simp only at f2 f3 f7 n1
  have hany : (tag_offsets pack (hdr_length pack) 0).any
      (fun tag => decide (be16 pack tag = TAG_SERVICE_NAME)) = true := by
    obtain ⟨tag, hmem, ht⟩ := hsn
    exact List.any_eq_true.mpr ⟨tag, hmem, by simp [ht]⟩
  have hmatch : ∀ names, (padi_tag_loop g1 serv1 pack names (hdr_length pack) 0
      { host_uniq_tag := none, relay_sid_tag := none, service_name_tag := none,
        service_match := false }).service_match = true ↔ serv.require_service_name = 0 := by
    intro names
    rw [padi_tag_loop_eq_foldl, padi_foldl_match_empty g1 serv1 pack names _ hempty, hany, n1]
    simp
  have hc := pppoe_recv_PADI_admitted_cases g serv pack now now_warn alloc_ok connlimit hrun
    hdelay g1 serv1 hadm hsid _ rfl
  obtain ⟨c1, c2, c3, c4⟩ := hc
  refine ⟨hmatch, ?_, ?_, ?_⟩
  · intro hreq hd
    exact ⟨_, _, _, c2 ((hmatch _).mpr hreq) hd⟩
  · intro hreq hd
    have hm := (hmatch (effective_service_names g1 serv1)).mpr hreq
    cases ha : serv1.pado_list.any (fun p => memcmp p.addr (h_source pack) ETH_ALEN = 0) with
    | true =>
      rw [c3 hm hd ha]
      obtain ⟨p, hp, hpa⟩ := List.any_eq_true.mp ha
      exact ⟨⟨p, hp, by simpa using hpa⟩, Or.inl rfl⟩
    | false =>
      rw [c4 hm hd ha]
      refine ⟨⟨_, List.mem_append_right _ (List.mem_singleton_self _), ?_⟩,
        Or.inr ⟨_, rfl, rfl⟩⟩
      rw [memcmp_eq_zero_iff]
  · intro hreq
    have hm : (padi_tag_loop g1 serv1 pack (effective_service_names g1 serv1) (hdr_length pack) 0
        { host_uniq_tag := none, relay_sid_tag := none, service_name_tag := none,
          service_match := false }).service_match = false := by
      cases h : (padi_tag_loop g1 serv1 pack (effective_service_names g1 serv1)
          (hdr_length pack) 0
          { host_uniq_tag := none, relay_sid_tag := none, service_name_tag := none,
            service_match := false }).service_match with
      | false => rfl
      | true => exact absurd ((hmatch _).mp h) hreq
    exact ⟨c1 hm, f7, f2, f3⟩

theorem padi_empty_service_name_witness :
    (demo_globals_isp.ppp_shutdown = 0 ∧ demo_globals_isp.pado_delay ≠ -1 ∧
      hdr_sid padi_empty_name = 0 ∧ demo_serv_require.require_service_name ≠ 0) ∧
    pppoe_recv_PADI demo_globals_isp demo_serv_require padi_empty_name demo_now demo_now true
        false =
      ({ demo_globals_isp with stat_PADI_recv := 1 }, demo_serv_require, []) :=
  ⟨⟨rfl, by decide, by decide, by decide⟩,
   ((padi_empty_service_name demo_globals_isp demo_serv_require padi_empty_name demo_now demo_now
      true false rfl (by decide) { demo_globals_isp with stat_PADI_recv := 1 } demo_serv_require
      rfl (by decide) (by decide) (by decide)).2.2.2 (by decide)).1⟩

/-! ## Frame encoder: lemmas -/

theorem byte_drop (buf : List Nat) (i j : Nat) : byte buf (i + j) = byte (buf.drop i) j := by
  simp [byte, List.getD_eq_getElem?_getD, List.getElem?_drop]

theorem be16_drop (buf : List Nat) (i j : Nat) : be16 buf (i + j) = be16 (buf.drop i) j := by
  unfold be16
  rw [byte_drop buf i j, Nat.add_assoc, byte_drop buf i (j + 1)]

theorem be16_at (buf : List Nat) (i : Nat) : be16 buf i = be16 (buf.drop i) 0 := by
  have := be16_drop buf i 0
  simpa using this

/-- Reading back a 16-bit field that `htons` stored. -/
theorem be16_u16_bytes (v : Nat) (l : List Nat) : be16 (u16_bytes v ++ l) 0 = v % 65536 := by
  simp only [be16, byte, u16_bytes, List.cons_append, List.nil_append, List.getD_cons_zero,
    zero_add, List.getD_cons_succ]
  omega

theorem u16_bytes_length (v : Nat) : (u16_bytes v).length = 2 := rfl

/-- A copy to the end of a prefix of the buffer. -/
theorem memcpy_at_append (A R s : List Nat) (off : Nat) (h : off = A.length) :
    memcpy_at (A ++ R) off s = A ++ s ++ R.drop s.length := by
  subst h
  simp [memcpy_at, List.take_left', List.drop_append]

theorem built_hdr_length (pack H P : List Nat) (h : built pack H P) :
    hdr_length pack = P.length := by
  obtain ⟨hH, hP, rest, rfl⟩ := h
  have h18 : ETH_HLEN + 4 = H.length := by rw [hH]; rfl
  rw [hdr_length, be16_at, h18]
  simp only [List.append_assoc, List.drop_left, be16_u16_bytes]
  omega

/-- Function `add_tag` on a buffer built so far: the tag is appended to the payload. -/
theorem built_add_tag (pack H P : List Nat) (type : Nat) (data : List Nat) (len : Nat)
    (h : built pack H P) (hfit : P.length + TAG_HLEN + len < 65536) (hlen : len ≤ data.length) :
    built (add_tag pack type data len) H
      (P ++ tag_bytes { tag_type := type, tag_len := len, tag_data := data }) := by
  have hl := built_hdr_length pack H P h
  obtain ⟨hH, hP, rest, rfl⟩ := h
  have htl : (data.take len).length = len := by simp [hlen]
  have hplen : (P ++ tag_bytes { tag_type := type, tag_len := len, tag_data := data }).length =
      P.length + TAG_HLEN + len := by
    simp [tag_bytes, u16_bytes_length, htl, TAG_HLEN]; omega
  refine ⟨hH, by rw [hplen]; exact hfit, ?_⟩
  refine ⟨((rest.drop 2).drop 2).drop (data.take len).length, ?_⟩
  unfold add_tag
  simp only [hl]
  rw [memcpy_at_append (H ++ u16_bytes P.length ++ P) rest (u16_bytes type) _
    (by simp [hH, u16_bytes_length, ETH_HLEN, PPPOE_HLEN]; omega)]
  rw [memcpy_at_append (H ++ u16_bytes P.length ++ P ++ u16_bytes type) _ (u16_bytes len) _
    (by simp [hH, u16_bytes_length, ETH_HLEN, PPPOE_HLEN]; omega)]
  rw [memcpy_at_append (H ++ u16_bytes P.length ++ P ++ u16_bytes type ++ u16_bytes len) _
    (data.take len) _
    (by simp [hH, u16_bytes_length, ETH_HLEN, PPPOE_HLEN, TAG_HLEN]; omega)]
  have hsplit : H ++ u16_bytes P.length ++ P ++ u16_bytes type ++ u16_bytes len ++
      List.take len data ++
      List.drop (List.take len data).length (List.drop (u16_bytes len).length
        (List.drop (u16_bytes type).length rest)) =
      H ++ (u16_bytes P.length ++ (P ++ u16_bytes type ++ u16_bytes len ++
      List.take len data ++
      List.drop (List.take len data).length (List.drop (u16_bytes len).length
        (List.drop (u16_bytes type).length rest)))) := by
    simp only [List.append_assoc]
  rw [hsplit, memcpy_at_append H _ _ _ (by rw [hH]; rfl), hplen]
  simp only [u16_bytes_length, List.drop_left', tag_bytes, List.append_assoc]

/-- Function `add_tag2` on a buffer built so far: the tag is appended to the payload. -/
theorem built_add_tag2 (pack H P : List Nat) (t : pppoe_tag)
    (h : built pack H P) (hfit : P.length + TAG_HLEN + t.tag_len < 65536)
    (hlen : t.tag_len ≤ t.tag_data.length) :
    built (add_tag2 pack t) H (P ++ tag_bytes t) := by
  have hl := built_hdr_length pack H P h
  obtain ⟨hH, hP, rest, rfl⟩ := h
  have htl : (t.tag_data.take t.tag_len).length = t.tag_len := by simp [hlen]
  have hplen : (P ++ tag_bytes t).length = P.length + TAG_HLEN + t.tag_len := by
    simp [tag_bytes, u16_bytes_length, htl, TAG_HLEN]; omega
  refine ⟨hH, by rw [hplen]; exact hfit, ?_⟩
  refine ⟨rest.drop (tag_bytes t).length, ?_⟩
  unfold add_tag2
  simp only [hl]
  rw [memcpy_at_append (H ++ u16_bytes P.length ++ P) rest (tag_bytes t) _
    (by simp [hH, u16_bytes_length, ETH_HLEN, PPPOE_HLEN]; omega)]
  have hsplit : H ++ u16_bytes P.length ++ P ++ tag_bytes t ++
      List.drop (tag_bytes t).length rest =
      H ++ (u16_bytes P.length ++ (P ++ tag_bytes t ++
        List.drop (tag_bytes t).length rest)) := by
    simp only [List.append_assoc]
  rw [hsplit, memcpy_at_append H _ _ _ (by rw [hH]; rfl), hplen]
  simp only [u16_bytes_length, List.drop_left', List.append_assoc]

/-- Function `pppoe_send` writes the header, the length field and the payload. -/
theorem built_send (pack H P : List Nat) (h : built pack H P) :
    pppoe_send pack = H ++ u16_bytes P.length ++ P := by
  have hl := built_hdr_length pack H P h
  obtain ⟨hH, hP, rest, rfl⟩ := h
  unfold pppoe_send
  rw [hl]
  apply List.take_left'
  simp [hH, u16_bytes_length, ETH_HLEN, PPPOE_HLEN]
  omega

/-- Function `setup_header` on a buffer of at least twenty bytes. -/
theorem setup_header_cons (rest : List Nat) (s0 s1 s2 s3 s4 s5 : Nat) (st : List Nat)
    (d0 d1 d2 d3 d4 d5 : Nat) (dt : List Nat) (code sid : Nat) :
    setup_header (List.replicate 20 0 ++ rest) (s0 :: s1 :: s2 :: s3 :: s4 :: s5 :: st)
      (d0 :: d1 :: d2 :: d3 :: d4 :: d5 :: dt) code sid =
    [d0, d1, d2, d3, d4, d5, s0, s1, s2, s3, s4, s5, 0x88, 0x63, 0x11, code % 256] ++
      u16_bytes sid ++ u16_bytes 0 ++ rest := by
  simp [setup_header, memcpy_at, u16_bytes, List.replicate, ETH_ALEN, ETH_HLEN, ETH_P_PPP_DISC]

theorem empty_pack_split : empty_pack = List.replicate 20 0 ++ List.replicate 1498 0 := by
  rw [empty_pack, ETHER_MAX_LEN, List.append_replicate_replicate]

/-- Function `setup_header` on the fresh buffer of a send routine. -/
theorem built_setup_header (src dst : List Nat) (code sid : Nat)
    (hsrc : ETH_ALEN ≤ src.length) (hdst : ETH_ALEN ≤ dst.length) :
    built (setup_header empty_pack src dst code sid)
      (dst.take ETH_ALEN ++ src.take ETH_ALEN ++ [0x88, 0x63, 0x11, code % 256] ++ u16_bytes sid)
      [] := by
  match src, hsrc, dst, hdst with
  | s0 :: s1 :: s2 :: s3 :: s4 :: s5 :: st, _, d0 :: d1 :: d2 :: d3 :: d4 :: d5 :: dt, _ =>
    refine ⟨rfl, by decide, List.replicate 1498 0, ?_⟩
    rw [empty_pack_split, setup_header_cons]
    rfl

theorem tag_bytes_length (t : pppoe_tag) (h : tag_wf t) :
    (tag_bytes t).length = TAG_HLEN + t.tag_len := by
  obtain ⟨_, _, h3⟩ := h
  simp [tag_bytes, u16_bytes_length, TAG_HLEN, h3]
  omega

/-- Reading a tag where its bytes were stored gives the tag back. -/
theorem read_tag_of_drop (F : List Nat) (off : Nat) (t : pppoe_tag) (X : List Nat)
    (hwf : tag_wf t) (hd : F.drop off = tag_bytes t ++ X) :
    read_tag F off = t ∧ be16 F (off + 2) = t.tag_len := by
  obtain ⟨h1, h2, h3⟩ := hwf
  have ht : be16 F off = t.tag_type := by
    rw [be16_at, hd, tag_bytes, List.append_assoc, List.append_assoc, be16_u16_bytes]
    omega
  have hd2 : F.drop (off + 2) = u16_bytes t.tag_len ++ (t.tag_data.take t.tag_len ++ X) := by
    rw [← List.drop_drop, hd, tag_bytes, List.append_assoc, List.append_assoc,
      List.drop_left' (u16_bytes_length _)]
  have hl : be16 F (off + 2) = t.tag_len := by
    rw [be16_at, hd2, be16_u16_bytes]
    omega
  have hd4 : F.drop (off + TAG_HLEN) = t.tag_data.take t.tag_len ++ X := by
    have : off + TAG_HLEN = off + 2 + 2 := rfl
    rw [this, ← List.drop_drop, hd2, List.drop_left' (u16_bytes_length _)]
  refine ⟨?_, hl⟩
  unfold read_tag
  rw [ht, hl, hd4]
  have hdata : (t.tag_data.take t.tag_len ++ X).take t.tag_len = t.tag_data := by
    rw [List.take_left' (by simp [h3])]
    rw [← h3, List.take_length]
  rw [hdata]

/-- The tag walk of the receive side over a payload made of the bytes of well-formed
tags visits exactly these tags. -/
theorem tag_offsets_walk (F : List Nat) (rest : List Nat) :
    ∀ (ts : List pppoe_tag) (pre : List Nat) (fuel : Nat),
      (∀ t ∈ ts, tag_wf t) →
      F.drop (ETH_HLEN + PPPOE_HLEN) = pre ++ (tags_bytes ts ++ rest) →
      hdr_length F = pre.length + (tags_bytes ts).length →
      ts.length ≤ fuel →
      (tag_offsets F fuel pre.length).map (read_tag F) = ts := by
  intro ts
  induction ts with
  | nil =>
    intro pre fuel _ _ hl _
    cases fuel with
    | zero => rfl
    | succ f =>
      have : ¬ pre.length < hdr_length F := by rw [hl]; simp [tags_bytes]
      simp [tag_offsets, this]
  | cons t ts ih =>
    intro pre fuel hwf hd hl hfuel
    have hwt := hwf t (List.mem_cons_self _ _)
    have htl := tag_bytes_length t hwt
    cases fuel with
    | zero => simp at hfuel
    | succ f =>
      have hlt : pre.length < hdr_length F := by
        rw [hl]; simp only [tags_bytes, List.length_append, htl, TAG_HLEN]; omega
      have hdrop : F.drop (ETH_HLEN + PPPOE_HLEN + pre.length) =
          tag_bytes t ++ (tags_bytes ts ++ rest) := by
        rw [← List.drop_drop, hd, List.drop_left]
        simp [tags_bytes]
      obtain ⟨hr, hlen⟩ := read_tag_of_drop F _ t _ hwt hdrop
      rw [tag_offsets, if_pos hlt]
      simp only [List.map_cons, hr, hlen]
      congr 1
      have hpre : pre.length + TAG_HLEN + t.tag_len = (pre ++ tag_bytes t).length := by
        rw [List.length_append, htl]; omega
      rw [hpre]
      apply ih (pre ++ tag_bytes t) f (fun u hu => hwf u (List.mem_cons_of_mem _ hu))
      · rw [hd]; simp [tags_bytes]
      · rw [hl]; simp [tags_bytes]; omega
      · simpa using hfuel

theorem tags_bytes_length_ge : ∀ ts : List pppoe_tag, (∀ t ∈ ts, tag_wf t) →
    ts.length ≤ (tags_bytes ts).length
  | [], _ => by simp [tags_bytes]
  | t :: ts, h => by
    have h1 := tag_bytes_length t (h t (List.mem_cons_self _ _))
    have h2 := tags_bytes_length_ge ts (fun u hu => h u (List.mem_cons_of_mem _ hu))
    simp only [tags_bytes, List.length_append, List.length_cons, h1, TAG_HLEN]
    omega

/-- The tags of a frame that a send routine wrote, as the receiving side reads
them. -/
theorem frame_tags_built (H : List Nat) (ts : List pppoe_tag) (hH : H.length = 18)
    (hwf : ∀ t ∈ ts, tag_wf t) (hfit : (tags_bytes ts).length < 65536) :
    frame_tags (H ++ u16_bytes (tags_bytes ts).length ++ tags_bytes ts) = ts := by
  have hb : built (H ++ u16_bytes (tags_bytes ts).length ++ tags_bytes ts) H (tags_bytes ts) :=
    ⟨hH, hfit, [], by simp⟩
  have hl := built_hdr_length _ _ _ hb
  unfold frame_tags
  have := tag_offsets_walk (H ++ u16_bytes (tags_bytes ts).length ++ tags_bytes ts) [] ts []
    (hdr_length (H ++ u16_bytes (tags_bytes ts).length ++ tags_bytes ts)) hwf
    (by
      have h20 : (H ++ u16_bytes (tags_bytes ts).length).length = ETH_HLEN + PPPOE_HLEN := by
        simp [hH, u16_bytes_length, ETH_HLEN, PPPOE_HLEN]
      rw [List.drop_left' h20]
      simp)
    (by rw [hl]; simp)
    (by rw [hl]; exact tags_bytes_length_ge ts hwf)
  simpa using this

theorem tags_bytes_append (x y : List pppoe_tag) :
    tags_bytes (x ++ y) = tags_bytes x ++ tags_bytes y := by
  induction x with
  | nil => rfl
  | cons t x ih => simp [tags_bytes, ih]

theorem tags_bytes_singleton (t : pppoe_tag) : tags_bytes [t] = tag_bytes t := by
  simp [tags_bytes]

theorem tag_of_bytes (type : Nat) (data : List Nat) :
    tag_bytes { tag_type := type, tag_len := data.length, tag_data := data } =
      tag_bytes (tag_of type data) := rfl

/-- The optional `add_tag2` of the send routines on a buffer built so far. -/
theorem built_add_opt (pack H : List Nat) (ts : List pppoe_tag) (o : Option pppoe_tag)
    (h : built pack H (tags_bytes ts))
    (hwf : ∀ t, o = some t → tag_wf t)
    (hfit : (tags_bytes (ts ++ o.toList)).length < 65536) :
    built (add_tag2_opt pack o) H (tags_bytes (ts ++ o.toList)) := by
  cases o with
  | none => simpa [add_tag2_opt] using h
  | some t =>
    have hw := hwf t rfl
    have hl := tag_bytes_length t hw
    simp only [Option.toList, tags_bytes_append, tags_bytes_singleton, add_tag2_opt] at hfit ⊢
    apply built_add_tag2 pack H _ t h
    · rw [List.length_append, hl] at hfit
      omega
    · rw [hw.2.2]

/-- The call `add_tag(pack, type, data, strlen(data))` on a buffer built so far. -/
theorem built_add_tag_of (pack H : List Nat) (ts : List pppoe_tag) (type : Nat)
    (data : List Nat) (h : built pack H (tags_bytes ts))
    (hfit : (tags_bytes (ts ++ [tag_of type data])).length < 65536) :
    built (add_tag pack type data data.length) H (tags_bytes (ts ++ [tag_of type data])) := by
  simp only [tags_bytes_append, tags_bytes_singleton] at hfit ⊢
  have hlen : (tag_bytes (tag_of type data)).length = TAG_HLEN + data.length := by
    simp [tag_bytes, tag_of, u16_bytes_length, TAG_HLEN]; omega
  rw [← tag_of_bytes]
  apply built_add_tag pack H _ type data data.length h
  · rw [List.length_append, hlen] at hfit
    omega
  · exact le_rfl

/-- The call `add_tag2(pack, t)` on a buffer built so far. -/
theorem built_add_tag2_of (pack H : List Nat) (ts : List pppoe_tag) (t : pppoe_tag)
    (h : built pack H (tags_bytes ts)) (hw : tag_wf t)
    (hfit : (tags_bytes (ts ++ [t])).length < 65536) :
    built (add_tag2 pack t) H (tags_bytes (ts ++ [t])) := by
  have := built_add_opt pack H ts (some t) h (by intro u hu; cases hu; exact hw) hfit
  simpa [add_tag2_opt] using this

theorem add_tag2_opt_eq (pack : List Nat) (o : Option pppoe_tag) :
    (match o with
      | some t => add_tag2 pack t
      | none => pack) = add_tag2_opt pack o := by
  cases o <;> rfl

/-- The header fields of a frame that begins with the bytes `setup_header` wrote. -/
theorem frame_header_fields (src dst : List Nat) (code sid : Nat) (X : List Nat)
    (hsrc : ETH_ALEN ≤ src.length) (hdst : ETH_ALEN ≤ dst.length) :
    h_dest (dst.take ETH_ALEN ++ src.take ETH_ALEN ++ [0x88, 0x63, 0x11, code % 256] ++
      u16_bytes sid ++ X) = dst.take ETH_ALEN ∧
    h_source (dst.take ETH_ALEN ++ src.take ETH_ALEN ++ [0x88, 0x63, 0x11, code % 256] ++
      u16_bytes sid ++ X) = src.take ETH_ALEN ∧
    hdr_ver (dst.take ETH_ALEN ++ src.take ETH_ALEN ++ [0x88, 0x63, 0x11, code % 256] ++
      u16_bytes sid ++ X) = 1 ∧
    hdr_type (dst.take ETH_ALEN ++ src.take ETH_ALEN ++ [0x88, 0x63, 0x11, code % 256] ++
      u16_bytes sid ++ X) = 1 ∧
    hdr_code (dst.take ETH_ALEN ++ src.take ETH_ALEN ++ [0x88, 0x63, 0x11, code % 256] ++
      u16_bytes sid ++ X) = code % 256 ∧
    hdr_sid (dst.take ETH_ALEN ++ src.take ETH_ALEN ++ [0x88, 0x63, 0x11, code % 256] ++
      u16_bytes sid ++ X) = sid % 65536 := by
  match src, hsrc, dst, hdst with
  | s0 :: s1 :: s2 :: s3 :: s4 :: s5 :: st, _, d0 :: d1 :: d2 :: d3 :: d4 :: d5 :: dt, _ =>
    refine ⟨rfl, rfl, ?_, ?_, rfl, ?_⟩
    · simp [hdr_ver, byte, ETH_HLEN, ETH_ALEN]
    · simp [hdr_type, byte, ETH_HLEN, ETH_ALEN]
    · simp only [hdr_sid, be16, byte, ETH_HLEN, ETH_ALEN, u16_bytes, List.take, List.cons_append,
        List.nil_append, List.getD_cons_succ, List.getD_cons_zero]
      omega

/-- The frame of `pppoe_send_err`: the header, and as tags the AC name, an empty tag
of the given type, and the two optional tags. -/
theorem pppoe_send_err_pack_eq (g : globals) (serv : pppoe_serv_t) (addr : List Nat)
    (host_uniq relay_sid : Option pppoe_tag) (code tag_type : Nat)
    (hhw : ETH_ALEN ≤ serv.hwaddr.length) (haddr : ETH_ALEN ≤ addr.length)
    (hhu : ∀ t, host_uniq = some t → tag_wf t) (hrs : ∀ t, relay_sid = some t → tag_wf t)
    (hfit : ETH_HLEN + PPPOE_HLEN +
      (tags_bytes (err_tags g host_uniq relay_sid tag_type)).length ≤ ETHER_MAX_LEN) :
    pppoe_send_err_pack g serv addr host_uniq relay_sid code tag_type =
      addr.take ETH_ALEN ++ serv.hwaddr.take ETH_ALEN ++ [0x88, 0x63, 0x11, code % 256] ++
        u16_bytes 0 ++
        u16_bytes (tags_bytes (err_tags g host_uniq relay_sid tag_type)).length ++
        tags_bytes (err_tags g host_uniq relay_sid tag_type) := by
  have hE : ETH_HLEN + PPPOE_HLEN + 65536 > ETHER_MAX_LEN := by decide
  have hfit4 : (tags_bytes (err_tags g host_uniq relay_sid tag_type)).length < 65536 := by omega
  have hfit3 : (tags_bytes ([tag_of TAG_AC_NAME g.conf_ac_name, tag_of tag_type []] ++
      host_uniq.toList)).length < 65536 := by
    rw [err_tags, tags_bytes_append, List.length_append] at hfit4
    omega
  have hfit2 : (tags_bytes ([tag_of TAG_AC_NAME g.conf_ac_name] ++
      [tag_of tag_type []])).length < 65536 := by
    rw [tags_bytes_append, List.length_append] at hfit3
    exact lt_of_le_of_lt (Nat.le_add_right _ _) hfit3
  have hfit1 : (tags_bytes ([] ++ [tag_of TAG_AC_NAME g.conf_ac_name])).length < 65536 := by
    rw [tags_bytes_append, List.length_append] at hfit2
    exact lt_of_le_of_lt (Nat.le_add_right _ _) hfit2
  have b0 := built_setup_header serv.hwaddr addr code 0 hhw haddr
  have b1 := built_add_tag_of _ _ [] TAG_AC_NAME g.conf_ac_name b0 hfit1
  have b2 := built_add_tag_of _ _ _ tag_type [] b1 hfit2
  have b3 := built_add_opt _ _ _ host_uniq b2 hhu hfit3
  have b4 := built_add_opt _ _ _ relay_sid b3 hrs hfit4
  refine Eq.trans ?_ (built_send _ _ _ b4)
  simp only [pppoe_send_err_pack, add_tag2_opt_eq, List.length_nil]

/-! ## Duplicate PADR -/

/-- The session list after `allocate_channel`: unchanged, or one session with the
given cookie more. -/
theorem allocate_channel_conn_list (M : Nat) (g : globals) (fuel : Nat) (alloc_ok : Bool)
    (serv : pppoe_serv_t) (addr : List Nat) (host_uniq relay_sid : Option pppoe_tag)
    (service_name : pppoe_tag) (tr101 : Option pppoe_tag) (cookie : List Nat)
    (serv1 : pppoe_serv_t) (r : Option pppoe_conn_t)
    (h : allocate_channel M g fuel alloc_ok serv addr host_uniq relay_sid service_name tr101
      cookie = some (serv1, r)) :
    serv1.conn_list = serv.conn_list ∨
    ∃ conn, conn.cookie = cookie.take COOKIE_LENGTH ∧
      serv1.conn_list = serv.conn_list ++ [conn] := by
  cases alloc_ok with
  | false =>
    simp only [allocate_channel, Bool.not_false, ↓reduceIte, Option.some.injEq,
      Prod.mk.injEq] at h
    left; rw [← h.1]
  | true =>
    cases hs : sid_scan M serv.conn serv.sid fuel (serv.sid + 1) with
    | none => simp [allocate_channel, hs] at h
    | some o =>
      cases o with
      | none =>
        simp only [allocate_channel, hs, Bool.not_true, Bool.false_eq_true, ↓reduceIte,
          Option.some.injEq, Prod.mk.injEq] at h
        left; rw [← h.1]
      | some sid =>
        simp only [allocate_channel, hs, Bool.not_true, Bool.false_eq_true, ↓reduceIte] at h
        split_ifs at h <;>
        · simp only [Option.some.injEq, Prod.mk.injEq] at h
          right
          exact ⟨_, rfl, by rw [← h.1]⟩

/-- A fresh server has no two sessions with the same cookie. -/
theorem cookies_distinct_fresh (serv : pppoe_serv_t) (h : fresh_table serv) :
    cookies_distinct serv := by
  intro a ha
  rw [h.2.2.2] at ha
  simp at ha

/-- Function `disconnect` keeps the cookies of the list distinct. -/
theorem cookies_distinct_disconnect (g : globals) (conn : pppoe_conn_t) (serv : pppoe_serv_t)
    (h : cookies_distinct serv) : cookies_distinct (disconnect g conn serv).2.1 := by
  intro a ha b hb hab
  exact h a (List.mem_of_mem_erase ha) b (List.mem_of_mem_erase hb) hab

/-- The end of the PADR handler keeps the cookies of the list distinct: a session is
made only when `find_channel` found none with the cookie. -/
theorem cookies_distinct_padr_accept (MAX_SID : Nat) (g : globals) (serv : pppoe_serv_t)
    (pack : List Nat) (st : padr_locals) (cookie : List Nat) (fuel : Nat) (alloc_ok : Bool)
    (r : globals × pppoe_serv_t × List action) (h : cookies_distinct serv)
    (hr : padr_accept MAX_SID g serv pack st cookie fuel alloc_ok = some r) :
    cookies_distinct r.2.1 := by
  unfold padr_accept at hr
  split at hr
  · split_ifs at hr <;>
    · simp only [Option.some.injEq] at hr
      rw [← hr]; exact h
  · rename_i hfind
    have hnone : ∀ a ∈ serv.conn_list, memcmp a.cookie cookie COOKIE_LENGTH ≠ 0 := by
      intro a ha h0
      have := List.find?_eq_none.mp hfind a ha
      simp [h0] at this
    have key : ∀ serv1 res, allocate_channel MAX_SID g fuel alloc_ok serv (h_source pack)
        (st.host_uniq_tag.map (read_tag pack)) (st.relay_sid_tag.map (read_tag pack))
        res (st.tr101_tag.map (read_tag pack)) cookie = some serv1 →
        cookies_distinct serv1.1 := by
      intro serv1 res hal
      obtain ⟨s1, r1⟩ := serv1
      rcases allocate_channel_conn_list _ _ _ _ _ _ _ _ _ _ _ _ _ hal with hl | ⟨conn, hc, hl⟩
      · intro a ha b hb hab
        simp only [hl] at ha hb
        exact h a ha b hb hab
      · intro a ha b hb hab
        simp only [hl, List.mem_append, List.mem_singleton] at ha hb
        have hcc : ∀ x ∈ serv.conn_list, memcmp x.cookie conn.cookie COOKIE_LENGTH ≠ 0 := by
          intro x hx h0
          apply hnone x hx
          rw [memcmp_eq_zero_iff] at h0 ⊢
          rw [h0, hc, List.take_take, min_self]
        rcases ha with ha | ha <;> rcases hb with hb | hb
        · exact h a ha b hb hab
        · subst hb
          exact absurd hab (hcc a ha)
        · subst ha
          have hsym : memcmp b.cookie a.cookie COOKIE_LENGTH = 0 := by
            rw [memcmp_eq_zero_iff] at hab ⊢
            exact hab.symm
          exact absurd hsym (hcc b hb)
        · rw [ha, hb]
    split at hr
    · simp at hr
    · split at hr
      · simp at hr
      · rename_i hal
        simp only [Option.some.injEq] at hr
        rw [← hr]
        exact key _ _ hal
      · rename_i hal
        simp only [Option.some.injEq] at hr
        rw [← hr]
        exact key _ _ hal

/-- The whole PADR handler keeps the cookies of the list distinct. -/
theorem cookies_distinct_PADR (c : crypto) (MAX_SID : Nat) (g : globals) (serv : pppoe_serv_t)
    (pack : List Nat) (fuel : Nat) (alloc_ok : Bool)
    (r : globals × pppoe_serv_t × List action) (h : cookies_distinct serv)
    (hr : pppoe_recv_PADR c MAX_SID g serv pack fuel alloc_ok = some r) :
    cookies_distinct r.2.1 := by
  unfold pppoe_recv_PADR at hr
  simp only [] at hr
  repeat' split at hr
  all_goals
    first
    | exact cookies_distinct_padr_accept _ _ _ _ _ _ _ _ _ h hr
    | (simp only [Option.some.injEq] at hr; rw [← hr]; exact h)

/-- With distinct cookies, `find_channel` returns the session that holds the cookie. -/
theorem find_channel_of_mem (serv : pppoe_serv_t) (cookie : List Nat) (conn : pppoe_conn_t)
    (hdist : cookies_distinct serv) (hmem : conn ∈ serv.conn_list)
    (hc : memcmp conn.cookie cookie COOKIE_LENGTH = 0) :
    find_channel serv cookie = some conn := by
  unfold find_channel
  cases hf : serv.conn_list.find? (fun conn => memcmp conn.cookie cookie COOKIE_LENGTH = 0) with
  | none =>
    have := List.find?_eq_none.mp hf conn hmem
    simp [hc] at this
  | some x =>
    have hx := List.mem_of_find?_eq_some hf
    have hp := List.find?_some hf
    simp only [decide_eq_true_eq] at hp
    have : memcmp x.cookie conn.cookie COOKIE_LENGTH = 0 := by
      rw [memcmp_eq_zero_iff] at hp hc ⊢
      rw [hp, hc]
    rw [hdist x hx conn hmem this]

/-- A pointer of a tag loop that is set at every tag of one type holds, after the
loop, the last tag of that type (or its old value when there was none). -/
theorem foldl_last_ptr {σ : Type} (f : σ → Nat → σ) (p : σ → Option Nat) (q : Nat → Bool)
    (hf : ∀ st tag, p (f st tag) = if q tag then some tag else p st) (l : List Nat) :
    ∀ st, p (l.foldl f st) =
      match (l.filter q).getLast? with
      | some t => some t
      | none => p st := by
  induction l with
  | nil => intro st; rfl
  | cons x xs ih =>
    intro st
    rw [List.foldl_cons, ih, hf]
    by_cases hx : q x = true
    · simp only [hx, ↓reduceIte, List.filter_cons]
      cases hl : (xs.filter q).getLast? with
      | none =>
        have : xs.filter q = [] := by simpa using hl
        simp [this]
      | some t =>
        have hne : xs.filter q ≠ [] := by
          intro h0; rw [h0] at hl; simp at hl
        obtain ⟨y, ys, hy⟩ := List.exists_cons_of_ne_nil hne
        rw [hy] at hl ⊢
        rw [List.getLast?_cons_cons, hl]
    · simp only [hx, Bool.false_eq_true, ↓reduceIte, List.filter_cons]

theorem padr_tag_case_host_uniq (g : globals) (pack : List Nat)
    (names : Option (List (Option (List Nat)))) (st : padr_locals) (tag : Nat) :
    (padr_tag_case g pack names st tag).host_uniq_tag =
      if decide (be16 pack tag = TAG_HOST_UNIQ) then some tag else st.host_uniq_tag := by
  unfold padr_tag_case
  simp only [TAG_END_OF_LIST, TAG_SERVICE_NAME, TAG_HOST_UNIQ, TAG_AC_COOKIE,
    TAG_RELAY_SESSION_ID, TAG_VENDOR_SPECIFIC, decide_eq_true_eq]
  split_ifs <;> first | rfl | omega | (split <;> first | rfl | (split_ifs <;> rfl))

theorem padr_tag_case_relay_sid (g : globals) (pack : List Nat)
    (names : Option (List (Option (List Nat)))) (st : padr_locals) (tag : Nat) :
    (padr_tag_case g pack names st tag).relay_sid_tag =
      if decide (be16 pack tag = TAG_RELAY_SESSION_ID) then some tag else st.relay_sid_tag := by
  unfold padr_tag_case
  simp only [TAG_END_OF_LIST, TAG_SERVICE_NAME, TAG_HOST_UNIQ, TAG_AC_COOKIE,
    TAG_RELAY_SESSION_ID, TAG_VENDOR_SPECIFIC, decide_eq_true_eq]
  split_ifs <;> first | rfl | omega | (split <;> first | rfl | (split_ifs <;> rfl))

/-- The HOST_UNIQ pointer of `pppoe_recv_PADR` after its tag loop. -/
theorem padr_host_uniq_tag (g : globals) (pack : List Nat)
    (names : Option (List (Option (List Nat)))) :
    (padr_tag_loop g pack names (hdr_length pack) 0 padr_locals_init).host_uniq_tag =
      last_tag pack TAG_HOST_UNIQ := by
  rw [padr_tag_loop_eq_foldl]
  have h := foldl_last_ptr (padr_tag_case g pack names) (fun st => st.host_uniq_tag)
    (fun t => decide (be16 pack t = TAG_HOST_UNIQ)) (padr_tag_case_host_uniq g pack names)
    (tag_offsets pack (hdr_length pack) 0) padr_locals_init
  simp only at h
  rw [h, last_tag]
  cases ((tag_offsets pack (hdr_length pack) 0).filter
    (fun t => decide (be16 pack t = TAG_HOST_UNIQ))).getLast? <;> rfl

/-- The RELAY_SESSION_ID pointer of `pppoe_recv_PADR` after its tag loop. -/
theorem padr_relay_sid_tag (g : globals) (pack : List Nat)
    (names : Option (List (Option (List Nat)))) :
    (padr_tag_loop g pack names (hdr_length pack) 0 padr_locals_init).relay_sid_tag =
      last_tag pack TAG_RELAY_SESSION_ID := by
  rw [padr_tag_loop_eq_foldl]
  have h := foldl_last_ptr (padr_tag_case g pack names) (fun st => st.relay_sid_tag)
    (fun t => decide (be16 pack t = TAG_RELAY_SESSION_ID)) (padr_tag_case_relay_sid g pack names)
    (tag_offsets pack (hdr_length pack) 0) padr_locals_init
  simp only at h
  rw [h, last_tag]
  cases ((tag_offsets pack (hdr_length pack) 0).filter
    (fun t => decide (be16 pack t = TAG_RELAY_SESSION_ID))).getLast? <;> rfl

/-- The last tag of a type is one of the tags the walk visits, and has that type. -/
theorem last_tag_mem (pack : List Nat) (ty t : Nat) (h : last_tag pack ty = some t) :
    t ∈ tag_offsets pack (hdr_length pack) 0 ∧ be16 pack t = ty := by
  unfold last_tag at h
  have hm := List.mem_of_getLast?_eq_some h
  rw [List.mem_filter] at hm
  exact ⟨hm.1, by simpa using hm.2⟩

theorem byte_lt (pack : List Nat) (hb : ∀ b ∈ pack, b < 256) (i : Nat) : byte pack i < 256 := by
  unfold byte
  rw [List.getD_eq_getElem?_getD]
  cases h : pack[i]? with
  | none => simp
  | some b =>
    have := List.getElem?_mem h
    simpa using hb b this

/-- A tag that lies within a buffer of bytes is well formed. -/
theorem read_tag_wf (pack : List Nat) (off : Nat) (hb : ∀ b ∈ pack, b < 256)
    (hin : off + TAG_HLEN + be16 pack (off + 2) ≤ pack.length) : tag_wf (read_tag pack off) := by
  have h16 : ∀ i, be16 pack i < 65536 := by
    intro i
    have h1 := byte_lt pack hb i
    have h2 := byte_lt pack hb (i + 1)
    unfold be16
    omega
  refine ⟨h16 _, h16 _, ?_⟩
  simp only [read_tag, List.length_take, List.length_drop]
  omega

theorem tag_of_bytes_length (type : Nat) (data : List Nat) :
    (tag_bytes (tag_of type data)).length = TAG_HLEN + data.length := by
  simp [tag_bytes, tag_of, u16_bytes_length, TAG_HLEN]
  omega

theorem tag_of_wf (type : Nat) (data : List Nat) (h1 : type < 65536)
    (h2 : data.length < 65536) : tag_wf (tag_of type data) := ⟨h1, h2, rfl⟩

/-- The frame of `pppoe_send_PADS`: the header with the session id, and as tags the AC
name, the service name, and the two optional tags of the session. -/
theorem pppoe_send_PADS_pack_eq (g : globals) (serv : pppoe_serv_t) (conn : pppoe_conn_t)
    (hhw : ETH_ALEN ≤ serv.hwaddr.length) (haddr : ETH_ALEN ≤ conn.addr.length)
    (hsn : tag_wf conn.service_name)
    (hhu : ∀ t, conn.host_uniq = some t → tag_wf t)
    (hrs : ∀ t, conn.relay_sid = some t → tag_wf t)
    (hfit : ETH_HLEN + PPPOE_HLEN + (tags_bytes (pads_tags g conn)).length ≤ ETHER_MAX_LEN) :
    pppoe_send_PADS_pack g serv conn =
      conn.addr.take ETH_ALEN ++ serv.hwaddr.take ETH_ALEN ++ [0x88, 0x63, 0x11, CODE_PADS % 256] ++
        u16_bytes conn.sid ++ u16_bytes (tags_bytes (pads_tags g conn)).length ++
        tags_bytes (pads_tags g conn) := by
  have hE : ETH_HLEN + PPPOE_HLEN + 65536 > ETHER_MAX_LEN := by decide
  have hfit4 : (tags_bytes (pads_tags g conn)).length < 65536 := by omega
  have hfit3 : (tags_bytes ([tag_of TAG_AC_NAME g.conf_ac_name, conn.service_name] ++
      conn.host_uniq.toList)).length < 65536 := by
    rw [pads_tags, tags_bytes_append, List.length_append] at hfit4
    omega
  have hfit2 : (tags_bytes ([tag_of TAG_AC_NAME g.conf_ac_name] ++
      [conn.service_name])).length < 65536 := by
    rw [tags_bytes_append, List.length_append] at hfit3
    exact lt_of_le_of_lt (Nat.le_add_right _ _) hfit3
  have hfit1 : (tags_bytes ([] ++ [tag_of TAG_AC_NAME g.conf_ac_name])).length < 65536 := by
    rw [tags_bytes_append, List.length_append] at hfit2
    exact lt_of_le_of_lt (Nat.le_add_right _ _) hfit2
  have b0 := built_setup_header serv.hwaddr conn.addr CODE_PADS conn.sid hhw haddr
  have b1 := built_add_tag_of _ _ [] TAG_AC_NAME g.conf_ac_name b0 hfit1
  have b2 := built_add_tag2_of _ _ _ conn.service_name b1 hsn hfit2
  have b3 := built_add_opt _ _ _ conn.host_uniq b2 hhu hfit3
  have b4 := built_add_opt _ _ _ conn.relay_sid b3 hrs hfit4
  refine Eq.trans ?_ (built_send _ _ _ b4)
  simp only [pppoe_send_PADS_pack, add_tag2_opt_eq]

/-- C19. Duplicate PADR: when a PADR passes the cookie and service checks and the
server holds a session `conn` whose stored cookie equals the 24 bytes of the
AC-Cookie and whose PPP user name is not yet set (the cookies of the sessions
being distinct, as the handler keeps them), the handler returns having sent
exactly one PADS for `conn`, with `stat_PADR_recv`, `stat_PADR_dup_recv` and
`stat_PADS_sent` each one larger and the server record (table, cursor,
`conn_cnt`, session list) unchanged. The PADS frame, when it fits the buffer
and the stored tags are well formed, has code PADS, the session id of `conn`,
goes to the address of `conn`, and carries the AC name, the service name, and
the HOST_UNIQ and RELAY_SESSION_ID of `conn`. -/
theorem duplicate_padr (c : crypto) (MAX_SID : Nat) (g : globals) (serv : pppoe_serv_t)
    (pack : List Nat) (fuel : Nat) (alloc_ok : Bool) (ac : Nat) (conn : pppoe_conn_t)
    (hrun : g.ppp_shutdown = 0) (hdst : memcmp (h_dest pack) bc_addr ETH_ALEN ≠ 0)
    (hsid : hdr_sid pack = 0) (hac : last_tag pack TAG_AC_COOKIE = some ac)
    (hlen : be16 pack (ac + 2) = COOKIE_LENGTH)
    (hck : check_cookie c serv (h_source pack) (pack.drop (ac + TAG_HLEN)) = 0)
    (hsvc : padr_service_accepted g serv pack)
    (hdist : cookies_distinct serv) (hmem : conn ∈ serv.conn_list)
    (hcookie : memcmp conn.cookie (pack.drop (ac + TAG_HLEN)) COOKIE_LENGTH = 0)
    (huser : conn.username = none) :
    pppoe_recv_PADR c MAX_SID g serv pack fuel alloc_ok =
      some ({ g with
              stat_PADR_recv := g.stat_PADR_recv + 1
              stat_PADR_dup_recv := g.stat_PADR_dup_recv + 1
              stat_PADS_sent := g.stat_PADS_sent + 1 },
            serv, [action.sent_PADS conn]) ∧
    (ETH_ALEN ≤ serv.hwaddr.length → ETH_ALEN ≤ conn.addr.length →
      tag_wf conn.service_name → (∀ t, conn.host_uniq = some t → tag_wf t) →
      (∀ t, conn.relay_sid = some t → tag_wf t) →
      ETH_HLEN + PPPOE_HLEN + (tags_bytes (pads_tags g conn)).length ≤ ETHER_MAX_LEN →
      hdr_code (pppoe_send_PADS_pack g serv conn) = CODE_PADS ∧
      hdr_sid (pppoe_send_PADS_pack g serv conn) = conn.sid % 65536 ∧
      h_dest (pppoe_send_PADS_pack g serv conn) = conn.addr.take ETH_ALEN ∧
      h_source (pppoe_send_PADS_pack g serv conn) = serv.hwaddr.take ETH_ALEN ∧
      frame_tags (pppoe_send_PADS_pack g serv conn) = pads_tags g conn) := by
  constructor
  · have hiff := padr_service_match_iff { g with stat_PADR_recv := g.stat_PADR_recv + 1 } serv
      pack
    rw [effective_service_names_recv] at hiff
    have hm := hiff.mpr hsvc
    rw [pppoe_recv_PADR_valid_cookie c MAX_SID g serv pack fuel alloc_ok ac hrun hdst hsid hac
      hlen hck, if_pos hm]
    have hfind := find_channel_of_mem serv _ conn hdist hmem hcookie
    simp [padr_accept, hfind, huser, pppoe_send_PADS]
  · intro hhw haddr hsn hhu hrs hfit
    have hE : ETH_HLEN + PPPOE_HLEN + 65536 > ETHER_MAX_LEN := by decide
    have hwf : ∀ t ∈ pads_tags g conn, tag_wf t := by
      intro t ht
      simp only [pads_tags, List.mem_append, List.mem_cons, List.mem_singleton,
        List.not_mem_nil, or_false, Option.mem_toList, Option.mem_def] at ht
      rcases ht with ((rfl | rfl) | ht) | ht
      · apply tag_of_wf _ _ (by decide)
        have h1 : (tags_bytes (pads_tags g conn)).length =
            (tag_bytes (tag_of TAG_AC_NAME g.conf_ac_name)).length +
              (tags_bytes ([conn.service_name] ++ conn.host_uniq.toList ++
                conn.relay_sid.toList)).length := by
          rw [← List.length_append]
          rfl
        rw [tag_of_bytes_length] at h1
        omega
      · exact hsn
      · exact hhu t ht
      · exact hrs t ht
    rw [pppoe_send_PADS_pack_eq g serv conn hhw haddr hsn hhu hrs hfit]
    have hf := frame_header_fields serv.hwaddr conn.addr CODE_PADS conn.sid
      (u16_bytes (tags_bytes (pads_tags g conn)).length ++ tags_bytes (pads_tags g conn))
      hhw haddr
    simp only [← List.append_assoc] at hf
    obtain ⟨f1, f2, _, _, f5, f6⟩ := hf
    refine ⟨f5, f6, f1, f2, ?_⟩
    apply frame_tags_built _ _ _ hwf (by omega)
    simp [u16_bytes_length, List.length_take, ETH_ALEN] at *
    omega

theorem duplicate_padr_witness :
    pppoe_recv_PADR demo_crypto 65534 demo_after_padr.1 demo_after_padr.2.1 (padr_with_name [])
        10 true =
      some ({ demo_after_padr.1 with
              stat_PADR_recv := 2, stat_PADR_dup_recv := 1, stat_PADS_sent := 2 },
            demo_after_padr.2.1, [action.sent_PADS demo_session]) ∧
    demo_session.sid = 1 ∧ demo_after_padr.2.1.conn_cnt = 1 ∧
    hdr_sid (pppoe_send_PADS_pack demo_after_padr.1 demo_after_padr.2.1 demo_session) = 1 :=
  have h := duplicate_padr demo_crypto 65534 demo_after_padr.1 demo_after_padr.2.1
    (padr_with_name []) 10 true 24 demo_session (by decide) (by decide) (by decide) (by decide)
    (by decide) (by decide) ⟨20, by decide, by decide, Or.inl (by decide)⟩
    (by unfold cookies_distinct; decide) (by decide) (by decide) (by decide)
  have hu : demo_session.host_uniq =
      some { tag_type := TAG_HOST_UNIQ, tag_len := 4, tag_data := [0xde, 0xad, 0xbe, 0xef] } := by
    decide
  have rs : demo_session.relay_sid = none := by decide
  ⟨h.1, by decide, by decide,
    (h.2 (by decide) (by decide) ⟨by decide, by decide, by decide⟩
      (fun t ht => by
        rw [hu] at ht; cases ht; exact ⟨by decide, by decide, by decide⟩)
      (fun t ht => by rw [rs] at ht; cases ht) (by decide)).2.1⟩

/-! ## Service mismatch on PADR -/

/-- C20. Service mismatch on PADR: when a PADR carries a valid cookie (no shutdown,
destination not broadcast, `sid` 0, a 24-byte AC-Cookie that `check_cookie`
accepts) but its service check fails, the handler returns having sent exactly
one frame through `pppoe_send_err`, with code PADS and tag type
SERVICE_NAME_ERROR, to the source address, passing the (last) HOST_UNIQ and
RELAY_SESSION_ID tags of the PADR when present; the server record is unchanged
(no session) and only `stat_PADR_recv` grows. That frame, when it fits the
buffer and the tags of the PADR lie within the received bytes, has code PADS,
session id 0, the source address of the PADR as destination, and exactly the
tags AC-NAME, an empty SERVICE_NAME_ERROR, then the echoed HOST_UNIQ and
RELAY_SESSION_ID. -/
theorem padr_service_mismatch (c : crypto) (MAX_SID : Nat) (g : globals) (serv : pppoe_serv_t)
    (pack : List Nat) (fuel : Nat) (alloc_ok : Bool) (ac : Nat)
    (hrun : g.ppp_shutdown = 0) (hdst : memcmp (h_dest pack) bc_addr ETH_ALEN ≠ 0)
    (hsid : hdr_sid pack = 0) (hac : last_tag pack TAG_AC_COOKIE = some ac)
    (hlen : be16 pack (ac + 2) = COOKIE_LENGTH)
    (hck : check_cookie c serv (h_source pack) (pack.drop (ac + TAG_HLEN)) = 0)
    (hno : ¬ padr_service_accepted g serv pack) :
    ∃ host_uniq relay_sid,
      pppoe_recv_PADR c MAX_SID g serv pack fuel alloc_ok =
        some ({ g with stat_PADR_recv := g.stat_PADR_recv + 1 }, serv,
          [action.sent_err (h_source pack) host_uniq relay_sid CODE_PADS
            TAG_SERVICE_NAME_ERROR]) ∧
      host_uniq = (last_tag pack TAG_HOST_UNIQ).map (read_tag pack) ∧
      relay_sid = (last_tag pack TAG_RELAY_SESSION_ID).map (read_tag pack) ∧
      (ETH_ALEN ≤ serv.hwaddr.length → 2 * ETH_ALEN ≤ pack.length →
        (∀ b ∈ pack, b < 256) →
        (∀ tag ∈ tag_offsets pack (hdr_length pack) 0,
          tag + TAG_HLEN + be16 pack (tag + 2) ≤ pack.length) →
        ETH_HLEN + PPPOE_HLEN +
          (tags_bytes (err_tags g host_uniq relay_sid TAG_SERVICE_NAME_ERROR)).length ≤
            ETHER_MAX_LEN →
        hdr_code (pppoe_send_err_pack g serv (h_source pack) host_uniq relay_sid CODE_PADS
          TAG_SERVICE_NAME_ERROR) = CODE_PADS ∧
        hdr_sid (pppoe_send_err_pack g serv (h_source pack) host_uniq relay_sid CODE_PADS
          TAG_SERVICE_NAME_ERROR) = 0 ∧
        h_dest (pppoe_send_err_pack g serv (h_source pack) host_uniq relay_sid CODE_PADS
          TAG_SERVICE_NAME_ERROR) = h_source pack ∧
        h_source (pppoe_send_err_pack g serv (h_source pack) host_uniq relay_sid CODE_PADS
          TAG_SERVICE_NAME_ERROR) = serv.hwaddr.take ETH_ALEN ∧
        frame_tags (pppoe_send_err_pack g serv (h_source pack) host_uniq relay_sid CODE_PADS
          TAG_SERVICE_NAME_ERROR) =
          [tag_of TAG_AC_NAME g.conf_ac_name, tag_of TAG_SERVICE_NAME_ERROR []] ++
            host_uniq.toList ++ relay_sid.toList) := by
  have hiff := padr_service_match_iff { g with stat_PADR_recv := g.stat_PADR_recv + 1 } serv pack
  rw [effective_service_names_recv] at hiff
  have hm : ¬ (padr_tag_loop { g with stat_PADR_recv := g.stat_PADR_recv + 1 } pack
      (effective_service_names g serv) (hdr_length pack) 0
      padr_locals_init).service_match = true := fun h => hno (hiff.mp h)
  have hval := pppoe_recv_PADR_valid_cookie c MAX_SID g serv pack fuel alloc_ok ac hrun hdst hsid
    hac hlen hck
  rw [if_neg hm, padr_host_uniq_tag, padr_relay_sid_tag] at hval
  refine ⟨_, _, hval, rfl, rfl, ?_⟩
  intro hhw hpack hb hin hfit
  have hsrc : (h_source pack).length = ETH_ALEN := by
    simp only [h_source, List.length_take, List.length_drop, ETH_ALEN] at hpack ⊢
    omega
  have hwfp : ∀ ty t, (last_tag pack ty).map (read_tag pack) = some t → tag_wf t := by
    intro ty t ht
    cases hl : last_tag pack ty with
    | none => rw [hl] at ht; simp at ht
    | some off =>
      rw [hl] at ht
      simp only [Option.map_some', Option.some.injEq] at ht
      rw [← ht]
      exact read_tag_wf pack off hb (hin off (last_tag_mem pack ty off hl).1)
  have hhu := hwfp TAG_HOST_UNIQ
  have hrs := hwfp TAG_RELAY_SESSION_ID
  have hE : ETH_HLEN + PPPOE_HLEN + 65536 > ETHER_MAX_LEN := by decide
  have hwf : ∀ t ∈ err_tags g ((last_tag pack TAG_HOST_UNIQ).map (read_tag pack))
      ((last_tag pack TAG_RELAY_SESSION_ID).map (read_tag pack)) TAG_SERVICE_NAME_ERROR,
      tag_wf t := by
    intro t ht
    simp only [err_tags, List.mem_append, List.mem_cons, List.mem_singleton,
      List.not_mem_nil, or_false, Option.mem_toList, Option.mem_def] at ht
    rcases ht with ((rfl | rfl) | ht) | ht
    · apply tag_of_wf _ _ (by decide)
      have h1 : (tags_bytes (err_tags g ((last_tag pack TAG_HOST_UNIQ).map (read_tag pack))
          ((last_tag pack TAG_RELAY_SESSION_ID).map (read_tag pack))
          TAG_SERVICE_NAME_ERROR)).length =
          (tag_bytes (tag_of TAG_AC_NAME g.conf_ac_name)).length +
            (tags_bytes ([tag_of TAG_SERVICE_NAME_ERROR []] ++
              ((last_tag pack TAG_HOST_UNIQ).map (read_tag pack)).toList ++
              ((last_tag pack TAG_RELAY_SESSION_ID).map (read_tag pack)).toList)).length := by
        rw [← List.length_append]
        rfl
      rw [tag_of_bytes_length] at h1
      omega
    · exact tag_of_wf _ _ (by decide) (by decide)
    · exact hhu t ht
    · exact hrs t ht
  rw [pppoe_send_err_pack_eq g serv (h_source pack) _ _ CODE_PADS TAG_SERVICE_NAME_ERROR hhw
    (le_of_eq hsrc.symm) hhu hrs hfit]
  have hf := frame_header_fields serv.hwaddr (h_source pack) CODE_PADS 0
    (u16_bytes (tags_bytes (err_tags g ((last_tag pack TAG_HOST_UNIQ).map (read_tag pack))
        ((last_tag pack TAG_RELAY_SESSION_ID).map (read_tag pack))
        TAG_SERVICE_NAME_ERROR)).length ++
      tags_bytes (err_tags g ((last_tag pack TAG_HOST_UNIQ).map (read_tag pack))
        ((last_tag pack TAG_RELAY_SESSION_ID).map (read_tag pack)) TAG_SERVICE_NAME_ERROR))
    hhw (le_of_eq hsrc.symm)
  simp only [← List.append_assoc] at hf
  obtain ⟨f1, f2, _, _, f5, f6⟩ := hf
  have htake : (h_source pack).take ETH_ALEN = h_source pack := by
    rw [← hsrc, List.take_length]
  refine ⟨f5, f6, by rw [f1, htake], f2, ?_⟩
  have := frame_tags_built
    ((h_source pack).take ETH_ALEN ++ serv.hwaddr.take ETH_ALEN ++
      [0x88, 0x63, 0x11, CODE_PADS % 256] ++ u16_bytes 0) _
    (by
      simp only [List.length_append, List.length_take, u16_bytes_length, List.length_cons,
        List.length_nil, ETH_ALEN] at hhw hsrc ⊢
      omega) hwf (by omega)
  exact this

theorem padr_service_mismatch_witness :
    ¬ padr_service_accepted demo_globals_isp demo_serv (padr_with_name (ascii "isp-b")) ∧
    pppoe_recv_PADR demo_crypto 65534 demo_globals_isp demo_serv (padr_with_name (ascii "isp-b"))
        10 true =
      some ({ demo_globals_isp with stat_PADR_recv := 1 }, demo_serv,
        [action.sent_err [2, 0, 0, 0, 0, 1]
          (some { tag_type := TAG_HOST_UNIQ, tag_len := 4, tag_data := [0xde, 0xad, 0xbe, 0xef] })
          none CODE_PADS TAG_SERVICE_NAME_ERROR]) ∧
    frame_tags (pppoe_send_err_pack demo_globals_isp demo_serv [2, 0, 0, 0, 0, 1]
        (some { tag_type := TAG_HOST_UNIQ, tag_len := 4, tag_data := [0xde, 0xad, 0xbe, 0xef] })
        none CODE_PADS TAG_SERVICE_NAME_ERROR) =
      [tag_of TAG_AC_NAME demo_globals_isp.conf_ac_name, tag_of TAG_SERVICE_NAME_ERROR [],
        { tag_type := TAG_HOST_UNIQ, tag_len := 4, tag_data := [0xde, 0xad, 0xbe, 0xef] }] := by
  have hno : ¬ padr_service_accepted demo_globals_isp demo_serv
      (padr_with_name (ascii "isp-b")) := by
    intro hacc
    have hm := (padr_service_match_iff demo_globals_isp demo_serv
      (padr_with_name (ascii "isp-b"))).mpr hacc
    revert hm
    decide
  obtain ⟨hu, rs, h1, ehu, ers, h2⟩ := padr_service_mismatch demo_crypto 65534 demo_globals_isp
    demo_serv (padr_with_name (ascii "isp-b")) 10 true 29 rfl (by decide) (by decide)
    (by decide) (by decide) (by decide) hno
  have e1 : (last_tag (padr_with_name (ascii "isp-b")) TAG_HOST_UNIQ).map
      (read_tag (padr_with_name (ascii "isp-b"))) =
      some { tag_type := TAG_HOST_UNIQ, tag_len := 4, tag_data := [0xde, 0xad, 0xbe, 0xef] } := by
    decide
  have e2 : (last_tag (padr_with_name (ascii "isp-b")) TAG_RELAY_SESSION_ID).map
      (read_tag (padr_with_name (ascii "isp-b"))) = none := by
    decide
  have e3 : h_source (padr_with_name (ascii "isp-b")) = [2, 0, 0, 0, 0, 1] := by decide
  rw [e1] at ehu
  rw [e2] at ers
  subst ehu
  subst ers
  rw [e3] at h1 h2
  exact ⟨hno, h1, (h2 (by decide) (by decide) (by decide) (by decide) (by decide)).2.2.2.2⟩

/-! ## Service names offered in PADO -/

theorem padi_tag_case_host_uniq (g : globals) (serv : pppoe_serv_t) (pack : List Nat)
    (names : Option (List (Option (List Nat)))) (st : padi_locals) (tag : Nat) :
    (padi_tag_case g serv pack names st tag).host_uniq_tag =
      if decide (be16 pack tag = TAG_HOST_UNIQ) then some tag else st.host_uniq_tag := by
  unfold padi_tag_case
  simp only [TAG_END_OF_LIST, TAG_SERVICE_NAME, TAG_HOST_UNIQ, TAG_RELAY_SESSION_ID,
    decide_eq_true_eq]
  split_ifs <;> first | rfl | omega | (split <;> first | rfl | (split_ifs <;> rfl))

theorem padi_tag_case_relay_sid (g : globals) (serv : pppoe_serv_t) (pack : List Nat)
    (names : Option (List (Option (List Nat)))) (st : padi_locals) (tag : Nat) :
    (padi_tag_case g serv pack names st tag).relay_sid_tag =
      if decide (be16 pack tag = TAG_RELAY_SESSION_ID) then some tag else st.relay_sid_tag := by
  unfold padi_tag_case
  simp only [TAG_END_OF_LIST, TAG_SERVICE_NAME, TAG_HOST_UNIQ, TAG_RELAY_SESSION_ID,
    decide_eq_true_eq]
  split_ifs <;> first | rfl | omega | (split <;> first | rfl | (split_ifs <;> rfl))

/-- The HOST_UNIQ pointer of `pppoe_recv_PADI` after its tag loop. -/
theorem padi_host_uniq_tag (g : globals) (serv : pppoe_serv_t) (pack : List Nat)
    (names : Option (List (Option (List Nat)))) (st : padi_locals)
    (hst : st.host_uniq_tag = none) :
    (padi_tag_loop g serv pack names (hdr_length pack) 0 st).host_uniq_tag =
      last_tag pack TAG_HOST_UNIQ := by
  rw [padi_tag_loop_eq_foldl]
  have h := foldl_last_ptr (padi_tag_case g serv pack names) (fun st => st.host_uniq_tag)
    (fun t => decide (be16 pack t = TAG_HOST_UNIQ)) (padi_tag_case_host_uniq g serv pack names)
    (tag_offsets pack (hdr_length pack) 0) st
  simp only at h
  rw [h, last_tag, hst]
  cases ((tag_offsets pack (hdr_length pack) 0).filter
    (fun t => decide (be16 pack t = TAG_HOST_UNIQ))).getLast? <;> rfl

/-- The RELAY_SESSION_ID pointer of `pppoe_recv_PADI` after its tag loop. -/
theorem padi_relay_sid_tag (g : globals) (serv : pppoe_serv_t) (pack : List Nat)
    (names : Option (List (Option (List Nat)))) (st : padi_locals)
    (hst : st.relay_sid_tag = none) :
    (padi_tag_loop g serv pack names (hdr_length pack) 0 st).relay_sid_tag =
      last_tag pack TAG_RELAY_SESSION_ID := by
  rw [padi_tag_loop_eq_foldl]
  have h := foldl_last_ptr (padi_tag_case g serv pack names) (fun st => st.relay_sid_tag)
    (fun t => decide (be16 pack t = TAG_RELAY_SESSION_ID))
    (padi_tag_case_relay_sid g serv pack names)
    (tag_offsets pack (hdr_length pack) 0) st
  simp only at h
  rw [h, last_tag, hst]
  cases ((tag_offsets pack (hdr_length pack) 0).filter
    (fun t => decide (be16 pack t = TAG_RELAY_SESSION_ID))).getLast? <;> rfl

/-- The handler `pppoe_recv_PADT` on a frame whose session id lies within the table:
it returns, changes nothing, and schedules `disconnect` for the session of that
slot exactly when the destination is not the broadcast address, the slot is
occupied and the stored peer address equals the source address. -/
theorem pppoe_recv_PADT_in_table (MAX_SID : Nat) (g : globals) (serv : pppoe_serv_t)
    (pack : List Nat) (hsid : hdr_sid pack < MAX_SID) :
    ∃ acts, pppoe_recv_PADT MAX_SID g serv pack = some (g, serv, acts) ∧
      (∀ conn, acts = [action.call_disconnect conn] ↔
        (memcmp (h_dest pack) bc_addr ETH_ALEN ≠ 0 ∧ serv.conn (hdr_sid pack) = some conn ∧
          memcmp conn.addr (h_source pack) ETH_ALEN = 0)) ∧
      ((¬ ∃ conn, memcmp (h_dest pack) bc_addr ETH_ALEN ≠ 0 ∧
          serv.conn (hdr_sid pack) = some conn ∧
          memcmp conn.addr (h_source pack) ETH_ALEN = 0) → acts = []) := by
  have hn : ¬ MAX_SID ≤ hdr_sid pack := by omega
  unfold pppoe_recv_PADT
  by_cases hb : memcmp (h_dest pack) bc_addr ETH_ALEN = 0
  · rw [if_pos hb]
    refine ⟨[], rfl, ?_, fun _ => rfl⟩
    intro conn
    constructor
    · intro h; simp at h
    · intro h; exact absurd hb h.1
  · rw [if_neg hb, if_neg hn]
    cases hc : serv.conn (hdr_sid pack) with
    | none =>
      refine ⟨[], rfl, ?_, fun _ => rfl⟩
      intro conn
      constructor
      · intro h; simp at h
      · intro h; simp at h
    | some c =>
      by_cases hm : memcmp c.addr (h_source pack) ETH_ALEN = 0
      · simp only [hm, ↓reduceIte]
        refine ⟨[action.call_disconnect c], rfl, ?_, ?_⟩
        · intro conn
          constructor
          · intro h
            simp only [List.cons.injEq, action.call_disconnect.injEq, and_true] at h
            subst h
            exact ⟨hb, rfl, hm⟩
          · intro h
            simp only [Option.some.injEq] at h
            rw [h.2.1]
        · intro h
          exact absurd ⟨c, hb, rfl, hm⟩ h
      · simp only [hm, ↓reduceIte]
        refine ⟨[], rfl, ?_, fun _ => rfl⟩
        intro conn
        constructor
        · intro h; simp at h
        · intro h
          simp only [Option.some.injEq] at h
          obtain ⟨_, h2, h3⟩ := h
          subst h2
          exact absurd h3 hm

/-- The handler `pppoe_recv_PADT` on a frame whose session id lies beyond the table:
with a destination that is not the broadcast address the table is indexed
outside its bounds. -/
theorem pppoe_recv_PADT_beyond_table (MAX_SID : Nat) (g : globals) (serv : pppoe_serv_t)
    (pack : List Nat) (hb : memcmp (h_dest pack) bc_addr ETH_ALEN ≠ 0)
    (hsid : MAX_SID ≤ hdr_sid pack) : pppoe_recv_PADT MAX_SID g serv pack = none := by
  unfold pppoe_recv_PADT
  rw [if_neg hb, if_pos hsid]

theorem occupied_pos (M : Nat) (conn : Nat → Option pppoe_conn_t) (i : Nat) (c : pppoe_conn_t)
    (hi : i < M) (h : conn i = some c) : 0 < occupied M conn := by
  have := occupied_update_none M conn i c hi h
  omega

theorem occupied_zero_iff (M : Nat) (conn : Nat → Option pppoe_conn_t) :
    occupied M conn = 0 ↔ ∀ i, i < M → conn i = none := by
  constructor
  · intro h i hi
    cases hc : conn i with
    | none => rfl
    | some c =>
      have := occupied_pos M conn i c hi hc
      omega
  · intro h
    rw [occupied_congr M conn (fun _ => none) h]
    unfold occupied
    simp

/-- Under the table invariant the counter is zero exactly when the table is empty. -/
theorem table_inv_empty_iff (M ptr : Nat) (s : pppoe_serv_t) (hinv : table_inv M ptr s) :
    s.conn_cnt = 0 ↔ ∀ i, s.conn i = none := by
  rw [hinv.count]
  constructor
  · intro h i
    have h0 : occupied M s.conn = 0 := by exact_mod_cast h
    cases hc : s.conn i with
    | none => rfl
    | some c =>
      obtain ⟨_, _, _, hlt, _⟩ := hinv.slot i c hc
      have := (occupied_zero_iff M s.conn).mp h0 i hlt
      rw [hc] at this
      exact absurd this (by simp)
  · intro h
    have : occupied M s.conn = 0 := (occupied_zero_iff M s.conn).mpr (fun i _ => h i)
    rw [this]
    rfl

/-- The calls of `pppoe_server_free` that one `disconnect` makes: one when the server
is stopping and the counter reaches zero, none otherwise. -/
theorem disconnect_free_count (g : globals) (c : pppoe_conn_t) (s : pppoe_serv_t) (p : Nat) :
    (disconnect g c s).2.2.count (action.server_free p) =
      if s.stopping = true ∧ s.conn_cnt - 1 = 0 ∧ s.ptr = p then 1 else 0 := by
  simp only [disconnect]
  by_cases hs : c.ppp_started = true <;> by_cases h1 : s.stopping = true <;>
    by_cases h2 : s.conn_cnt - 1 = 0 <;> by_cases h3 : s.ptr = p <;>
    simp [hs, h1, h2, h3, List.count_cons, List.count_nil]

theorem disconnect_stopping (g : globals) (c : pppoe_conn_t) (s : pppoe_serv_t) :
    (disconnect g c s).2.1.stopping = s.stopping ∧ (disconnect g c s).2.1.ptr = s.ptr ∧
    (disconnect g c s).2.1.conn_cnt = s.conn_cnt - 1 := ⟨rfl, rfl, rfl⟩

/-- C22. Graceful stop: let `_server_stop` run on a server that is not stopping and
whose table satisfies the table invariant. With no session the server is freed
at once; with sessions it is not freed by `_server_stop`, which asks every
session to stop. In every state reached afterwards by disconnects of sessions
of the table the server is stopping, the counter is zero exactly when the table
is empty, `pppoe_server_free` has been called once if the table is empty and not
at all as long as a session remains (so the call is made by the disconnect that
brings `conn_cnt` to 0), and a further `_server_stop` does nothing. -/
theorem graceful_stop (M ptr : Nat) (s0 : pppoe_serv_t) (hinv : table_inv M ptr s0)
    (hns : s0.stopping = false) :
    (s0.conn_cnt = 0 →
      (_server_stop s0).2 = [action.md_disable_handler s0.ptr, action.server_free s0.ptr]) ∧
    (s0.conn_cnt ≠ 0 →
      (_server_stop s0).2 =
        [action.md_disable_handler s0.ptr] ++ s0.conn_list.map action.call_conn_stop) ∧
    (∀ s acts, stop_reachable s0 s acts →
      s.stopping = true ∧
      (s.conn_cnt = 0 ↔ ∀ i, s.conn i = none) ∧
      acts.count (action.server_free s0.ptr) = (if s.conn_cnt = 0 then 1 else 0) ∧
      _server_stop s = (s, []) ∧
      (∀ g i c, s.conn i = some c →
        ((disconnect g c s).2.2.count (action.server_free s0.ptr) = 1 ↔
          (disconnect g c s).2.1.conn_cnt = 0) ∧
        (disconnect g c s).2.2.count (action.server_free s0.ptr) ≤ 1)) := by
  have hstop1 : (_server_stop s0).1 = { s0 with stopping := true } := by
    simp only [_server_stop, hns, Bool.false_eq_true, ↓reduceIte]
    split_ifs <;> rfl
  refine ⟨?_, ?_, ?_⟩
  · intro h0
    simp [_server_stop, hns, h0]
  · intro h0
    simp [_server_stop, hns, h0]
  · intro s acts hr
    have key : s.stopping = true ∧ table_inv M ptr s ∧ s.ptr = s0.ptr ∧
        acts.count (action.server_free s0.ptr) = (if s.conn_cnt = 0 then 1 else 0) := by
      induction hr with
      | stop =>
        rw [hstop1]
        refine ⟨rfl, ⟨hinv.slot, hinv.cursor, hinv.count, hinv.length, hinv.owner⟩, rfl, ?_⟩
        by_cases h0 : s0.conn_cnt = 0
        · simp [_server_stop, hns, h0]
        · have hmap : (s0.conn_list.map action.call_conn_stop).count
              (action.server_free s0.ptr) = 0 :=
            List.count_eq_zero.mpr (by simp)
          simp [_server_stop, hns, h0, hmap]
      | disc s acts g i c _ hc ih =>
        obtain ⟨h1, h2, h3, h4⟩ := ih
        obtain ⟨_, _, _, hlt, _⟩ := h2.slot i c hc
        have hpos := occupied_pos M s.conn i c hlt hc
        have hcnt : s.conn_cnt ≠ 0 := by
          rw [h2.count]
          exact_mod_cast (Nat.pos_iff_ne_zero.mp hpos)
        refine ⟨h1, table_inv_disc M ptr s g i c h2 hc, h3, ?_⟩
        rw [List.count_append, h4, if_neg hcnt, disconnect_free_count]
        simp only [(disconnect_stopping g c s).2.2, h1, h3, true_and, and_true, zero_add]
    obtain ⟨h1, h2, h3, h4⟩ := key
    refine ⟨h1, table_inv_empty_iff M ptr s h2, h4, ?_, ?_⟩
    · simp [_server_stop, h1]
    · intro g i c _
      rw [disconnect_free_count]
      simp only [(disconnect_stopping g c s).2.2, h1, h3, true_and, and_true]
      constructor
      · by_cases h : s.conn_cnt - 1 = 0 <;> simp [h]
      · split_ifs <;> omega

theorem graceful_stop_witness :
    (_server_stop demo_serv_2).2 =
      [action.md_disable_handler 7,
        action.call_conn_stop ((demo_serv_2.conn 1).getD (demo_conn 0)),
        action.call_conn_stop ((demo_serv_2.conn 2).getD (demo_conn 0))] ∧
    (disconnect demo_globals ((demo_serv_2.conn 1).getD (demo_conn 0))
      (_server_stop demo_serv_2).1).2.2.count (action.server_free 7) = 0 ∧
    ((_server_stop demo_serv_2).2 ++
      (disconnect demo_globals ((demo_serv_2.conn 1).getD (demo_conn 0))
        (_server_stop demo_serv_2).1).2.2 ++
      (disconnect demo_globals ((demo_serv_2.conn 2).getD (demo_conn 0))
        (disconnect demo_globals ((demo_serv_2.conn 1).getD (demo_conn 0))
          (_server_stop demo_serv_2).1).2.1).2.2).count (action.server_free 7) = 1 := by
  have h0 : fresh_table demo_serv := ⟨fun _ => rfl, rfl, rfl, rfl⟩
  have h1 : table_reachable 8 demo_serv demo_serv_1 :=
    table_reachable.alloc demo_serv demo_serv_1 demo_globals 8 true [2, 0, 0, 0, 0, 1] none none
      demo_tag none (List.replicate 24 1) _ table_reachable.start rfl
  have h2 : table_reachable 8 demo_serv demo_serv_2 :=
    table_reachable.alloc demo_serv_1 demo_serv_2 demo_globals 8 true [2, 0, 0, 0, 0, 2] none none
      demo_tag none (List.replicate 24 2) _ h1 rfl
  have hinv := table_inv_reachable 8 demo_serv demo_serv_2 (by decide) (by decide) h0 h2
  have h := graceful_stop 8 demo_serv.ptr demo_serv_2 hinv rfl
  have r1 : stop_reachable demo_serv_2 _ _ :=
    stop_reachable.disc _ _ demo_globals 1 ((demo_serv_2.conn 1).getD (demo_conn 0))
      stop_reachable.stop rfl
  have r2 : stop_reachable demo_serv_2 _ _ :=
    stop_reachable.disc _ _ demo_globals 2 ((demo_serv_2.conn 2).getD (demo_conn 0)) r1 rfl
  refine ⟨h.2.1 (by decide), by decide, ?_⟩
  exact ((h.2.2 _ _ r2).2.2.1).trans (by decide)

/-! ## Station ids -/

/-- C23 (the code at the failing inputs). With `ifname-in-sid=called-sid` the
interface name is put in front of the calling station id (the address of the
client) and the called station id is the bare address of the server; with
`calling-sid` it is put in front of the called station id and the calling
station id is bare: the two options act on each other's station id. With
`both`, both are prefixed. The addresses are six two-digit lower-case
hexadecimal octets separated by colons. -/
theorem ifname_in_sid_swapped :
    (load_config_ifname_in_sid demo_globals (some "called-sid")).conf_ifname_in_sid = 1 ∧
    (load_config_ifname_in_sid demo_globals (some "calling-sid")).conf_ifname_in_sid = 2 ∧
    (load_config_ifname_in_sid demo_globals (some "both")).conf_ifname_in_sid = 3 ∧
    demo_station_ids "called-sid" = some ("eth0:02:00:00:00:00:01", "02:00:00:00:00:fe") ∧
    demo_station_ids "calling-sid" = some ("02:00:00:00:00:01", "eth0:02:00:00:00:00:fe") ∧
    demo_station_ids "both" = some ("eth0:02:00:00:00:00:01", "eth0:02:00:00:00:00:fe") := by
  decide

/-! ## Interface options -/

/-- C24 (the code at the failing input). A bare flag at the end of the list, after an
item that named a property, is not applied to its own property: at the end of
the string the parser keeps the `property` pointer of the item before, so
`padi-limit=5,require-sn` sets `padi_limit` to 1 and leaves
`require_service_name` at 0, without an error, while `require-sn,padi-limit=5`
gives `padi_limit == 5` and `require_service_name == 1`. A bare flag alone, and
a single `name=value` item, are applied as written. -/
theorem trailing_flag_misapplied :
    demo_ifopt "padi-limit=5,require-sn" = some (0, 1, 0) ∧
    demo_ifopt "require-sn,padi-limit=5" = some (0, 5, 1) ∧
    demo_ifopt "require-sn" = some (0, 0, 1) ∧
    demo_ifopt "padi-limit=5" = some (0, 5, 0) := by
  decide

/-! ## Size of the PADO -/

set_option maxRecDepth 100000 in
/-- C25 (the code at the failing input). The send routines never compare what they
write with the size of the buffer `pack[ETHER_MAX_LEN]`. A PADI of 1518 received
bytes with an empty SERVICE_NAME and a HOST_UNIQ of 1490 bytes passes the read
loop and is answered at once; the PADO that `pppoe_send_PADO` builds from the
arguments the handler passes (AC name `accel-ppp`, the service name, the cookie,
the echoed HOST_UNIQ) has a payload of 1539 bytes, so that 14 + 6 + 1539 = 1559
bytes are written to, and sent from, the buffer of 1518 bytes. -/
theorem pado_overflows_buffer :
    padi_big.length = ETHER_MAX_LEN ∧
    frame_dispatch demo_serv padi_big.length padi_big false = some CODE_PADI ∧
    pppoe_recv_PADI demo_globals demo_serv padi_big demo_now demo_now true false =
      ({ demo_globals with stat_PADI_recv := 1, stat_PADO_sent := 1 }, demo_serv,
        [action.sent_PADO (h_source padi_big)
          ((last_tag padi_big TAG_HOST_UNIQ).map (read_tag padi_big))
          ((last_tag padi_big TAG_RELAY_SESSION_ID).map (read_tag padi_big))
          (some (read_tag padi_big 20))]) ∧
    h_source padi_big = [2, 0, 0, 0, 0, 1] ∧
    (last_tag padi_big TAG_HOST_UNIQ).map
      (fun t => ((read_tag padi_big t).tag_type, (read_tag padi_big t).tag_len)) =
      some (TAG_HOST_UNIQ, 1490) ∧
    hdr_length (pppoe_send_PADO_pack demo_crypto [1, 2, 3, 4, 5, 6, 7, 8]
      { demo_globals with stat_PADI_recv := 1 } demo_serv (h_source padi_big)
      ((last_tag padi_big TAG_HOST_UNIQ).map (read_tag padi_big))
      ((last_tag padi_big TAG_RELAY_SESSION_ID).map (read_tag padi_big))
      (some (read_tag padi_big 20))) = 1539 ∧
    (pppoe_send_PADO_pack demo_crypto [1, 2, 3, 4, 5, 6, 7, 8]
      { demo_globals with stat_PADI_recv := 1 } demo_serv (h_source padi_big)
      ((last_tag padi_big TAG_HOST_UNIQ).map (read_tag padi_big))
      ((last_tag padi_big TAG_RELAY_SESSION_ID).map (read_tag padi_big))
      (some (read_tag padi_big 20))).length = 1559 ∧
    ETHER_MAX_LEN < 1559 := by
  have hc := pppoe_recv_PADI_admitted_cases demo_globals demo_serv padi_big demo_now demo_now
    true false rfl (by decide) { demo_globals with stat_PADI_recv := 1 } demo_serv rfl
    (by decide) _ rfl
  have hm : (padi_tag_loop { demo_globals with stat_PADI_recv := 1 } demo_serv padi_big
      (effective_service_names { demo_globals with stat_PADI_recv := 1 } demo_serv)
      (hdr_length padi_big) 0
      { host_uniq_tag := none, relay_sid_tag := none, service_name_tag := none,
        service_match := false }).service_match = true := by decide
  have hsn : (padi_tag_loop { demo_globals with stat_PADI_recv := 1 } demo_serv padi_big
      (effective_service_names { demo_globals with stat_PADI_recv := 1 } demo_serv)
      (hdr_length padi_big) 0
      { host_uniq_tag := none, relay_sid_tag := none, service_name_tag := none,
        service_match := false }).service_name_tag = some 20 := by decide
  have h3 := hc.2.1 hm rfl
  rw [padi_host_uniq_tag _ _ _ _ _ rfl, padi_relay_sid_tag _ _ _ _ _ rfl, hsn] at h3
  exact ⟨by decide, by decide, h3, by decide, by decide, by decide, by decide, by decide⟩

/-! ## Eviction horizon -/

theorem age_ns_eq (now ts : timespec) : age_ns now ts = ts_ns now - ts_ns ts := by
  unfold age_ns ts_ns
  ring

/-- An entry that the eviction test drops is older than 1000 ms. -/
theorem age_of_expired (now : timespec) (p : padi_t) (h : padi_expired now p = true) :
    1000000000 < age_ns now p.ts := by
  unfold padi_expired at h
  rw [decide_eq_true_iff] at h
  unfold age_ns
  rcases Int.le_total 0 (now.tv_nsec - p.ts.tv_nsec) with hn | hn
  · rw [Int.tdiv_eq_ediv hn (by decide)] at h
    omega
  · have h2 : Int.tdiv (now.tv_nsec - p.ts.tv_nsec) 1000000 =
        -((-(now.tv_nsec - p.ts.tv_nsec)) / 1000000) := by
      rw [← Int.tdiv_eq_ediv (by omega) (by decide), Int.neg_tdiv, neg_neg]
    rw [h2] at h
    omega

/-- An entry that the eviction test keeps is younger than 1001 ms. -/
theorem age_of_not_expired (now : timespec) (p : padi_t) (h : padi_expired now p = false) :
    age_ns now p.ts < 1001000000 := by
  unfold padi_expired at h
  rw [decide_eq_false_iff_not] at h
  unfold age_ns
  rcases Int.le_total 0 (now.tv_nsec - p.ts.tv_nsec) with hn | hn
  · rw [Int.tdiv_eq_ediv hn (by decide)] at h
    omega
  · have h2 : Int.tdiv (now.tv_nsec - p.ts.tv_nsec) 1000000 =
        -((-(now.tv_nsec - p.ts.tv_nsec)) / 1000000) := by
      rw [← Int.tdiv_eq_ediv (by omega) (by decide), Int.neg_tdiv, neg_neg]
    rw [h2] at h
    omega

/-- The eviction loop splits an ordered window into the dropped head, whose entries
are older than 1000 ms, and the rest, whose entries are younger than 1001 ms. -/
theorem padi_evict_split (now : timespec) (l : List padi_t)
    (hs : l.Pairwise (fun a b => ts_ns a.ts ≤ ts_ns b.ts)) :
    ∀ cnt total, ∃ evicted, l = evicted ++ (padi_evict now l cnt total).1 ∧
      (∀ p ∈ evicted, 1000000000 < age_ns now p.ts) ∧
      (∀ p ∈ (padi_evict now l cnt total).1, age_ns now p.ts < 1001000000) := by
  induction l with
  | nil => intro _ _; exact ⟨[], rfl, by simp, by simp [padi_evict]⟩
  | cons q qs ih =>
    intro cnt total
    rw [List.pairwise_cons] at hs
    by_cases hq : padi_expired now q = true
    · obtain ⟨ev, h1, h2, h3⟩ := ih hs.2 (cnt - 1) ((total + 2 ^ 32 - 1) % 2 ^ 32)
      refine ⟨q :: ev, ?_, ?_, ?_⟩
      · simp only [padi_evict, hq, ↓reduceIte, List.cons_append]
        rw [← h1]
      · intro p hp
        rcases List.mem_cons.mp hp with rfl | hp
        · exact age_of_expired now p hq
        · exact h2 p hp
      · simpa only [padi_evict, hq, ↓reduceIte] using h3
    · have hq2 : padi_expired now q = false := by
        cases h : padi_expired now q with
        | true => exact absurd h hq
        | false => rfl
      refine ⟨[], ?_, by simp, ?_⟩
      · rw [padi_evict_head now q qs cnt total hq2]
        rfl
      · rw [padi_evict_head now q qs cnt total hq2]
        intro p hp
        have hage := age_of_not_expired now q hq2
        rcases List.mem_cons.mp hp with rfl | hp
        · exact hage
        · have := hs.1 p hp
          rw [age_ns_eq] at hage ⊢
          omega

/-- C26 (as stated, refuted). After the eviction step an entry can remain whose exact
age is greater than 1000 ms: the test works on whole milliseconds, and an entry
stamped at 100 s stays in the window at 101.0005 s, when it is 1000.5 ms old. -/
theorem padi_entry_past_horizon_stays :
    age_ns { tv_sec := 101, tv_nsec := 500000 } (demo_padi 100 0).ts = 1000500000 ∧
    (1000000000 : Int) < 1000500000 ∧
    (after_evict { tv_sec := 101, tv_nsec := 500000 } demo_globals
      { demo_serv_limit with padi_list := [demo_padi 100 0], padi_cnt := 1 }).2.padi_list =
      [demo_padi 100 0] := by
  decide

/-- C26 (amended). PADI eviction horizon: for a window ordered by ascending timestamp,
the eviction step of `check_padi_limit` removes a head part of the window and
keeps the rest; every evicted entry had an exact age strictly greater than
1000 ms, and no remaining entry has an exact age of 1001 ms or more. -/
theorem padi_eviction_horizon (now : timespec) (g : globals) (serv : pppoe_serv_t)
    (hs : serv.padi_list.Pairwise (fun a b => ts_ns a.ts ≤ ts_ns b.ts)) :
    ∃ evicted, serv.padi_list = evicted ++ (after_evict now g serv).2.padi_list ∧
      (∀ p ∈ evicted, 1000000000 < age_ns now p.ts) ∧
      (∀ p ∈ (after_evict now g serv).2.padi_list, age_ns now p.ts < 1001000000) :=
  padi_evict_split now serv.padi_list hs serv.padi_cnt g.total_padi_cnt

theorem padi_eviction_horizon_witness :
    ∃ evicted,
      [demo_padi 100 0, demo_padi 100 999000000, demo_padi 101 400000] =
        evicted ++ (after_evict { tv_sec := 102, tv_nsec := 0 } demo_globals
          { demo_serv_limit with
            padi_list := [demo_padi 100 0, demo_padi 100 999000000, demo_padi 101 400000]
            padi_cnt := 3 }).2.padi_list ∧
      (∀ p ∈ evicted, 1000000000 < age_ns { tv_sec := 102, tv_nsec := 0 } p.ts) ∧
      (∀ p ∈ (after_evict { tv_sec := 102, tv_nsec := 0 } demo_globals
          { demo_serv_limit with
            padi_list := [demo_padi 100 0, demo_padi 100 999000000, demo_padi 101 400000]
            padi_cnt := 3 }).2.padi_list,
        age_ns { tv_sec := 102, tv_nsec := 0 } p.ts < 1001000000) :=
  padi_eviction_horizon { tv_sec := 102, tv_nsec := 0 } demo_globals
    { demo_serv_limit with
      padi_list := [demo_padi 100 0, demo_padi 100 999000000, demo_padi 101 400000]
      padi_cnt := 3 }
    (by decide)

/-! ## Encoder: length field and round trip -/

theorem memcpy_at_length (buf s : List Nat) (off : Nat) (h : off + s.length ≤ buf.length) :
    (memcpy_at buf off s).length = buf.length := by
  simp only [memcpy_at, List.length_append, List.length_take, List.length_drop]
  omega

/-- The tags of a buffer built by the encoder, as the receiving side walks them. -/
theorem frame_tags_of_built (pack H : List Nat) (ts : List pppoe_tag)
    (h : built pack H (tags_bytes ts)) (hwf : ∀ t ∈ ts, tag_wf t) : frame_tags pack = ts := by
  have hl := built_hdr_length pack H _ h
  obtain ⟨hH, _, rest, hp⟩ := h
  unfold frame_tags
  have h20 : (H ++ u16_bytes (tags_bytes ts).length).length = ETH_HLEN + PPPOE_HLEN := by
    simp [hH, u16_bytes_length, ETH_HLEN, PPPOE_HLEN]
  have := tag_offsets_walk pack rest ts [] (hdr_length pack) hwf
    (by
      rw [hp, List.append_assoc, List.drop_left' h20]
      simp)
    (by rw [hl]; simp)
    (by rw [hl]; exact tags_bytes_length_ge ts hwf)
  simpa using this

theorem tags_bytes_length_sum : ∀ ts : List pppoe_tag, (∀ t ∈ ts, tag_wf t) →
    (tags_bytes ts).length = (ts.map (fun t => TAG_HLEN + t.tag_len)).sum
  | [], _ => rfl
  | t :: ts, h => by
    have h1 := tag_bytes_length t (h t (List.mem_cons_self _ _))
    have h2 := tags_bytes_length_sum ts (fun u hu => h u (List.mem_cons_of_mem _ hu))
    simp only [tags_bytes, List.length_append, List.map_cons, List.sum_cons, h1, h2]

theorem enc_tag_wf (op : enc_op) (h : enc_op_wf op) (hlen : (enc_tag op).tag_len < 65536) :
    tag_wf (enc_tag op) := by
  cases op with
  | add type data len =>
    obtain ⟨h1, h2⟩ := h
    exact ⟨h1, hlen, by simp [enc_tag, h2]⟩
  | add2 t => exact h

theorem enc_size_cons (op : enc_op) (ops : List enc_op) :
    enc_size (op :: ops) = TAG_HLEN + (enc_tag op).tag_len + enc_size ops := by
  simp [enc_size]

/-- A sequence of encoder calls on a buffer built so far appends its triples. -/
theorem built_enc_apply (H : List Nat) :
    ∀ (ops : List enc_op) (pack : List Nat) (ts : List pppoe_tag),
      built pack H (tags_bytes ts) → (∀ t ∈ ts, tag_wf t) →
      (∀ op ∈ ops, enc_op_wf op) →
      (tags_bytes ts).length + enc_size ops < 65536 →
      built (enc_apply pack ops) H (tags_bytes (ts ++ ops.map enc_tag)) ∧
        ∀ t ∈ ts ++ ops.map enc_tag, tag_wf t := by
  intro ops
  induction ops with
  | nil =>
    intro pack ts h hts _ _
    simpa [enc_apply] using ⟨h, hts⟩
  | cons op ops ih =>
    intro pack ts h hts hwf hfit
    rw [enc_size_cons] at hfit
    have hop := hwf op (List.mem_cons_self _ _)
    have hopwf : tag_wf (enc_tag op) := enc_tag_wf op hop (by omega)
    have hlen1 := tag_bytes_length (enc_tag op) hopwf
    have hts1 : ∀ t ∈ ts ++ [enc_tag op], tag_wf t := by
      intro t ht
      rcases List.mem_append.mp ht with ht | ht
      · exact hts t ht
      · rw [List.mem_singleton] at ht
        rw [ht]; exact hopwf
    have hassoc : ts ++ (op :: ops).map enc_tag = (ts ++ [enc_tag op]) ++ ops.map enc_tag := by
      simp
    rw [hassoc]
    have hfit1 : (tags_bytes (ts ++ [enc_tag op])).length + enc_size ops < 65536 := by
      rw [tags_bytes_append, tags_bytes_singleton, List.length_append, hlen1]
      omega
    cases op with
    | add type data len =>
      have hb : built (add_tag pack type data len) H (tags_bytes (ts ++ [enc_tag
          (enc_op.add type data len)])) := by
        rw [tags_bytes_append, tags_bytes_singleton]
        have := built_add_tag pack H _ type data len h (by
          simp only [enc_tag] at hfit
          omega) hop.2
        have e : tag_bytes (enc_tag (enc_op.add type data len)) =
            tag_bytes { tag_type := type, tag_len := len, tag_data := data } := by
          simp [enc_tag, tag_bytes, List.take_take]
        rw [e]
        exact this
      exact ih _ _ hb hts1 (fun o ho => hwf o (List.mem_cons_of_mem _ ho)) hfit1
    | add2 t =>
      have hb : built (add_tag2 pack t) H (tags_bytes (ts ++ [enc_tag (enc_op.add2 t)])) :=
        built_add_tag2_of pack H ts t h hop (by
          rw [tags_bytes_append, tags_bytes_singleton, List.length_append]
          simp only [enc_tag] at hlen1 hfit
          omega)
      exact ih _ _ hb hts1 (fun o ho => hwf o (List.mem_cons_of_mem _ ho)) hfit1

theorem setup_header_length (src dst : List Nat) (code sid : Nat)
    (hsrc : ETH_ALEN ≤ src.length) (hdst : ETH_ALEN ≤ dst.length) :
    (setup_header empty_pack src dst code sid).length = ETHER_MAX_LEN := by
  match src, hsrc, dst, hdst with
  | s0 :: s1 :: s2 :: s3 :: s4 :: s5 :: st, _, d0 :: d1 :: d2 :: d3 :: d4 :: d5 :: dt, _ =>
    rw [empty_pack_split, setup_header_cons]
    simp only [List.length_append, List.length_cons, List.length_nil, List.length_replicate,
      u16_bytes_length, ETHER_MAX_LEN]

theorem ethertype_field (src dst : List Nat) (code : Nat) (X : List Nat)
    (hsrc : ETH_ALEN ≤ src.length) (hdst : ETH_ALEN ≤ dst.length) :
    be16 (dst.take ETH_ALEN ++ src.take ETH_ALEN ++ [0x88, 0x63, 0x11, code % 256] ++ X)
      (2 * ETH_ALEN) = ETH_P_PPP_DISC := by
  match src, hsrc, dst, hdst with
  | s0 :: s1 :: s2 :: s3 :: s4 :: s5 :: st, _, d0 :: d1 :: d2 :: d3 :: d4 :: d5 :: dt, _ =>
    have h12 : 2 * ETH_ALEN = 12 := rfl
    rw [h12]
    simp only [be16, byte, ETH_ALEN, List.take, List.cons_append, List.nil_append,
      List.getD_cons_succ, List.getD_cons_zero, ETH_P_PPP_DISC]

/-- The fields that `setup_header` leaves in a fresh buffer. -/
theorem setup_header_fields (src dst : List Nat) (code sid : Nat)
    (hsrc : ETH_ALEN ≤ src.length) (hdst : ETH_ALEN ≤ dst.length) :
    hdr_length (setup_header empty_pack src dst code sid) = 0 ∧
    hdr_ver (setup_header empty_pack src dst code sid) = 1 ∧
    hdr_type (setup_header empty_pack src dst code sid) = 1 ∧
    be16 (setup_header empty_pack src dst code sid) (2 * ETH_ALEN) = ETH_P_PPP_DISC ∧
    hdr_code (setup_header empty_pack src dst code sid) = code % 256 ∧
    hdr_sid (setup_header empty_pack src dst code sid) = sid % 65536 ∧
    h_dest (setup_header empty_pack src dst code sid) = dst.take ETH_ALEN ∧
    h_source (setup_header empty_pack src dst code sid) = src.take ETH_ALEN := by
  have hb := built_setup_header src dst code sid hsrc hdst
  have hl := built_hdr_length _ _ _ hb
  obtain ⟨_, _, rest, hp⟩ := hb
  have hf := frame_header_fields src dst code sid (u16_bytes ([] : List Nat).length ++ [] ++ rest)
    hsrc hdst
  have he := ethertype_field src dst code (u16_bytes sid ++
    (u16_bytes ([] : List Nat).length ++ [] ++ rest)) hsrc hdst
  simp only [← List.append_assoc] at hf he hp
  rw [← hp] at hf he
  exact ⟨hl, hf.2.2.1, hf.2.2.2.1, he, hf.2.2.2.2.1, hf.2.2.2.2.2, hf.1, hf.2.1⟩

/-- C27. Encoder length and round trip: `setup_header` on a fresh buffer leaves the
length field 0, `ver = 1`, `type = 1`, ethertype 0x8863 (and the code, session
id and addresses given); after any sequence of `add_tag` and `add_tag2` calls
whose tags stay inside the buffer (so also below 65536 bytes), the length field
equals the sum over the appended tags of `4 + tag_len`, the walk of the receive
handlers over the buffer, and over the frame that `pppoe_send` writes, yields
exactly the appended (type, length, data) triples in the order of the calls,
and the frame written has `14 + 6 + length` bytes. -/
theorem encoder_round_trip (src dst : List Nat) (code sid : Nat) (ops : List enc_op)
    (hsrc : ETH_ALEN ≤ src.length) (hdst : ETH_ALEN ≤ dst.length)
    (hwf : ∀ op ∈ ops, enc_op_wf op)
    (hfit : ETH_HLEN + PPPOE_HLEN + enc_size ops ≤ ETHER_MAX_LEN) :
    (hdr_length (setup_header empty_pack src dst code sid) = 0 ∧
      hdr_ver (setup_header empty_pack src dst code sid) = 1 ∧
      hdr_type (setup_header empty_pack src dst code sid) = 1 ∧
      be16 (setup_header empty_pack src dst code sid) (2 * ETH_ALEN) = ETH_P_PPP_DISC ∧
      (setup_header empty_pack src dst code sid).length = ETHER_MAX_LEN) ∧
    hdr_length (enc_apply (setup_header empty_pack src dst code sid) ops) = enc_size ops ∧
    frame_tags (enc_apply (setup_header empty_pack src dst code sid) ops) = ops.map enc_tag ∧
    frame_tags (pppoe_send (enc_apply (setup_header empty_pack src dst code sid) ops)) =
      ops.map enc_tag ∧
    (pppoe_send (enc_apply (setup_header empty_pack src dst code sid) ops)).length =
      ETH_HLEN + PPPOE_HLEN + enc_size ops := by
  have hE : ETH_HLEN + PPPOE_HLEN + 65536 > ETHER_MAX_LEN := by decide
  have hf := setup_header_fields src dst code sid hsrc hdst
  have hb0 := built_setup_header src dst code sid hsrc hdst
  obtain ⟨hb, hts⟩ := built_enc_apply _ ops _ [] hb0 (by simp) hwf
    (by simp only [tags_bytes, List.length_nil]; omega)
  simp only [List.nil_append] at hb hts
  have hsum : (tags_bytes (ops.map enc_tag)).length = enc_size ops := by
    rw [tags_bytes_length_sum _ hts, enc_size, List.map_map]
    rfl
  have hsend := built_send _ _ _ hb
  have hH := hb.1
  refine ⟨⟨hf.1, hf.2.1, hf.2.2.1, hf.2.2.2.1, setup_header_length src dst code sid hsrc hdst⟩,
    ?_, ?_, ?_, ?_⟩
  · rw [built_hdr_length _ _ _ hb, hsum]
  · exact frame_tags_of_built _ _ _ hb hts
  · rw [hsend]
    exact frame_tags_built _ _ hH hts (by rw [hsum]; omega)
  · rw [hsend]
    simp only [List.length_append, hH, u16_bytes_length, hsum, ETH_HLEN, PPPOE_HLEN]

theorem encoder_round_trip_witness :
    hdr_length (enc_apply (setup_header empty_pack [2, 0, 0, 0, 0, 0xfe] [2, 0, 0, 0, 0, 1]
      CODE_PADO 0)
      [enc_op.add TAG_AC_NAME (ascii "accel-ppp") 9, enc_op.add2 demo_tag,
        enc_op.add TAG_AC_COOKIE demo_cookie COOKIE_LENGTH]) = 13 + 4 + 28 ∧
    frame_tags (enc_apply (setup_header empty_pack [2, 0, 0, 0, 0, 0xfe] [2, 0, 0, 0, 0, 1]
      CODE_PADO 0)
      [enc_op.add TAG_AC_NAME (ascii "accel-ppp") 9, enc_op.add2 demo_tag,
        enc_op.add TAG_AC_COOKIE demo_cookie COOKIE_LENGTH]) =
      [{ tag_type := TAG_AC_NAME, tag_len := 9, tag_data := ascii "accel-ppp" }, demo_tag,
        { tag_type := TAG_AC_COOKIE, tag_len := 24, tag_data := demo_cookie }] := by
  have h := encoder_round_trip [2, 0, 0, 0, 0, 0xfe] [2, 0, 0, 0, 0, 1] CODE_PADO 0
    [enc_op.add TAG_AC_NAME (ascii "accel-ppp") 9, enc_op.add2 demo_tag,
      enc_op.add TAG_AC_COOKIE demo_cookie COOKIE_LENGTH] (by decide) (by decide)
    (by
      intro op hop
      simp only [List.mem_cons, List.mem_singleton, List.not_mem_nil, or_false] at hop
      rcases hop with rfl | rfl | rfl
      · exact ⟨by decide, by decide⟩
      · exact ⟨by decide, by decide, by decide⟩
      · exact ⟨by decide, by decide⟩)
    (by decide)
  exact ⟨h.2.1.trans (by decide), h.2.2.1.trans (by decide)⟩

/-! ## Delayed-PADO queue -/

/-- The queue after `pppoe_recv_PADI`: unchanged, or longer by one entry for the
source address, which then was not in the queue. -/
theorem pppoe_recv_PADI_pado_list (g : globals) (serv : pppoe_serv_t) (pack : List Nat)
    (now now_warn : timespec) (alloc_ok connlimit : Bool) :
    (pppoe_recv_PADI g serv pack now now_warn alloc_ok connlimit).2.1.pado_list =
      serv.pado_list ∨
    ∃ pado, pado.addr = h_source pack ∧
      serv.pado_list.any (fun p => memcmp p.addr (h_source pack) ETH_ALEN = 0) = false ∧
      (pppoe_recv_PADI g serv pack now now_warn alloc_ok connlimit).2.1.pado_list =
        serv.pado_list ++ [pado] := by
  have hf := check_padi_limit_frame
    { g with stat_PADI_recv := g.stat_PADI_recv + 1 } serv (h_source pack) now alloc_ok connlimit
  unfold pppoe_recv_PADI
  simp only []
  generalize check_padi_limit { g with stat_PADI_recv := g.stat_PADI_recv + 1 } serv
    (h_source pack) now alloc_ok connlimit = r at hf ⊢
  obtain ⟨ret, g1, serv1⟩ := r
  simp only at hf
  obtain ⟨_, _, _, _, _, _, f7⟩ := hf
  split_ifs with h1 h2 h3 h4 h5 h6 h7
  all_goals first
    | (left; rfl)
    | (left; exact f7)
    | (right
       refine ⟨?_, ?_, ?_, ?_⟩
       pick_goal 4
       · exact congrArg (fun l => l ++ [_]) f7
       · rfl
       · rw [← f7]
         simpa using h7)

theorem pado_unique_append (pado : delayed_pado_t) (l : List delayed_pado_t)
    (hu : l.Pairwise (fun a b => memcmp a.addr b.addr ETH_ALEN ≠ 0))
    (hany : l.any (fun p => memcmp p.addr pado.addr ETH_ALEN = 0) = false) :
    (l ++ [pado]).Pairwise (fun a b => memcmp a.addr b.addr ETH_ALEN ≠ 0) := by
  rw [List.pairwise_append]
  refine ⟨hu, List.pairwise_singleton _ _, ?_⟩
  intro a ha b hb
  rw [List.mem_singleton] at hb
  subst hb
  intro h0
  have := List.any_eq_false.mp hany a ha
  simp [h0] at this

/-- Every reachable queue holds at most one entry for each source address. -/
theorem pado_unique_reachable (P : globals → Prop) (s0 s : pppoe_serv_t) (acts : List action)
    (h0 : s0.pado_list = []) (hr : pado_reachable P s0 s acts) : pado_unique s := by
  induction hr with
  | start => unfold pado_unique; rw [h0]; exact List.Pairwise.nil
  | padi s acts g pack now now_warn alloc_ok connlimit _ _ ih =>
    unfold pado_unique at ih ⊢
    rcases pppoe_recv_PADI_pado_list g s pack now now_warn alloc_ok connlimit with h | h
    · rw [h]; exact ih
    · obtain ⟨pado, ha, hany, hl⟩ := h
      rw [hl]
      exact pado_unique_append pado _ ih (by rw [ha]; exact hany)
  | timer s acts g pado _ _ _ ih =>
    unfold pado_unique at ih ⊢
    exact ih.sublist (List.erase_sublist _ _)

/-- With `pado_delay == -1` the PADI handler only counts the frame. -/
theorem pppoe_recv_PADI_never (g : globals) (serv : pppoe_serv_t) (pack : List Nat)
    (now now_warn : timespec) (alloc_ok connlimit : Bool) (h : g.pado_delay = -1) :
    pppoe_recv_PADI g serv pack now now_warn alloc_ok connlimit =
      ({ g with stat_PADI_recv := g.stat_PADI_recv + 1 }, serv, []) := by
  unfold pppoe_recv_PADI
  simp only [h, or_true, if_true]

/-- While `pado_delay` is -1 at every event, the queue stays empty and nothing is
done: no PADO is sent and no timer armed. -/
theorem pado_never_reachable (s0 s : pppoe_serv_t) (acts : List action)
    (h0 : s0.pado_list = [])
    (hr : pado_reachable (fun g => g.pado_delay = -1) s0 s acts) :
    s.pado_list = [] ∧ acts = [] := by
  induction hr with
  | start => exact ⟨h0, rfl⟩
  | padi s acts g pack now now_warn alloc_ok connlimit hg _ ih =>
    rw [pppoe_recv_PADI_never g s pack now now_warn alloc_ok connlimit hg]
    exact ⟨ih.1, by simp [ih.2]⟩
  | timer s acts g pado _ _ hm ih =>
    rw [ih.1] at hm
    exact absurd hm (List.not_mem_nil _)

/-- The expiry of the timer of a queued entry while the daemon is not shutting down:
the PADO is sent and the entry freed, whatever `pado_delay` is. -/
theorem pado_timer_sends (g : globals) (serv : pppoe_serv_t) (pado : delayed_pado_t)
    (hrun : g.ppp_shutdown = 0) :
    (pado_timer g serv pado).2.2 =
      [action.sent_PADO pado.addr pado.host_uniq pado.relay_sid pado.service_name,
       action.timer_del pado] ∧
    (pado_timer g serv pado).2.1.pado_list = serv.pado_list.erase pado := by
  simp only [pado_timer, hrun, ↓reduceIte, pppoe_send_PADO, free_delayed_pado,
    List.singleton_append, and_self]

/-- Claim C28, amended. From a server with an empty queue of delayed PADOs, every
state that PADI frames and timer expiries lead to holds at most one entry for each
source address. When `pado_delay` is neither 0 nor -1, an admitted PADI with session
id 0 whose service matches does nothing when its source address is already queued
(the queue is the one before), and otherwise appends exactly one entry for the source
address and only arms its timer, so that no PADO is sent at once. With `pado_delay`
-1 a PADI is counted and neither answered nor queued, and as long as the delay is -1
at every event from the empty queue on, the queue stays empty and no action is taken.
The timer of a queued entry does not look at `pado_delay`: unless the daemon shuts
down it sends the PADO of the entry and frees it, also when the delay has become -1
since the entry was queued. -/
theorem pado_queue_unique (s0 : pppoe_serv_t) (h0 : s0.pado_list = []) :
    (∀ s acts, pado_reachable (fun _ => True) s0 s acts → pado_unique s) ∧
    (∀ (g : globals) (serv : pppoe_serv_t) (pack : List Nat) (now now_warn : timespec)
        (alloc_ok connlimit : Bool) (g1 : globals) (serv1 : pppoe_serv_t),
      g.ppp_shutdown = 0 → g.pado_delay ≠ -1 → g.pado_delay ≠ 0 →
      check_padi_limit { g with stat_PADI_recv := g.stat_PADI_recv + 1 } serv
        (h_source pack) now alloc_ok connlimit = (0, g1, serv1) →
      hdr_sid pack = 0 →
      (padi_tag_loop g1 serv1 pack (effective_service_names g1 serv1) (hdr_length pack) 0
        { host_uniq_tag := none, relay_sid_tag := none, service_name_tag := none,
          service_match := false }).service_match = true →
      (serv.pado_list.any (fun p => memcmp p.addr (h_source pack) ETH_ALEN = 0) = true →
        pppoe_recv_PADI g serv pack now now_warn alloc_ok connlimit = (g1, serv1, []) ∧
        serv1.pado_list = serv.pado_list) ∧
      (serv.pado_list.any (fun p => memcmp p.addr (h_source pack) ETH_ALEN = 0) = false →
        ∃ pado : delayed_pado_t, pado.addr = h_source pack ∧
          (pppoe_recv_PADI g serv pack now now_warn alloc_ok connlimit).2.1.pado_list =
            serv.pado_list ++ [pado] ∧
          (pppoe_recv_PADI g serv pack now now_warn alloc_ok connlimit).2.2 =
            [action.timer_add pado])) ∧
    (∀ (g : globals) (serv : pppoe_serv_t) (pack : List Nat) (now now_warn : timespec)
        (alloc_ok connlimit : Bool), g.pado_delay = -1 →
      pppoe_recv_PADI g serv pack now now_warn alloc_ok connlimit =
        ({ g with stat_PADI_recv := g.stat_PADI_recv + 1 }, serv, [])) ∧
    (∀ s acts, pado_reachable (fun g => g.pado_delay = -1) s0 s acts →
      s.pado_list = [] ∧ acts = []) ∧
    (∀ (g : globals) (serv : pppoe_serv_t) (pado : delayed_pado_t), g.ppp_shutdown = 0 →
      (pado_timer g serv pado).2.2 =
        [action.sent_PADO pado.addr pado.host_uniq pado.relay_sid pado.service_name,
         action.timer_del pado] ∧
      (pado_timer g serv pado).2.1.pado_list = serv.pado_list.erase pado) := by
  refine ⟨fun s acts hr => pado_unique_reachable _ s0 s acts h0 hr, ?_,
    fun g serv pack now now_warn alloc_ok connlimit h =>
      pppoe_recv_PADI_never g serv pack now now_warn alloc_ok connlimit h,
    fun s acts hr => pado_never_reachable s0 s acts h0 hr,
    fun g serv pado hrun => pado_timer_sends g serv pado hrun⟩
  intro g serv pack now now_warn alloc_ok connlimit g1 serv1 hrun hd1 hd0 hadm hsid hm
  have hf := check_padi_limit_frame
    { g with stat_PADI_recv := g.stat_PADI_recv + 1 } serv (h_source pack) now alloc_ok connlimit
  rw [hadm] at hf
  obtain ⟨_, _, _, _, _, _, f7⟩ := hf
  simp only at f7
  obtain ⟨_, _, c3, c4⟩ := pppoe_recv_PADI_admitted_cases g serv pack now now_warn alloc_ok
    connlimit hrun hd1 g1 serv1 hadm hsid _ rfl
  constructor
  · intro hany
    exact ⟨c3 hm hd0 (by rw [f7]; exact hany), f7⟩
  · intro hany
    have h4 := c4 hm hd0 (by rw [f7]; exact hany)
    refine ⟨?_, ?_, ?_, ?_⟩
    pick_goal 4
    · exact congrArg (fun r => r.2.2) h4
    · rfl
    · exact (congrArg (fun r => r.2.1.pado_list) h4).trans (congrArg (fun l => l ++ [_]) f7)

/-- Claim C28 on the demo server with a delay of 100 ms: the first PADI from
02:00:00:00:00:01 queues one entry and only arms its timer, a second PADI from that
address does nothing, the queue after it has no two entries for one address, with a
delay of -1 the frame is only counted, and the timer of the queued entry sends its
PADO after the delay has become -1. -/
theorem pado_queue_unique_witness :
    demo_serv.pado_list = [] ∧
    pado_unique (pppoe_recv_PADI demo_globals_delay
      (pppoe_recv_PADI demo_globals_delay demo_serv padi_empty_name demo_now demo_now
        true false).2.1 padi_empty_name demo_now demo_now true false).2.1 ∧
    pppoe_recv_PADI { demo_globals with pado_delay := -1 } demo_serv padi_empty_name demo_now
        demo_now true false =
      ({ demo_globals with pado_delay := -1, stat_PADI_recv := 1 }, demo_serv, []) ∧
    (∃ pado : delayed_pado_t, pado.addr = h_source padi_empty_name ∧
      (pppoe_recv_PADI demo_globals_delay demo_serv padi_empty_name demo_now demo_now
        true false).2.1.pado_list = demo_serv.pado_list ++ [pado] ∧
      (pppoe_recv_PADI demo_globals_delay demo_serv padi_empty_name demo_now demo_now
        true false).2.2 = [action.timer_add pado]) ∧
    (pppoe_recv_PADI demo_globals_delay
      (pppoe_recv_PADI demo_globals_delay demo_serv padi_empty_name demo_now demo_now
        true false).2.1 padi_empty_name demo_now demo_now true false).2.2 = [] ∧
    (pado_timer { demo_globals with pado_delay := -1 }
      (pppoe_recv_PADI demo_globals_delay demo_serv padi_empty_name demo_now demo_now
        true false).2.1 demo_pado).2.2 =
      [action.sent_PADO demo_pado.addr demo_pado.host_uniq demo_pado.relay_sid
        demo_pado.service_name, action.timer_del demo_pado] :=
  ⟨rfl,
   (pado_queue_unique demo_serv rfl).1 _ _
     (pado_reachable.padi _ _ demo_globals_delay padi_empty_name demo_now demo_now true false
       trivial
       (pado_reachable.padi _ _ demo_globals_delay padi_empty_name demo_now demo_now true false
         trivial pado_reachable.start)),
   (pado_queue_unique demo_serv rfl).2.2.1 { demo_globals with pado_delay := -1 } demo_serv
     padi_empty_name demo_now demo_now true false rfl,
   ((pado_queue_unique demo_serv rfl).2.1 demo_globals_delay demo_serv padi_empty_name demo_now
     demo_now true false _ _ rfl (by decide) (by decide) rfl (by decide) (by decide)).2
     (by decide),
   congrArg (fun r => r.2.2)
     (((pado_queue_unique demo_serv rfl).2.1 demo_globals_delay
       (pppoe_recv_PADI demo_globals_delay demo_serv padi_empty_name demo_now demo_now
         true false).2.1 padi_empty_name demo_now demo_now true false _ _ rfl (by decide)
       (by decide) rfl (by decide) (by decide)).1 (by decide)).1,
   ((pado_queue_unique demo_serv rfl).2.2.2.2 { demo_globals with pado_delay := -1 }
     (pppoe_recv_PADI demo_globals_delay demo_serv padi_empty_name demo_now demo_now
       true false).2.1 demo_pado rfl).1⟩

/-- Claim C28, the clause on a delay of -1 as it is stated: the demo server queues an
entry for 02:00:00:00:00:01 under a delay of 100 ms; when the timer of that entry
expires after `pado_delay` has become -1, the PADO is sent all the same. -/
theorem pado_sent_at_delay_minus_one :
    (pppoe_recv_PADI demo_globals_delay demo_serv padi_empty_name demo_now demo_now
      true false).2.1.pado_list = [demo_pado] ∧
    ({ demo_globals with pado_delay := -1 } : globals).ppp_shutdown = 0 ∧
    ({ demo_globals with pado_delay := -1 } : globals).pado_delay = -1 ∧
    (pado_timer { demo_globals with pado_delay := -1 }
      (pppoe_recv_PADI demo_globals_delay demo_serv padi_empty_name demo_now demo_now
        true false).2.1 demo_pado).2.2 =
      [action.sent_PADO [2, 0, 0, 0, 0, 1] none none (some demo_tag),
       action.timer_del demo_pado] ∧
    (pado_timer { demo_globals with pado_delay := -1 }
      (pppoe_recv_PADI demo_globals_delay demo_serv padi_empty_name demo_now demo_now
        true false).2.1 demo_pado).1.stat_PADO_sent = 1 := by
  decide

/-! ## Teardown triggers -/

/-- Claim C30. The array of eight entries with the names `a`, `b`, `c` has its
non-null entries in front. Removing `a` returns 0 and stores the `NULL` found behind
the names in the first entry, so that the loops that stop at the first `NULL` find no
name at all, although `b` and `c` are still in the array; removing `b` leaves only
`a` in front of the first `NULL`. Removing the last name `c`, removing a name from a
full array (the last name takes the free place) and removing an absent name (-1, the
array as it was) do what the claim says. -/
theorem del_service_name_breaks_prefix :
    demo_names = [some [97], some [98], some [99], none, none, none, none, none] ∧
    pppoe_del_service_name demo_names [97] =
      (0, [none, some [98], some [99], none, none, none, none, none]) ∧
    names_until_null (pppoe_del_service_name demo_names [97]).2 = [] ∧
    pppoe_del_service_name demo_names [98] =
      (0, [some [97], none, some [99], none, none, none, none, none]) ∧
    names_until_null (pppoe_del_service_name demo_names [98]).2 = [[97]] ∧
    pppoe_del_service_name demo_names [99] =
      (0, [some [97], some [98], none, none, none, none, none, none]) ∧
    pppoe_del_service_name [some [97], some [98], some [99]] [97] =
      (0, [some [99], some [98], none]) ∧
    pppoe_del_service_name demo_names [100] = (-1, demo_names) := by
  decide

/-! ## The service name of a session -/

theorem padr_tag_case_service_name (g : globals) (pack : List Nat)
    (names : Option (List (Option (List Nat)))) (st : padr_locals) (tag : Nat) :
    (padr_tag_case g pack names st tag).service_name_tag =
      if decide (be16 pack tag = TAG_SERVICE_NAME) then some tag else st.service_name_tag := by
  unfold padr_tag_case
  simp only [TAG_END_OF_LIST, TAG_SERVICE_NAME, TAG_HOST_UNIQ, TAG_AC_COOKIE,
    TAG_RELAY_SESSION_ID, TAG_VENDOR_SPECIFIC, decide_eq_true_eq]
  split_ifs <;> first | rfl | omega | (split <;> first | rfl | (split_ifs <;> rfl))

/-- The SERVICE_NAME pointer of `pppoe_recv_PADR` after its tag loop. -/
theorem padr_service_name_tag (g : globals) (pack : List Nat)
    (names : Option (List (Option (List Nat)))) :
    (padr_tag_loop g pack names (hdr_length pack) 0 padr_locals_init).service_name_tag =
      last_tag pack TAG_SERVICE_NAME := by
  rw [padr_tag_loop_eq_foldl]
  have h := foldl_last_ptr (padr_tag_case g pack names) (fun st => st.service_name_tag)
    (fun t => decide (be16 pack t = TAG_SERVICE_NAME)) (padr_tag_case_service_name g pack names)
    (tag_offsets pack (hdr_length pack) 0) padr_locals_init
  simp only at h
  rw [h, last_tag]
  cases ((tag_offsets pack (hdr_length pack) 0).filter
    (fun t => decide (be16 pack t = TAG_SERVICE_NAME))).getLast? <;> rfl

/-- A frame with a tag of type `ty` has a last tag of that type. -/
theorem last_tag_of_mem (pack : List Nat) (ty t : Nat)
    (ht : t ∈ tag_offsets pack (hdr_length pack) 0) (hty : be16 pack t = ty) :
    ∃ u, last_tag pack ty = some u := by
  unfold last_tag
  have hm : t ∈ (tag_offsets pack (hdr_length pack) 0).filter (fun t => be16 pack t = ty) := by
    rw [List.mem_filter]; exact ⟨ht, by simpa using hty⟩
  cases hl : ((tag_offsets pack (hdr_length pack) 0).filter
      (fun t => decide (be16 pack t = ty))).getLast? with
  | some u => exact ⟨u, rfl⟩
  | none =>
    rw [List.getLast?_eq_none_iff] at hl
    rw [hl] at hm
    exact absurd hm (List.not_mem_nil _)

/-- The service check of `pppoe_recv_PADR` passes only when the loop has recorded a
SERVICE_NAME tag of the frame. -/
theorem padr_match_has_name (g : globals) (pack : List Nat)
    (names : Option (List (Option (List Nat))))
    (h : (padr_tag_loop g pack names (hdr_length pack) 0 padr_locals_init).service_match
      = true) :
    ∃ sn, (padr_tag_loop g pack names (hdr_length pack) 0 padr_locals_init).service_name_tag
        = some sn ∧
      sn ∈ tag_offsets pack (hdr_length pack) 0 ∧ be16 pack sn = TAG_SERVICE_NAME := by
  rw [padr_tag_loop_eq_foldl, padr_foldl_match] at h
  rcases h with h | ⟨tag, ht, hty, _⟩
  · simp [padr_locals_init] at h
  · obtain ⟨u, hu⟩ := last_tag_of_mem pack TAG_SERVICE_NAME tag ht hty
    refine ⟨u, ?_, last_tag_mem pack TAG_SERVICE_NAME u hu⟩
    rw [padr_service_name_tag, hu]

/-- Without a SERVICE_NAME tag in the frame the service check of `pppoe_recv_PADR`
fails. -/
theorem padr_no_name_no_match (g : globals) (pack : List Nat)
    (names : Option (List (Option (List Nat))))
    (hno : ∀ tag ∈ tag_offsets pack (hdr_length pack) 0, be16 pack tag ≠ TAG_SERVICE_NAME) :
    (padr_tag_loop g pack names (hdr_length pack) 0 padr_locals_init).service_match
      = false := by
  cases hm : (padr_tag_loop g pack names (hdr_length pack) 0 padr_locals_init).service_match with
  | false => rfl
  | true =>
    obtain ⟨sn, _, hmem, hty⟩ := padr_match_has_name g pack names hm
    exact absurd hty (hno sn hmem)

/-- A session that `allocate_channel` returns holds the service name handed over and
is in the list of the server. -/
theorem allocate_channel_service_name (M : Nat) (g : globals) (fuel : Nat) (alloc_ok : Bool)
    (serv : pppoe_serv_t) (addr : List Nat) (host_uniq relay_sid : Option pppoe_tag)
    (service_name : pppoe_tag) (tr101 : Option pppoe_tag) (cookie : List Nat)
    (serv1 : pppoe_serv_t) (conn : pppoe_conn_t)
    (h : allocate_channel M g fuel alloc_ok serv addr host_uniq relay_sid service_name tr101
      cookie = some (serv1, some conn)) :
    conn.service_name = service_name ∧ conn ∈ serv1.conn_list := by
  cases alloc_ok with
  | false =>
    simp [allocate_channel] at h
  | true =>
    cases hs : sid_scan M serv.conn serv.sid fuel (serv.sid + 1) with
    | none => simp [allocate_channel, hs] at h
    | some o =>
      cases o with
      | none => simp [allocate_channel, hs] at h
      | some sid =>
        simp only [allocate_channel, hs, Bool.not_true, Bool.false_eq_true, ↓reduceIte] at h
        split_ifs at h <;>
          first
          | (simp only [Option.some.injEq, Prod.mk.injEq] at h
             obtain ⟨h1, h2⟩ := h
             rw [← h1, ← h2]
             exact ⟨rfl, List.mem_append_right _ (List.mem_singleton_self _)⟩)
          | (simp at h)

/-- The handler `pppoe_recv_PADR` fails to return only from its last part, entered
after the service check has passed. -/
theorem pppoe_recv_PADR_none (c : crypto) (MAX_SID : Nat) (g : globals) (serv : pppoe_serv_t)
    (pack : List Nat) (fuel : Nat) (alloc_ok : Bool)
    (h : pppoe_recv_PADR c MAX_SID g serv pack fuel alloc_ok = none) :
    (padr_tag_loop { g with stat_PADR_recv := g.stat_PADR_recv + 1 } pack
      (effective_service_names g serv) (hdr_length pack) 0 padr_locals_init).service_match
        = true ∧
    ∃ ac, padr_accept MAX_SID { g with stat_PADR_recv := g.stat_PADR_recv + 1 } serv pack
      (padr_tag_loop { g with stat_PADR_recv := g.stat_PADR_recv + 1 } pack
        (effective_service_names g serv) (hdr_length pack) 0 padr_locals_init)
      (pack.drop (ac + TAG_HLEN)) fuel alloc_ok = none := by
  unfold pppoe_recv_PADR at h
  simp only [] at h
  have he : effective_service_names { g with stat_PADR_recv := g.stat_PADR_recv + 1 } serv =
      effective_service_names g serv := rfl
  rw [he] at h
  split_ifs at h with h1 h2 h3 h6
  all_goals split at h
  all_goals first
    | (simp at h; done)
    | (split_ifs at h; done)
    | skip
  rename_i ac _
  split_ifs at h with h4 h5
  refine ⟨?_, ac, h⟩
  simpa using h6

/-- The last part of `pppoe_recv_PADR` starts a new session only with a recorded
SERVICE_NAME tag, from which `allocate_channel` made the session. -/
theorem padr_accept_new_session (MAX_SID : Nat) (g : globals) (serv : pppoe_serv_t)
    (pack : List Nat) (st : padr_locals) (cookie : List Nat) (fuel : Nat) (alloc_ok : Bool)
    (r : globals × pppoe_serv_t × List action) (conn : pppoe_conn_t)
    (h : padr_accept MAX_SID g serv pack st cookie fuel alloc_ok = some r)
    (hc : action.call_connect_channel conn ∈ r.2.2) :
    ∃ sn, st.service_name_tag = some sn ∧
      allocate_channel MAX_SID g fuel alloc_ok serv (h_source pack)
        (st.host_uniq_tag.map (read_tag pack)) (st.relay_sid_tag.map (read_tag pack))
        (read_tag pack sn) (st.tr101_tag.map (read_tag pack)) cookie = some (r.2.1, some conn) := by
  unfold padr_accept at h
  split at h
  · split_ifs at h
    · simp only [pppoe_send_PADS, Option.some.injEq] at h
      rw [← h] at hc; simp at hc
    · simp only [Option.some.injEq] at h
      rw [← h] at hc; simp at hc
  · split at h
    · simp at h
    · rename_i sn hsn
      refine ⟨sn, hsn, ?_⟩
      split at h
      · simp at h
      · simp only [pppoe_send_err, Option.some.injEq] at h
        rw [← h] at hc; simp at hc
      · rename_i serv1 conn1 hal
        simp only [pppoe_send_PADS, Option.some.injEq] at h
        rw [← h] at hc ⊢
        simp at hc
        rw [hal, hc]

/-- The handler `pppoe_recv_PADR`, when it returns, has either left the server as it
was and started no session, or gone through its last part after the service check
passed. -/
theorem pppoe_recv_PADR_some (c : crypto) (MAX_SID : Nat) (g : globals) (serv : pppoe_serv_t)
    (pack : List Nat) (fuel : Nat) (alloc_ok : Bool) (r : globals × pppoe_serv_t × List action)
    (h : pppoe_recv_PADR c MAX_SID g serv pack fuel alloc_ok = some r) :
    (r.2.1 = serv ∧ ∀ conn, action.call_connect_channel conn ∉ r.2.2) ∨
    ((padr_tag_loop { g with stat_PADR_recv := g.stat_PADR_recv + 1 } pack
      (effective_service_names g serv) (hdr_length pack) 0 padr_locals_init).service_match
        = true ∧
     ∃ ac, padr_accept MAX_SID { g with stat_PADR_recv := g.stat_PADR_recv + 1 } serv pack
      (padr_tag_loop { g with stat_PADR_recv := g.stat_PADR_recv + 1 } pack
        (effective_service_names g serv) (hdr_length pack) 0 padr_locals_init)
      (pack.drop (ac + TAG_HLEN)) fuel alloc_ok = some r) := by
  unfold pppoe_recv_PADR at h
  simp only [] at h
  have he : effective_service_names { g with stat_PADR_recv := g.stat_PADR_recv + 1 } serv =
      effective_service_names g serv := rfl
  rw [he] at h
  split_ifs at h with h1 h2 h3 h6
  all_goals try split at h
  all_goals try split_ifs at h with h4 h5
  all_goals first
    | (left
       simp only [pppoe_send_err, Option.some.injEq] at h
       rw [← h]
       exact ⟨rfl, by simp⟩)
    | (right
       rename_i ac _
       exact ⟨by simpa using h6, ac, h⟩)

/-- When the service check fails, `pppoe_recv_PADR` returns with the server as it was
and has sent nothing or the service name error. -/
theorem pppoe_recv_PADR_no_match (c : crypto) (MAX_SID : Nat) (g : globals)
    (serv : pppoe_serv_t) (pack : List Nat) (fuel : Nat) (alloc_ok : Bool)
    (hm : (padr_tag_loop { g with stat_PADR_recv := g.stat_PADR_recv + 1 } pack
      (effective_service_names g serv) (hdr_length pack) 0 padr_locals_init).service_match
        = false) :
    ∃ acts, pppoe_recv_PADR c MAX_SID g serv pack fuel alloc_ok =
        some ({ g with stat_PADR_recv := g.stat_PADR_recv + 1 }, serv, acts) ∧
      (acts = [] ∨ ∃ host_uniq relay_sid,
        acts = [action.sent_err (h_source pack) host_uniq relay_sid CODE_PADS
          TAG_SERVICE_NAME_ERROR]) := by
  unfold pppoe_recv_PADR
  simp only []
  have he : effective_service_names { g with stat_PADR_recv := g.stat_PADR_recv + 1 } serv =
      effective_service_names g serv := rfl
  rw [he, hm]
  simp only [Bool.not_false, ↓reduceIte]
  split_ifs
  all_goals try split
  all_goals try split_ifs
  all_goals first
    | exact ⟨_, rfl, Or.inl rfl⟩
    | exact ⟨_, rfl, Or.inr ⟨_, _, rfl⟩⟩

/-- Claim C32. In `pppoe_recv_PADR` the service check passes only when the tag loop
has recorded a SERVICE_NAME tag of the frame. The handler fails to return only when
`allocate_channel`, called with the last SERVICE_NAME tag of the frame, does not
return, never because that tag is absent. A session the handler starts holds a copy
of the last SERVICE_NAME tag of the frame and is in the list of the server. For a
PADR without a SERVICE_NAME tag the handler returns with the server as it was,
having sent nothing or the service name error. -/
theorem padr_session_service_name (c : crypto) (MAX_SID : Nat) (g : globals)
    (serv : pppoe_serv_t) (pack : List Nat) (fuel : Nat) (alloc_ok : Bool) :
    ((padr_tag_loop { g with stat_PADR_recv := g.stat_PADR_recv + 1 } pack
        (effective_service_names g serv) (hdr_length pack) 0 padr_locals_init).service_match
          = true →
      ∃ sn, (padr_tag_loop { g with stat_PADR_recv := g.stat_PADR_recv + 1 } pack
          (effective_service_names g serv) (hdr_length pack) 0
          padr_locals_init).service_name_tag = some sn ∧
        sn ∈ tag_offsets pack (hdr_length pack) 0 ∧ be16 pack sn = TAG_SERVICE_NAME) ∧
    (pppoe_recv_PADR c MAX_SID g serv pack fuel alloc_ok = none →
      ∃ sn ac, last_tag pack TAG_SERVICE_NAME = some sn ∧
        allocate_channel MAX_SID { g with stat_PADR_recv := g.stat_PADR_recv + 1 } fuel
          alloc_ok serv (h_source pack) ((last_tag pack TAG_HOST_UNIQ).map (read_tag pack))
          ((last_tag pack TAG_RELAY_SESSION_ID).map (read_tag pack)) (read_tag pack sn)
          ((padr_tag_loop { g with stat_PADR_recv := g.stat_PADR_recv + 1 } pack
            (effective_service_names g serv) (hdr_length pack) 0
            padr_locals_init).tr101_tag.map (read_tag pack))
          (pack.drop (ac + TAG_HLEN)) = none) ∧
    (∀ r conn, pppoe_recv_PADR c MAX_SID g serv pack fuel alloc_ok = some r →
      action.call_connect_channel conn ∈ r.2.2 →
      ∃ sn, last_tag pack TAG_SERVICE_NAME = some sn ∧ be16 pack sn = TAG_SERVICE_NAME ∧
        conn.service_name = read_tag pack sn ∧ conn ∈ r.2.1.conn_list) ∧
    ((∀ tag ∈ tag_offsets pack (hdr_length pack) 0, be16 pack tag ≠ TAG_SERVICE_NAME) →
      ∃ acts, pppoe_recv_PADR c MAX_SID g serv pack fuel alloc_ok =
          some ({ g with stat_PADR_recv := g.stat_PADR_recv + 1 }, serv, acts) ∧
        (acts = [] ∨ ∃ host_uniq relay_sid,
          acts = [action.sent_err (h_source pack) host_uniq relay_sid CODE_PADS
            TAG_SERVICE_NAME_ERROR])) := by
  refine ⟨fun h => padr_match_has_name _ pack _ h, ?_, ?_, ?_⟩
  · intro h
    obtain ⟨hm, ac, hacc⟩ := pppoe_recv_PADR_none c MAX_SID g serv pack fuel alloc_ok h
    obtain ⟨sn, hsn, _, _⟩ := padr_match_has_name _ pack _ hm
    refine ⟨sn, ac, by rw [← hsn, padr_service_name_tag], ?_⟩
    unfold padr_accept at hacc
    rw [hsn, padr_host_uniq_tag, padr_relay_sid_tag] at hacc
    split at hacc
    · split_ifs at hacc
    · simp only [] at hacc
      split at hacc
      · assumption
      · simp at hacc
      · simp at hacc
  · intro r conn h hc
    rcases pppoe_recv_PADR_some c MAX_SID g serv pack fuel alloc_ok r h with ⟨_, hno⟩ | ⟨_, ac, hacc⟩
    · exact absurd hc (hno conn)
    · obtain ⟨sn, hsn, hal⟩ := padr_accept_new_session MAX_SID _ serv pack _ _ fuel alloc_ok r conn
        hacc hc
      rw [padr_service_name_tag] at hsn
      obtain ⟨h1, h2⟩ := allocate_channel_service_name _ _ _ _ _ _ _ _ _ _ _ _ _ hal
      exact ⟨sn, hsn, (last_tag_mem pack TAG_SERVICE_NAME sn hsn).2, h1, h2⟩
  · intro hno
    exact pppoe_recv_PADR_no_match c MAX_SID g serv pack fuel alloc_ok
      (padr_no_name_no_match _ pack _ hno)

/-- Claim C32 on the demo server: the PADR with only a cookie is answered with the
service name error and leaves the server as it was; the session that the PADR with an
empty SERVICE_NAME starts holds a copy of that tag and is in the list of the
server. -/
theorem padr_session_service_name_witness :
    (∃ acts, pppoe_recv_PADR demo_crypto 65534 demo_globals demo_serv padr_no_name 10 true =
        some ({ demo_globals with stat_PADR_recv := 1 }, demo_serv, acts) ∧
      (acts = [] ∨ ∃ host_uniq relay_sid,
        acts = [action.sent_err (h_source padr_no_name) host_uniq relay_sid CODE_PADS
          TAG_SERVICE_NAME_ERROR])) ∧
    (∃ sn, last_tag (padr_with_name []) TAG_SERVICE_NAME = some sn ∧
      be16 (padr_with_name []) sn = TAG_SERVICE_NAME ∧
      demo_session.service_name = read_tag (padr_with_name []) sn ∧
      demo_session ∈ demo_after_padr.2.1.conn_list) :=
  ⟨(padr_session_service_name demo_crypto 65534 demo_globals demo_serv padr_no_name 10
      true).2.2.2 (by decide),
   (padr_session_service_name demo_crypto 65534 demo_globals demo_serv (padr_with_name []) 10
      true).2.2.1 demo_after_padr demo_session rfl (by decide)⟩

/-! ## The counter of active sessions -/

theorem countP_replace (p : pppoe_conn_t → Bool) (conn conn1 : pppoe_conn_t) :
    ∀ l : List pppoe_conn_t, l.Nodup → conn ∈ l →
      (l.map (fun c => if c = conn then conn1 else c)).countP p + (if p conn then 1 else 0) =
        l.countP p + (if p conn1 then 1 else 0) := by
  intro l
  induction l with
  | nil => intro _ h; exact absurd h (List.not_mem_nil _)
  | cons x xs ih =>
    intro hnd hmem
    rw [List.nodup_cons] at hnd
    obtain ⟨hx, hxs⟩ := hnd
    by_cases hxc : x = conn
    · subst hxc
      have hmap : xs.map (fun c => if c = x then conn1 else c) = xs := by
        have : ∀ y ∈ xs, (fun c => if c = x then conn1 else c) y = id y := by
          intro y hy
          have : y ≠ x := fun h => hx (h ▸ hy)
          simp [this]
        rw [List.map_congr_left this, List.map_id]
      rw [List.map_cons, hmap]
      simp only [↓reduceIte, List.countP_cons]
      omega
    · have hm : conn ∈ xs := by
        rcases List.mem_cons.mp hmem with h | h
        · exact absurd h.symm hxc
        · exact h
      have := ih hxs hm
      rw [List.map_cons]
      simp only [hxc, ↓reduceIte, List.countP_cons]
      omega

theorem countP_erase_mem (p : pppoe_conn_t → Bool) (conn : pppoe_conn_t)
    (l : List pppoe_conn_t) (h : conn ∈ l) :
    (l.erase conn).countP p + (if p conn then 1 else 0) = l.countP p := by
  rw [(List.perm_cons_erase h).countP_eq p, List.countP_cons]

/-- The number of occupied slots of a table of `M` slots is at most `M`. -/
theorem occupied_le (M : Nat) (conn : Nat → Option pppoe_conn_t) : occupied M conn ≤ M := by
  unfold occupied
  calc ((List.range M).filter (fun i => (conn i).isSome)).length
      ≤ (List.range M).length := List.length_filter_le _ _
    _ = M := List.length_range M

/-- A server has at most `M` sessions with `ppp_started` set. -/
theorem started_count_le (M : Nat) (s : pppoe_serv_t) (h : session_inv M s) :
    started_count s ≤ M := by
  have h1 : started_count s ≤ s.conn_list.length := List.countP_le_length _
  have h2 := h.table.length
  have h3 := h.table.count
  have h4 := occupied_le M s.conn
  omega

theorem session_inv_fresh (M : Nat) (s : pppoe_serv_t) (hM : 2 ≤ M) (h0 : fresh_table s) :
    session_inv M s := by
  refine ⟨table_inv_fresh M s hM h0, ?_, ?_⟩
  · intro c hc; rw [h0.2.2.2] at hc; exact absurd hc (List.not_mem_nil _)
  · rw [h0.2.2.2]; exact List.nodup_nil

/-- Writing a field of a session other than `sid` and `serv` keeps the invariant. -/
theorem session_inv_store (M : Nat) (s : pppoe_serv_t) (conn conn1 : pppoe_conn_t)
    (h : session_inv M s) (hmem : conn ∈ s.conn_list) (hsid : conn1.sid = conn.sid)
    (hserv : conn1.serv = conn.serv) : session_inv M (store_conn s conn conn1) := by
  have hslot := h.listed conn hmem
  refine ⟨⟨?_, h.table.cursor, ?_, ?_, h.table.owner⟩, ?_, ?_⟩
  · intro i c hc
    simp only [store_conn] at hc ⊢
    by_cases hi : s.conn i = some conn
    · simp only [hi, ↓reduceIte, Option.some.injEq] at hc
      obtain ⟨a, b, d, e, _⟩ := h.table.slot i conn hi
      subst hc
      refine ⟨by rw [hsid]; exact a, by rw [hserv]; exact b, d, e, ?_⟩
      exact List.mem_map.mpr ⟨conn, hmem, by simp⟩
    · simp only [hi, ↓reduceIte] at hc
      obtain ⟨a, b, d, e, f⟩ := h.table.slot i c hc
      refine ⟨a, b, d, e, List.mem_map.mpr ⟨c, f, ?_⟩⟩
      have : c ≠ conn := fun heq => hi (heq ▸ hc)
      simp [this]
  · have : occupied M (store_conn s conn conn1).conn = occupied M s.conn := by
      unfold occupied
      congr 1
      apply List.filter_congr
      intro j _
      simp only [store_conn]
      by_cases hj : s.conn j = some conn
      · simp [hj]
      · simp [hj]
    show s.conn_cnt = _
    rw [this]; exact h.table.count
  · show s.conn_cnt = _
    simp only [store_conn, List.length_map]
    exact h.table.length
  · intro c hc
    simp only [store_conn] at hc ⊢
    obtain ⟨c0, hc0, hf⟩ := List.mem_map.mp hc
    by_cases he : c0 = conn
    · simp only [he, ↓reduceIte] at hf
      subst hf
      rw [hsid, hslot]; simp
    · simp only [he, ↓reduceIte] at hf
      subst hf
      have h1 := h.listed c0 hc0
      have : s.conn c0.sid ≠ some conn := by
        rw [h1]; intro heq; exact he (Option.some.inj heq)
      rw [if_neg this]; exact h1
  · simp only [store_conn]
    refine List.Nodup.map_on ?_ h.nodup
    intro x hx y hy hxy
    by_cases hxc : x = conn
    · by_cases hyc : y = conn
      · rw [hxc, hyc]
      · simp only [hxc, hyc, ↓reduceIte] at hxy
        exfalso
        have h1 := h.listed y hy
        rw [← hxy, hsid, hslot] at h1
        exact hyc (hxy.symm.trans (Option.some.inj h1).symm)
    · by_cases hyc : y = conn
      · simp only [hxc, hyc, ↓reduceIte] at hxy
        exfalso
        have h1 := h.listed x hx
        rw [hxy, hsid, hslot] at h1
        exact hxc (hxy.trans (Option.some.inj h1).symm)
      · simpa [hxc, hyc] using hxy

theorem started_count_store (M : Nat) (s : pppoe_serv_t) (conn conn1 : pppoe_conn_t)
    (h : session_inv M s) (hmem : conn ∈ s.conn_list) :
    started_count (store_conn s conn conn1) + (if conn.ppp_started then 1 else 0) =
      started_count s + (if conn1.ppp_started then 1 else 0) := by
  have := countP_replace (fun c => c.ppp_started) conn conn1 s.conn_list h.nodup hmem
  simpa [started_count, store_conn] using this

/-- A call of `allocate_channel` that returns `NULL` leaves the server as it was. -/
theorem allocate_channel_none_eq (M : Nat) (ptr : Nat) (s s1 : pppoe_serv_t) (g : globals)
    (fuel : Nat) (alloc_ok : Bool) (addr : List Nat) (host_uniq relay_sid : Option pppoe_tag)
    (service_name : pppoe_tag) (tr101 : Option pppoe_tag) (cookie : List Nat)
    (hM : 2 ≤ M) (hM2 : M ≤ 65536) (hinv : table_inv M ptr s)
    (h : allocate_channel M g fuel alloc_ok s addr host_uniq relay_sid service_name tr101
      cookie = some (s1, none)) : s1 = s := by
  unfold allocate_channel at h
  cases alloc_ok with
  | false => simp at h; exact h.symm
  | true =>
    simp only [Bool.not_true, Bool.false_eq_true, ↓reduceIte] at h
    cases hs : sid_scan M s.conn s.sid fuel (s.sid + 1) with
    | none => simp [hs] at h
    | some r =>
      cases r with
      | none => simp [hs] at h; exact h.symm
      | some sid =>
        obtain ⟨_, h1, hsM, _⟩ := sid_scan_found M s.conn s.sid hM fuel (s.sid + 1) sid
          (by omega) (by have := hinv.cursor; omega) hs
        have hmod : sid % 65536 = sid := Nat.mod_eq_of_lt (by omega)
        simp only [hs, hmod] at h
        split at h
        · omega
        · simp at h

/-- A session that `allocate_channel` returns has `ppp_started` clear. -/
theorem allocate_channel_not_started (M : Nat) (g : globals) (fuel : Nat) (alloc_ok : Bool)
    (serv : pppoe_serv_t) (addr : List Nat) (host_uniq relay_sid : Option pppoe_tag)
    (service_name : pppoe_tag) (tr101 : Option pppoe_tag) (cookie : List Nat)
    (serv1 : pppoe_serv_t) (conn : pppoe_conn_t)
    (h : allocate_channel M g fuel alloc_ok serv addr host_uniq relay_sid service_name tr101
      cookie = some (serv1, some conn)) :
    conn.ppp_started = false := by
  cases alloc_ok with
  | false =>
    simp [allocate_channel] at h
  | true =>
    cases hs : sid_scan M serv.conn serv.sid fuel (serv.sid + 1) with
    | none => simp [allocate_channel, hs] at h
    | some o =>
      cases o with
      | none => simp [allocate_channel, hs] at h
      | some sid =>
        simp only [allocate_channel, hs, Bool.not_true, Bool.false_eq_true, ↓reduceIte] at h
        split_ifs at h <;>
          first
          | (simp only [Option.some.injEq, Prod.mk.injEq] at h
             obtain ⟨h1, h2⟩ := h
             rw [← h2])
          | (simp at h)

theorem session_inv_alloc (M : Nat) (s s1 : pppoe_serv_t) (g : globals) (fuel : Nat)
    (alloc_ok : Bool) (addr : List Nat) (host_uniq relay_sid : Option pppoe_tag)
    (service_name : pppoe_tag) (tr101 : Option pppoe_tag) (cookie : List Nat)
    (r : Option pppoe_conn_t) (hM : 2 ≤ M) (hM2 : M ≤ 65536) (hinv : session_inv M s)
    (h : allocate_channel M g fuel alloc_ok s addr host_uniq relay_sid service_name tr101
      cookie = some (s1, r)) :
    session_inv M s1 ∧ started_count s1 = started_count s := by
  cases r with
  | none =>
    rw [allocate_channel_none_eq M s.ptr s s1 g fuel alloc_ok addr host_uniq relay_sid
      service_name tr101 cookie hM hM2 hinv.table h]
    exact ⟨hinv, rfl⟩
  | some c =>
    have ht := table_inv_alloc M s.ptr s s1 g fuel alloc_ok addr host_uniq relay_sid
      service_name tr101 cookie (some c) hM hM2 hinv.table h
    have hflag := allocate_channel_not_started M g fuel alloc_ok s addr host_uniq relay_sid
      service_name tr101 cookie s1 c h
    obtain ⟨hscan, hserv, hs1⟩ := allocate_channel_some M g fuel alloc_ok s addr host_uniq
      relay_sid service_name tr101 cookie s1 c hM hM2 hinv.table.cursor h
    obtain ⟨hnone, h1, hlt, _⟩ := sid_scan_found M s.conn s.sid hM fuel (s.sid + 1) c.sid
      (by omega) (by have := hinv.table.cursor; omega) hscan
    have hnot : ∀ x ∈ s.conn_list, x.sid ≠ c.sid := by
      intro x hx heq
      have := hinv.listed x hx
      rw [heq, hnone] at this
      exact absurd this (by simp)
    have hptr : s1.ptr = s.ptr := ht.owner
    refine ⟨⟨by rw [hptr]; exact ht, ?_, ?_⟩, ?_⟩
    · intro x hx
      rw [hs1] at hx ⊢
      simp only [List.mem_append, List.mem_singleton] at hx
      rcases hx with hx | hx
      · simp only [Function.update_noteq (hnot x hx)]
        exact hinv.listed x hx
      · subst hx
        simp only [Function.update_same]
    · rw [hs1]
      simp only
      rw [List.nodup_append]
      refine ⟨hinv.nodup, List.nodup_singleton c, ?_⟩
      intro x hx hx2
      rw [List.mem_singleton] at hx2
      exact hnot x hx (by rw [hx2])
    · rw [hs1]
      simp [started_count, List.countP_append, hflag]

theorem session_inv_disc (M : Nat) (g : globals) (s : pppoe_serv_t) (conn : pppoe_conn_t)
    (h : session_inv M s) (hmem : conn ∈ s.conn_list) :
    session_inv M (disconnect g conn s).2.1 ∧
    started_count (disconnect g conn s).2.1 + (if conn.ppp_started then 1 else 0) =
      started_count s := by
  have hslot := h.listed conn hmem
  have ht := table_inv_disc M s.ptr s g conn.sid conn h.table hslot
  refine ⟨⟨ht, ?_, ?_⟩, ?_⟩
  · intro c hc
    simp only [disconnect] at hc ⊢
    have hc2 := (List.Nodup.mem_erase_iff h.nodup).mp hc
    have h1 := h.listed c hc2.2
    have hne : c.sid ≠ conn.sid := by
      intro heq
      rw [heq, hslot] at h1
      exact hc2.1 (Option.some.inj h1).symm
    rw [Function.update_noteq hne]; exact h1
  · simp only [disconnect]
    exact h.nodup.erase _
  · have := countP_erase_mem (fun c => c.ppp_started) conn s.conn_list hmem
    simpa [started_count, disconnect] using this

theorem total_started_split (pre post : List pppoe_serv_t) (s : pppoe_serv_t) :
    total_started (pre ++ s :: post) =
      total_started pre + started_count s + total_started post := by
  simp only [total_started, List.map_append, List.map_cons, List.sum_append, List.sum_cons]
  omega

theorem total_started_le (M : Nat) :
    ∀ servs : List pppoe_serv_t, (∀ s ∈ servs, session_inv M s) →
      total_started servs ≤ servs.length * M := by
  intro servs
  induction servs with
  | nil => intro _; simp [total_started]
  | cons x xs ih =>
    intro h
    have h1 := started_count_le M x (h x (List.mem_cons_self _ _))
    have h2 := ih (fun s hs => h s (List.mem_cons_of_mem _ hs))
    simp only [total_started, List.map_cons, List.sum_cons, List.length_cons] at h2 ⊢
    rw [Nat.add_mul]
    omega

theorem total_started_fresh :
    ∀ servs : List pppoe_serv_t, (∀ s ∈ servs, fresh_table s) → total_started servs = 0 := by
  intro servs
  induction servs with
  | nil => intro _; rfl
  | cons x xs ih =>
    intro h
    have h1 : started_count x = 0 := by
      unfold started_count
      rw [(h x (List.mem_cons_self _ _)).2.2.2]; rfl
    have h2 := ih (fun s hs => h s (List.mem_cons_of_mem _ hs))
    simp only [total_started, List.map_cons, List.sum_cons] at h2 ⊢
    omega

/-- Replacing one server by another one that satisfies the invariant. -/
theorem session_inv_replace (M : Nat) (pre post : List pppoe_serv_t) (s s1 : pppoe_serv_t)
    (h : ∀ x ∈ pre ++ s :: post, session_inv M x) (h1 : session_inv M s1) :
    (∀ x ∈ pre ++ s1 :: post, session_inv M x) ∧
    (pre ++ s1 :: post).length = (pre ++ s :: post).length := by
  refine ⟨?_, by simp⟩
  intro x hx
  rcases List.mem_append.mp hx with hx | hx
  · exact h x (List.mem_append_left _ hx)
  · rcases List.mem_cons.mp hx with hx | hx
    · rw [hx]; exact h1
    · exact h x (List.mem_append_right _ (List.mem_cons_of_mem _ hx))

theorem disconnect_stat_active (g : globals) (conn : pppoe_conn_t) (s : pppoe_serv_t) :
    (disconnect g conn s).1.stat_active =
      if conn.ppp_started then (g.stat_active + 2 ^ 32 - 1) % 2 ^ 32 else g.stat_active := by
  by_cases hf : conn.ppp_started = true
  · simp only [disconnect, hf, ↓reduceIte]
  · simp only [disconnect, hf, Bool.false_eq_true, ↓reduceIte]

/-- What `connect_channel` does to the sessions of a server and to the counter. -/
theorem connect_channel_step (M : Nat) (g : globals) (s : pppoe_serv_t) (conn : pppoe_conn_t)
    (ok : Bool) (h : session_inv M s) (hmem : conn ∈ s.conn_list)
    (hflag : conn.ppp_started = false) :
    session_inv M (connect_channel g conn s ok).2.1 ∧
    started_count (connect_channel g conn s ok).2.1 = started_count s + (if ok then 1 else 0) ∧
    (connect_channel g conn s ok).1.stat_active =
      if ok then (g.stat_active + 1) % 2 ^ 32 else g.stat_active := by
  cases ok with
  | true =>
    have h1 := session_inv_store M s conn { conn with ppp_started := true } h hmem rfl rfl
    have h2 := started_count_store M s conn { conn with ppp_started := true } h hmem
    simp only [hflag, Bool.false_eq_true, ↓reduceIte, Nat.add_zero] at h2
    exact ⟨h1, h2, rfl⟩
  | false =>
    obtain ⟨h1, h2⟩ := session_inv_disc M g s conn h hmem
    simp only [hflag, Bool.false_eq_true, ↓reduceIte, Nat.add_zero] at h2
    refine ⟨h1, by simpa [connect_channel] using h2, ?_⟩
    simp only [connect_channel, Bool.false_eq_true, ↓reduceIte, disconnect_stat_active, hflag]

/-- What `ppp_finished` does to the sessions of a server and to the counter. -/
theorem ppp_finished_step (M : Nat) (g : globals) (s : pppoe_serv_t) (conn : pppoe_conn_t)
    (h : session_inv M s) (hmem : conn ∈ s.conn_list) :
    session_inv M (ppp_finished g conn s).2.1 ∧
    started_count (ppp_finished g conn s).2.1 + (if conn.ppp_started then 1 else 0) =
      started_count s ∧
    (ppp_finished g conn s).1.stat_active =
      if conn.ppp_started then (g.stat_active + 2 ^ 32 - 1) % 2 ^ 32 else g.stat_active := by
  cases hf : conn.ppp_started with
  | true =>
    have h1 := session_inv_store M s conn { conn with ppp_started := false } h hmem rfl rfl
    have h2 := started_count_store M s conn { conn with ppp_started := false } h hmem
    simp only [hf, ↓reduceIte, Bool.false_eq_true, Nat.add_zero] at h2
    have e : (ppp_finished g conn s).2.1 = store_conn s conn { conn with ppp_started := false } := by
      simp [ppp_finished, hf, store_conn]
    rw [e]
    refine ⟨h1, by simpa using h2, ?_⟩
    simp [ppp_finished, hf]
  | false =>
    have e : ppp_finished g conn s = (g, s, []) := by simp [ppp_finished, hf]
    rw [e]
    exact ⟨h, by simp, by simp⟩

/-- What `pppoe_conn_close` does to the sessions of a server and to the counter. -/
theorem pppoe_conn_close_step (M : Nat) (g : globals) (s : pppoe_serv_t) (conn : pppoe_conn_t)
    (h : session_inv M s) (hmem : conn ∈ s.conn_list) :
    session_inv M (pppoe_conn_close g conn s).2.1 ∧
    started_count (pppoe_conn_close g conn s).2.1 = started_count s ∧
    (pppoe_conn_close g conn s).1.stat_active = g.stat_active := by
  cases hf : conn.ppp_started with
  | true =>
    have e : pppoe_conn_close g conn s =
        (g, s, [action.ppp_terminate conn term_cause.TERM_ADMIN_RESET 0]) := by
      simp [pppoe_conn_close, hf]
    rw [e]
    exact ⟨h, rfl, rfl⟩
  | false =>
    have e : pppoe_conn_close g conn s = disconnect g conn s := by
      simp [pppoe_conn_close, hf]
    obtain ⟨h1, h2⟩ := session_inv_disc M g s conn h hmem
    simp only [hf, Bool.false_eq_true, ↓reduceIte, Nat.add_zero] at h2
    rw [e]
    refine ⟨h1, h2, ?_⟩
    simp only [disconnect_stat_active, hf, Bool.false_eq_true, ↓reduceIte]

/-- The invariant of the daemon in every reachable state: every server satisfies the
invariant of its sessions, no server came or went, and the counter is the number of
sessions with `ppp_started` set. -/
theorem active_inv_reachable (M : Nat) (g0 g : globals) (servs0 servs : List pppoe_serv_t)
    (hM : 2 ≤ M) (hM2 : M ≤ 65536) (h0 : ∀ s ∈ servs0, fresh_table s)
    (hg0 : g0.stat_active = 0) (hN : servs0.length * M < 2 ^ 32)
    (hr : active_reachable M g0 servs0 g servs) :
    (∀ s ∈ servs, session_inv M s) ∧ servs.length = servs0.length ∧
    g.stat_active = total_started servs := by
  have h32 : (2 : Nat) ^ 32 = 4294967296 := by norm_num
  rw [h32] at hN
  induction hr with
  | start =>
    exact ⟨fun s hs => session_inv_fresh M s hM (h0 s hs), rfl,
      by rw [hg0, total_started_fresh servs0 h0]⟩
  | alloc g pre post s s1 fuel alloc_ok addr host_uniq relay_sid service_name tr101 cookie r _
      hal ih =>
    obtain ⟨hinv, hlen, hcnt⟩ := ih
    have hs := hinv s (List.mem_append_right _ (List.mem_cons_self _ _))
    obtain ⟨h1, h2⟩ := session_inv_alloc M s s1 g fuel alloc_ok addr host_uniq relay_sid
      service_name tr101 cookie r hM hM2 hs hal
    obtain ⟨ha, hb⟩ := session_inv_replace M pre post s s1 hinv h1
    refine ⟨ha, hb.trans hlen, ?_⟩
    rw [hcnt, total_started_split, total_started_split, h2]
  | connect g pre post s conn ok _ hmem hflag ih =>
    obtain ⟨hinv, hlen, hcnt⟩ := ih
    have hs := hinv s (List.mem_append_right _ (List.mem_cons_self _ _))
    obtain ⟨h1, h2, h3⟩ := connect_channel_step M g s conn ok hs hmem hflag
    obtain ⟨ha, hb⟩ := session_inv_replace M pre post s _ hinv h1
    refine ⟨ha, hb.trans hlen, ?_⟩
    have hle := total_started_le M _ ha
    rw [hb, hlen] at hle
    rw [total_started_split] at hcnt hle ⊢
    rw [h3, h2, h32] at *
    cases ok with
    | true =>
      simp only [↓reduceIte] at hle ⊢
      omega
    | false =>
      simp only [Bool.false_eq_true, ↓reduceIte] at hle ⊢
      omega
  | finished g pre post s conn _ hmem ih =>
    obtain ⟨hinv, hlen, hcnt⟩ := ih
    have hs := hinv s (List.mem_append_right _ (List.mem_cons_self _ _))
    obtain ⟨h1, h2, h3⟩ := ppp_finished_step M g s conn hs hmem
    obtain ⟨ha, hb⟩ := session_inv_replace M pre post s _ hinv h1
    refine ⟨ha, hb.trans hlen, ?_⟩
    have hle := total_started_le M _ hinv
    rw [hlen] at hle
    rw [total_started_split] at hcnt hle ⊢
    rw [h3, h32]
    cases hf : conn.ppp_started with
    | true =>
      simp only [hf, ↓reduceIte] at h2 ⊢
      omega
    | false =>
      simp only [hf, Bool.false_eq_true, ↓reduceIte] at h2 ⊢
      omega
  | close g pre post s conn _ hmem ih =>
    obtain ⟨hinv, hlen, hcnt⟩ := ih
    have hs := hinv s (List.mem_append_right _ (List.mem_cons_self _ _))
    obtain ⟨h1, h2, h3⟩ := pppoe_conn_close_step M g s conn hs hmem
    obtain ⟨ha, hb⟩ := session_inv_replace M pre post s _ hinv h1
    refine ⟨ha, hb.trans hlen, ?_⟩
    rw [total_started_split] at hcnt ⊢
    rw [h3, h2, hcnt]
  | disc g pre post s conn _ hmem ih =>
    obtain ⟨hinv, hlen, hcnt⟩ := ih
    have hs := hinv s (List.mem_append_right _ (List.mem_cons_self _ _))
    obtain ⟨h1, h2⟩ := session_inv_disc M g s conn hs hmem
    obtain ⟨ha, hb⟩ := session_inv_replace M pre post s _ hinv h1
    refine ⟨ha, hb.trans hlen, ?_⟩
    have hle := total_started_le M _ hinv
    rw [hlen] at hle
    rw [total_started_split] at hcnt hle ⊢
    rw [disconnect_stat_active, h32]
    cases hf : conn.ppp_started with
    | true =>
      simp only [hf, ↓reduceIte] at h2 ⊢
      omega
    | false =>
      simp only [hf, Bool.false_eq_true, ↓reduceIte] at h2 ⊢
      omega

/-- Claim C31. From servers with empty tables and a counter of 0, with fewer than
2^32 slots in all tables together, every state reached by calls of
`allocate_channel`, `connect_channel`, `ppp_finished`, `pppoe_conn_close` and
`disconnect` has `stat_active` equal to the number of sessions whose `ppp_started`
is set. For a session with the flag set the counter is at least 1; `disconnect` and
`ppp_finished` lower the counter and the number of flagged sessions by one each
(the session leaves the list, or its flag is cleared), and `pppoe_conn_close` changes
nothing. For a session with the flag clear `disconnect`, `ppp_finished` and
`pppoe_conn_close` leave the counter and the number as they are, a successful
`connect_channel` raises both by one and a failed one is a `disconnect`. -/
theorem active_counter_invariant (M : Nat) (g0 : globals) (servs0 : List pppoe_serv_t)
    (hM : 2 ≤ M) (hM2 : M ≤ 65536) (h0 : ∀ s ∈ servs0, fresh_table s)
    (hg0 : g0.stat_active = 0) (hN : servs0.length * M < 2 ^ 32)
    (g : globals) (servs : List pppoe_serv_t) (hr : active_reachable M g0 servs0 g servs) :
    g.stat_active = total_started servs ∧
    ∀ pre post s conn, servs = pre ++ s :: post → conn ∈ s.conn_list →
      (conn.ppp_started = true →
        1 ≤ g.stat_active ∧
        (disconnect g conn s).1.stat_active + 1 = g.stat_active ∧
        started_count (disconnect g conn s).2.1 + 1 = started_count s ∧
        conn ∉ (disconnect g conn s).2.1.conn_list ∧
        (ppp_finished g conn s).1.stat_active + 1 = g.stat_active ∧
        started_count (ppp_finished g conn s).2.1 + 1 = started_count s ∧
        (ppp_finished g conn s).2.1.conn conn.sid = some { conn with ppp_started := false } ∧
        (pppoe_conn_close g conn s).1 = g ∧
        (pppoe_conn_close g conn s).2.1 = s) ∧
      (conn.ppp_started = false →
        (disconnect g conn s).1.stat_active = g.stat_active ∧
        started_count (disconnect g conn s).2.1 = started_count s ∧
        ppp_finished g conn s = (g, s, []) ∧
        pppoe_conn_close g conn s = disconnect g conn s ∧
        (connect_channel g conn s true).1.stat_active = g.stat_active + 1 ∧
        started_count (connect_channel g conn s true).2.1 = started_count s + 1 ∧
        connect_channel g conn s false = disconnect g conn s) := by
  obtain ⟨hinv, hlen, hcnt⟩ := active_inv_reachable M g0 g servs0 servs hM hM2 h0 hg0 hN hr
  refine ⟨hcnt, ?_⟩
  intro pre post s conn hs hmem
  subst hs
  have hsi := hinv s (List.mem_append_right _ (List.mem_cons_self _ _))
  have hD := (active_inv_reachable M g0 _ servs0 _ hM hM2 h0 hg0 hN
    (active_reachable.disc g pre post s conn hr hmem)).2.2
  have hF := (active_inv_reachable M g0 _ servs0 _ hM hM2 h0 hg0 hN
    (active_reachable.finished g pre post s conn hr hmem)).2.2
  have hdisc := (session_inv_disc M g s conn hsi hmem).2
  have hfin := (ppp_finished_step M g s conn hsi hmem).2.1
  rw [total_started_split] at hcnt hD hF
  constructor
  · intro hf
    simp only [hf, ↓reduceIte] at hdisc hfin
    refine ⟨by omega, by omega, hdisc, ?_, by omega, hfin, ?_, ?_, ?_⟩
    · simp only [disconnect]
      exact hsi.nodup.not_mem_erase
    · simp [ppp_finished, hf, hsi.listed conn hmem]
    · simp [pppoe_conn_close, hf]
    · simp [pppoe_conn_close, hf]
  · intro hf
    have hC := (active_inv_reachable M g0 _ servs0 _ hM hM2 h0 hg0 hN
      (active_reachable.connect g pre post s conn true hr hmem hf)).2.2
    have hcon := (connect_channel_step M g s conn true hsi hmem hf).2.1
    rw [total_started_split] at hC
    simp only [hf, Bool.false_eq_true, ↓reduceIte, Nat.add_zero] at hdisc hfin hcon
    refine ⟨by omega, hdisc, ?_, ?_, by omega, hcon, ?_⟩
    · simp [ppp_finished, hf]
    · simp [pppoe_conn_close, hf]
    · simp [connect_channel]

/-- Claim C31 on the demo server: after `allocate_channel` and a successful
`connect_channel` for the new session the counter is 1, as is the number of
sessions with `ppp_started` set. -/
theorem active_counter_invariant_witness :
    2 ≤ 8 ∧ 8 ≤ 65536 ∧ (∀ s ∈ [demo_serv], fresh_table s) ∧ demo_globals.stat_active = 0 ∧
    [demo_serv].length * 8 < 2 ^ 32 ∧
    (connect_channel demo_globals demo_session_1 demo_serv_1 true).1.stat_active = 1 ∧
    total_started [(connect_channel demo_globals demo_session_1 demo_serv_1 true).2.1] = 1 := by
  have h0 : ∀ s ∈ [demo_serv], fresh_table s := by
    intro s hs
    rw [List.mem_singleton] at hs
    subst hs
    exact ⟨fun _ => rfl, rfl, rfl, rfl⟩
  have hN : [demo_serv].length * 8 < 2 ^ 32 := by norm_num
  have h1 : active_reachable 8 demo_globals [demo_serv] demo_globals ([] ++ demo_serv_1 :: []) :=
    active_reachable.alloc demo_globals [] [] demo_serv demo_serv_1 8 true [2, 0, 0, 0, 0, 1]
      none none demo_tag none (List.replicate 24 1) _ active_reachable.start rfl
  have h2 := active_reachable.connect demo_globals [] [] demo_serv_1 demo_session_1 true h1
    (by decide) (by decide)
  have h3 := (active_counter_invariant 8 demo_globals [demo_serv] (by decide) (by decide) h0 rfl
    hN _ _ h2).1
  have h4 : total_started [(connect_channel demo_globals demo_session_1 demo_serv_1 true).2.1]
      = 1 := by decide
  exact ⟨by decide, by decide, h0, rfl, hN, h3.trans h4, h4⟩

end Pppoe
